import Mathlib

/-
Verification of the incremental 3-D Delaunay tetrahedralization engine
(`Source/Urho3D/Math/TetrahedralMesh.cpp`).

The embedding uses exact rational arithmetic for the floating-point and
double-precision computations of the source: every predicate of the source
is a comparison of polynomial expressions in the coordinates, so the
rational model computes the same branches whenever the floating-point
evaluation is exact, and all algebraic identities are stated exactly.
Square roots are avoided by storing squared radii (the source compares
distances to radii; both sides are squares of the modelled values and the
comparisons agree by monotonicity of the square root).

Helper types declared in the header `TetrahedralMesh.h` (which is not part
of the analysed sources) are modelled from the specification; each such
definition carries a doc comment starting with `Modelled from the spec:`.
-/

set_option maxHeartbeats 4000000
set_option maxRecDepth 4000

namespace Urho3D

/-- A 3-D vector with exact rational coordinates, standing for both the
single-precision `Vector3` and the double-precision `HighPrecisionVector3`
of the source. -/
structure Vec3 where
  x : ℚ
  y : ℚ
  z : ℚ
  deriving DecidableEq

/-- Componentwise addition, as `Vector3::operator+`. -/
def Vec3.add (a b : Vec3) : Vec3 :=
  ⟨a.x + b.x, a.y + b.y, a.z + b.z⟩

/-- Componentwise subtraction, as `Vector3::operator-`. -/
def Vec3.sub (a b : Vec3) : Vec3 :=
  ⟨a.x - b.x, a.y - b.y, a.z - b.z⟩

/-- Componentwise negation, as unary `Vector3::operator-`. -/
def Vec3.neg (a : Vec3) : Vec3 :=
  ⟨-a.x, -a.y, -a.z⟩

instance : Add Vec3 := ⟨Vec3.add⟩

instance : Sub Vec3 := ⟨Vec3.sub⟩

instance : Neg Vec3 := ⟨Vec3.neg⟩

/-- Multiplication of a vector by a scalar, as `Vector3::operator*(float)`. -/
def Vec3.scale (a : Vec3) (s : ℚ) : Vec3 :=
  ⟨a.x * s, a.y * s, a.z * s⟩

/-- Componentwise vector multiplication, as `Vector3::operator*(Vector3)`. -/
def Vec3.mulVec (a b : Vec3) : Vec3 :=
  ⟨a.x * b.x, a.y * b.y, a.z * b.z⟩

/-- Dot product, as `Vector3::DotProduct`. -/
def Vec3.DotProduct (a b : Vec3) : ℚ :=
  a.x * b.x + a.y * b.y + a.z * b.z

/-- Cross product, as `Vector3::CrossProduct`. -/
def Vec3.CrossProduct (a b : Vec3) : Vec3 :=
  ⟨a.y * b.z - a.z * b.y, a.z * b.x - a.x * b.z, a.x * b.y - a.y * b.x⟩

/-- Squared length, as `Vector3::LengthSquared`. -/
def Vec3.LengthSquared (a : Vec3) : ℚ :=
  a.DotProduct a

/-- The zero vector `Vector3::ZERO`. -/
def Vec3.zero : Vec3 :=
  ⟨0, 0, 0⟩

/-- Modelled from the spec: the numerical epsilon `M_EPSILON` of the math
headers (not among the analysed sources), used by the degenerate-circumsphere
and outer-matrix branches. -/
def M_EPSILON : ℚ := 1 / 1000000

/-- Modelled from the spec: the coarser epsilon `M_LARGE_EPSILON` of the math
headers, used by the hole-face orientation test. -/
def M_LARGE_EPSILON : ℚ := 1 / 20000

/-- Modelled from the spec: the huge sentinel magnitude `M_LARGE_VALUE` of the
math headers, used for the degenerate circumsphere radius. -/
def M_LARGE_VALUE : ℚ := 100000000

/-- The sentinel index `M_MAX_UNSIGNED`, the largest 32-bit unsigned value,
meaning "no neighbor / hull boundary" in neighbor slots. -/
def M_MAX_UNSIGNED : ℕ := 4294967295

/-- The number of super-mesh vertices (`NumSuperMeshVertices`). -/
def NumSuperMeshVertices : ℕ := 8

/-- Modelled from the spec: the reserved sentinel vertex index `Infinity3`
marking the point-at-infinity corner of an outer cell in the cubic
extrapolation case. -/
def Tetrahedron.Infinity3 : ℕ := M_MAX_UNSIGNED

/-- Modelled from the spec: the reserved sentinel vertex index `Infinity2`
marking the point-at-infinity corner of an outer cell in the lower-degree
(quadratic or linear) extrapolation case. -/
def Tetrahedron.Infinity2 : ℕ := M_MAX_UNSIGNED - 1

/-- A 3x3 matrix with rational entries, as `Matrix3`. -/
structure Matrix3 where
  m00 : ℚ
  m01 : ℚ
  m02 : ℚ
  m10 : ℚ
  m11 : ℚ
  m12 : ℚ
  m20 : ℚ
  m21 : ℚ
  m22 : ℚ
  deriving DecidableEq

/-- A 3x4 matrix with rational entries, as `Matrix3x4`. -/
structure Matrix3x4 where
  m00 : ℚ
  m01 : ℚ
  m02 : ℚ
  m03 : ℚ
  m10 : ℚ
  m11 : ℚ
  m12 : ℚ
  m13 : ℚ
  m20 : ℚ
  m21 : ℚ
  m22 : ℚ
  m23 : ℚ
  deriving DecidableEq

/-- The zero 3x4 matrix. -/
def Matrix3x4.zero : Matrix3x4 :=
  ⟨0, 0, 0, 0, 0, 0, 0, 0, 0, 0, 0, 0⟩

/-- Conversion of a `Matrix3` into a `Matrix3x4` with a zero fourth column,
as the implicit `Matrix3x4(const Matrix3&)` constructor used when the inner
matrix is stored into `Tetrahedron::matrix_`. -/
def Matrix3.toMatrix3x4 (m : Matrix3) : Matrix3x4 :=
  ⟨m.m00, m.m01, m.m02, 0, m.m10, m.m11, m.m12, 0, m.m20, m.m21, m.m22, 0⟩

/-- Multiplication of a 3x4 matrix by a scalar, as
`Matrix3x4::operator*(float)`; every entry is scaled. -/
def Matrix3x4.scale (m : Matrix3x4) (s : ℚ) : Matrix3x4 :=
  ⟨m.m00 * s, m.m01 * s, m.m02 * s, m.m03 * s,
   m.m10 * s, m.m11 * s, m.m12 * s, m.m13 * s,
   m.m20 * s, m.m21 * s, m.m22 * s, m.m23 * s⟩

/-- The determinant of a 3x3 matrix (the divisor computed by
`Matrix3::Inverse`). -/
def Matrix3.det (m : Matrix3) : ℚ :=
  m.m00 * m.m11 * m.m22 + m.m10 * m.m21 * m.m02 + m.m20 * m.m01 * m.m12
    - m.m20 * m.m11 * m.m02 - m.m10 * m.m01 * m.m22 - m.m00 * m.m21 * m.m12

/-- Modelled from the spec: "compute the inverse of the 3x3 matrix whose
columns are edge vectors"; the standard adjugate-over-determinant inverse
computed by `Matrix3::Inverse` of the math headers. -/
def Matrix3.Inverse (m : Matrix3) : Matrix3 :=
  let invDet := 1 / m.det
  ⟨(m.m11 * m.m22 - m.m21 * m.m12) * invDet,
   -(m.m01 * m.m22 - m.m21 * m.m02) * invDet,
   (m.m01 * m.m12 - m.m11 * m.m02) * invDet,
   -(m.m10 * m.m22 - m.m20 * m.m12) * invDet,
   (m.m00 * m.m22 - m.m20 * m.m02) * invDet,
   -(m.m00 * m.m12 - m.m10 * m.m02) * invDet,
   (m.m10 * m.m21 - m.m20 * m.m11) * invDet,
   -(m.m00 * m.m21 - m.m20 * m.m01) * invDet,
   (m.m00 * m.m11 - m.m10 * m.m01) * invDet⟩

/-- Application of a 3x3 matrix to a vector (row-times-column), as
`Matrix3::operator*(Vector3)`. -/
def Matrix3.apply (m : Matrix3) (v : Vec3) : Vec3 :=
  ⟨m.m00 * v.x + m.m01 * v.y + m.m02 * v.z,
   m.m10 * v.x + m.m11 * v.y + m.m12 * v.z,
   m.m20 * v.x + m.m21 * v.y + m.m22 * v.z⟩

/-- Modelled from the spec: a four-corner, four-neighbor cell — four ordered
vertex indices, four neighbor cell indices (slot `i` names the neighbor
across the face opposite vertex `i`, with `M_MAX_UNSIGNED` meaning no
neighbor), and a precomputed transform matrix. -/
structure Tetrahedron where
  indices_ : Fin 4 → ℕ
  neighbors_ : Fin 4 → ℕ
  matrix_ : Matrix3x4

instance : DecidableEq Tetrahedron := fun a b =>
  decidable_of_iff
    (a.indices_ = b.indices_ ∧ a.neighbors_ = b.neighbors_ ∧ a.matrix_ = b.matrix_)
    (by cases a; cases b; simp)

/-- Modelled from the spec: a default-constructed `Tetrahedron` — zero vertex
indices, all neighbor slots at the sentinel, zero matrix. -/
def Tetrahedron.empty : Tetrahedron :=
  ⟨fun _ => 0, fun _ => M_MAX_UNSIGNED, Matrix3x4.zero⟩

/-- Modelled from the spec: `Tetrahedron::HasNeighbor` — whether any of the
four neighbor slots names the given cell. -/
def Tetrahedron.HasNeighbor (t : Tetrahedron) (i : ℕ) : Bool :=
  (List.finRange 4).any fun f => t.neighbors_ f == i

/-- Modelled from the spec: `Tetrahedron::GetNeighborFaceIndex` — the first
face whose neighbor slot names the given cell, or the sentinel when none
does. -/
def Tetrahedron.GetNeighborFaceIndex (t : Tetrahedron) (i : ℕ) : ℕ :=
  match (List.finRange 4).find? (fun f => t.neighbors_ f == i) with
  | some f => f.val
  | none => M_MAX_UNSIGNED

/-- Replacement of one neighbor slot, addressed by a plain natural number as
the source addresses raw arrays; an out-of-range slot leaves the cell
unchanged (the source never takes that branch in a valid state). -/
def Tetrahedron.setNeighbor (t : Tetrahedron) (f : ℕ) (v : ℕ) : Tetrahedron :=
  if h : f < 4 then { t with neighbors_ := Function.update t.neighbors_ ⟨f, h⟩ v } else t

/-- Replacement of one vertex-index slot, addressed by a plain natural
number. -/
def Tetrahedron.setIndex (t : Tetrahedron) (f : ℕ) (v : ℕ) : Tetrahedron :=
  if h : f < 4 then { t with indices_ := Function.update t.indices_ ⟨f, h⟩ v } else t

/-- Indexed read of the tetrahedron list, as `tetrahedrons_[i]`. -/
def getTet (tets : List Tetrahedron) (i : ℕ) : Tetrahedron :=
  tets.getD i Tetrahedron.empty

/-- Indexed read of the vertex list, as `vertices_[i]`. -/
def getVec (vs : List Vec3) (i : ℕ) : Vec3 :=
  vs.getD i Vec3.zero

/-- The adjacency-symmetry checker `TetrahedralMesh::IsAdjacencyValid`: every
non-sentinel neighbor slot of every cell must be mirrored by the named
neighbor (`HasNeighbor`), and with `fullyConnected` set no sentinel slot is
allowed at all. -/
def IsAdjacencyValid (tets : List Tetrahedron) (fullyConnected : Bool) : Bool :=
  (List.range tets.length).all fun tetIndex =>
    (List.finRange 4).all fun faceIndex =>
      let neighborIndex := (getTet tets tetIndex).neighbors_ faceIndex
      if neighborIndex != M_MAX_UNSIGNED then
        (getTet tets neighborIndex).HasNeighbor tetIndex
      else
        !fullyConnected

/-- Modelled from the spec: the cached circumsphere of the Delaunay context —
an exact center and the square of the source's stored radius (the source
stores `radius_` itself; all of its uses compare distances, which the square
determines by monotonicity). -/
structure HighPrecisionSphere where
  center : Vec3
  radiusSquared : ℚ
  deriving DecidableEq

/-- The default (empty) sphere pushed by `circumspheres_.push_back()`. -/
def HighPrecisionSphere.empty : HighPrecisionSphere :=
  ⟨Vec3.zero, 0⟩

/-- The numerator vector `radiusNum` of `GetTetrahedronCircumsphere`:
`u2u3 * d01 + u3u1 * d02 + u1u2 * d03` for the edge vectors `u1, u2, u3`
from corner 0. -/
def circumsphereRadiusNum (vertices : List Vec3) (tetrahedron : Tetrahedron) : Vec3 :=
  (((getVec vertices (tetrahedron.indices_ 2) - getVec vertices (tetrahedron.indices_ 0)).CrossProduct
      (getVec vertices (tetrahedron.indices_ 3) - getVec vertices (tetrahedron.indices_ 0))).scale
    (getVec vertices (tetrahedron.indices_ 1) - getVec vertices (tetrahedron.indices_ 0)).LengthSquared) +
  (((getVec vertices (tetrahedron.indices_ 3) - getVec vertices (tetrahedron.indices_ 0)).CrossProduct
      (getVec vertices (tetrahedron.indices_ 1) - getVec vertices (tetrahedron.indices_ 0))).scale
    (getVec vertices (tetrahedron.indices_ 2) - getVec vertices (tetrahedron.indices_ 0)).LengthSquared) +
  (((getVec vertices (tetrahedron.indices_ 1) - getVec vertices (tetrahedron.indices_ 0)).CrossProduct
      (getVec vertices (tetrahedron.indices_ 2) - getVec vertices (tetrahedron.indices_ 0))).scale
    (getVec vertices (tetrahedron.indices_ 3) - getVec vertices (tetrahedron.indices_ 0)).LengthSquared)

/-- The denominator `radiusDen = 2 * u1 . (u2 x u3)` of
`GetTetrahedronCircumsphere`. -/
def circumsphereRadiusDen (vertices : List Vec3) (tetrahedron : Tetrahedron) : ℚ :=
  2 * (getVec vertices (tetrahedron.indices_ 1) - getVec vertices (tetrahedron.indices_ 0)).DotProduct
    ((getVec vertices (tetrahedron.indices_ 2) - getVec vertices (tetrahedron.indices_ 0)).CrossProduct
      (getVec vertices (tetrahedron.indices_ 3) - getVec vertices (tetrahedron.indices_ 0)))

/-- The circumcenter `center = p0 + radiusNum * (1 / radiusDen)` computed by
`GetTetrahedronCircumsphere` in the non-degenerate branch. -/
def circumsphereCenter (vertices : List Vec3) (tetrahedron : Tetrahedron) : Vec3 :=
  getVec vertices (tetrahedron.indices_ 0) +
    (circumsphereRadiusNum vertices tetrahedron).scale
      (1 / circumsphereRadiusDen vertices tetrahedron)

/-- The circumsphere computation `TetrahedralMesh::GetTetrahedronCircumsphere`:
solve for the circumcenter from the three edge vectors; if the denominator
`2 * u1 . (u2 x u3)` is smaller than `M_EPSILON * M_EPSILON` in absolute
value, return the sentinel sphere with zero center and radius
`M_LARGE_VALUE * M_LARGE_VALUE` (whose square is stored here); otherwise the
radius is the minimum of the four corner distances to the computed center. -/
def GetTetrahedronCircumsphere (vertices : List Vec3) (tetrahedron : Tetrahedron) :
    HighPrecisionSphere :=
  let radiusDen := circumsphereRadiusDen vertices tetrahedron
  if |radiusDen| < M_EPSILON * M_EPSILON then
    ⟨Vec3.zero, (M_LARGE_VALUE * M_LARGE_VALUE) ^ 2⟩
  else
    let center := circumsphereCenter vertices tetrahedron
    let s0 := (getVec vertices (tetrahedron.indices_ 0) - center).LengthSquared
    let s1 := (getVec vertices (tetrahedron.indices_ 1) - center).LengthSquared
    let s2 := (getVec vertices (tetrahedron.indices_ 2) - center).LengthSquared
    let s3 := (getVec vertices (tetrahedron.indices_ 3) - center).LengthSquared
    ⟨center, min (min (min s0 s1) s2) s3⟩

/-- An axis-aligned bounding box, as `BoundingBox`. -/
structure BoundingBox where
  min_ : Vec3
  max_ : Vec3

/-- The box extents, as `BoundingBox::Size`. -/
def BoundingBox.Size (b : BoundingBox) : Vec3 :=
  b.max_ - b.min_

/-- The eight corner offsets of the super-mesh box, in the order of the
`offsets` table of `TetrahedralMesh::InitializeSuperMesh`. -/
def superMeshOffsets : Fin 8 → Vec3 :=
  ![⟨0, 0, 0⟩, ⟨1, 0, 0⟩, ⟨0, 1, 0⟩, ⟨1, 1, 0⟩, ⟨0, 0, 1⟩, ⟨1, 0, 1⟩, ⟨0, 1, 1⟩, ⟨1, 1, 1⟩]

/-- The vertex-index table of the five super-mesh tetrahedra (four corner
cells and one central cell), as the `indices` table of
`TetrahedralMesh::InitializeSuperMesh`. -/
def superMeshIndices : Fin 5 → Fin 4 → ℕ :=
  ![![0, 1, 2, 4], ![3, 1, 2, 7], ![5, 1, 4, 7], ![6, 2, 4, 7], ![1, 2, 4, 7]]

/-- The hand-specified neighbor table of the five super-mesh tetrahedra, as
the `neighbors` table of `TetrahedralMesh::InitializeSuperMesh`. -/
def superMeshNeighbors : Fin 5 → Fin 4 → ℕ :=
  ![![4, M_MAX_UNSIGNED, M_MAX_UNSIGNED, M_MAX_UNSIGNED],
    ![4, M_MAX_UNSIGNED, M_MAX_UNSIGNED, M_MAX_UNSIGNED],
    ![4, M_MAX_UNSIGNED, M_MAX_UNSIGNED, M_MAX_UNSIGNED],
    ![4, M_MAX_UNSIGNED, M_MAX_UNSIGNED, M_MAX_UNSIGNED],
    ![3, 2, 1, 0]]

/-- The super-mesh bootstrap `TetrahedralMesh::InitializeSuperMesh`: eight
vertices at the corners of the padded bounding box and the five tabled
tetrahedra. The result is the pair of the vertex list and the tetrahedron
list written into the mesh. -/
def InitializeSuperMesh (boundingBox : BoundingBox) : List Vec3 × List Tetrahedron :=
  ((List.finRange 8).map fun i =>
      boundingBox.min_ + boundingBox.Size.mulVec (superMeshOffsets i),
   (List.finRange 5).map fun i =>
      { indices_ := superMeshIndices i
        neighbors_ := superMeshNeighbors i
        matrix_ := Matrix3x4.zero })

/-- The 3x3 matrix whose columns are the edge vectors `p1 - p0`, `p2 - p0`,
`p3 - p0` of an inner tetrahedron, as built inline by
`TetrahedralMesh::CalculateInnerMatrices`. -/
def innerEdgeMatrix (vertices : List Vec3) (tetrahedron : Tetrahedron) : Matrix3 :=
  let p0 := getVec vertices (tetrahedron.indices_ 0)
  let p1 := getVec vertices (tetrahedron.indices_ 1)
  let p2 := getVec vertices (tetrahedron.indices_ 2)
  let p3 := getVec vertices (tetrahedron.indices_ 3)
  let u1 := p1 - p0
  let u2 := p2 - p0
  let u3 := p3 - p0
  ⟨u1.x, u2.x, u3.x, u1.y, u2.y, u3.y, u1.z, u2.z, u3.z⟩

/-- The inner-matrix precomputation `TetrahedralMesh::CalculateInnerMatrices`:
every inner cell's matrix becomes the inverse of its edge matrix; outer cells
are untouched. -/
def CalculateInnerMatrices (vertices : List Vec3) (tets : List Tetrahedron)
    (numInnerTetrahedrons : ℕ) : List Tetrahedron :=
  tets.mapIdx fun tetIndex t =>
    if tetIndex < numInnerTetrahedrons then
      { t with matrix_ := (innerEdgeMatrix vertices t).Inverse.toMatrix3x4 }
    else t

/-- The raw 3x4 outer-cell matrix of `TetrahedralMesh::CalculateOuterMatrices`
(the value written into `tetrahedron.matrix_` before the leading-coefficient
branch), from the three hull-face corner positions and their hull normals. -/
def outerMatrixRaw (positions normals : Fin 3 → Vec3) : Matrix3x4 :=
  let A := positions 0 - positions 2
  let Ap := normals 0 - normals 2
  let B := positions 1 - positions 2
  let Bp := normals 1 - normals 2
  let P2 := positions 2
  let Cp := -(normals 2)
  let m00 := Ap.y * Bp.z - Ap.z * Bp.y
  let m01 := -(Ap.x * Bp.z) + Ap.z * Bp.x
  let m02 := Ap.x * Bp.y - Ap.y * Bp.x
  let m03raw :=
    A.x * Bp.y * Cp.z - A.y * Bp.x * Cp.z + Ap.x * B.y * Cp.z - Ap.y * B.x * Cp.z
      + A.z * Bp.x * Cp.y - A.z * Bp.y * Cp.x + Ap.z * B.x * Cp.y - Ap.z * B.y * Cp.x
      - A.x * Bp.z * Cp.y + A.y * Bp.z * Cp.x - Ap.x * B.z * Cp.y + Ap.y * B.z * Cp.x
  let m03 := m03raw - (P2.x * m00 + P2.y * m01 + P2.z * m02)
  let m10 := Ap.y * B.z + A.y * Bp.z - Ap.z * B.y - A.z * Bp.y
  let m11 := -(A.x * Bp.z) - Ap.x * B.z + A.z * Bp.x + Ap.z * B.x
  let m12 := A.x * Bp.y - A.y * Bp.x + Ap.x * B.y - Ap.y * B.x
  let m13raw :=
    A.x * B.y * Cp.z - A.y * B.x * Cp.z - A.x * B.z * Cp.y + A.y * B.z * Cp.x
      + A.z * B.x * Cp.y - A.z * B.y * Cp.x
  let m13 := m13raw - (P2.x * m10 + P2.y * m11 + P2.z * m12)
  let m20 := -(A.z * B.y) + A.y * B.z
  let m21 := -(A.x * B.z) + A.z * B.x
  let m22 := A.x * B.y - A.y * B.x
  let m23 := 0 - (P2.x * m20 + P2.y * m21 + P2.z * m22)
  ⟨m00, m01, m02, m03, m10, m11, m12, m13, m20, m21, m22, m23⟩

/-- The leading coefficient `a` of the closed-form cubic in
`TetrahedralMesh::CalculateOuterMatrices`; it depends only on the three hull
normals. -/
def outerLeadingCoefficient (normals : Fin 3 → Vec3) : ℚ :=
  let Ap := normals 0 - normals 2
  let Bp := normals 1 - normals 2
  let Cp := -(normals 2)
  Ap.x * Bp.y * Cp.z - Ap.y * Bp.x * Cp.z + Ap.z * Bp.x * Cp.y
    - Ap.z * Bp.y * Cp.x + Ap.y * Bp.z * Cp.x - Ap.x * Bp.z * Cp.y

/-- The three hull-face corner positions of an outer cell (vertex indices 0-2
looked up in a vertex or normal list). -/
def outerCorners (vs : List Vec3) (tetrahedron : Tetrahedron) : Fin 3 → Vec3 :=
  fun i => getVec vs (tetrahedron.indices_ i.castSucc)

/-- The per-cell body of the `CalculateOuterMatrices` loop: write the raw
matrix; if `|a| > M_EPSILON` scale the matrix by `1 / a` (cubic case, 4th
index remains `Infinity3`), otherwise leave the matrix unscaled and retag the
4th vertex index as `Infinity2`. -/
def CalculateOuterMatrixCell (vertices hullNormals : List Vec3)
    (tetrahedron : Tetrahedron) : Tetrahedron :=
  let positions := outerCorners vertices tetrahedron
  let normals := outerCorners hullNormals tetrahedron
  let m := outerMatrixRaw positions normals
  let a := outerLeadingCoefficient normals
  if M_EPSILON < |a| then
    { tetrahedron with matrix_ := m.scale (1 / a) }
  else
    { tetrahedron with
        matrix_ := m
        indices_ := Function.update tetrahedron.indices_ 3 Tetrahedron.Infinity2 }

/-- The outer-matrix precomputation `TetrahedralMesh::CalculateOuterMatrices`:
apply the per-cell body to every outer cell (indices at or past
`numInnerTetrahedrons_`). -/
def CalculateOuterMatrices (vertices hullNormals : List Vec3) (tets : List Tetrahedron)
    (numInnerTetrahedrons : ℕ) : List Tetrahedron :=
  tets.mapIdx fun tetIndex t =>
    if numInnerTetrahedrons ≤ tetIndex then CalculateOuterMatrixCell vertices hullNormals t
    else t

/-- The multiset of the three vertex indices of a tetrahedron face (the face
opposite the given corner), used to state that linked cells match across a
shared face. -/
def faceVertices (t : Tetrahedron) (f : Fin 4) : Multiset ℕ :=
  (((List.finRange 4).filter (fun j => j != f)).map t.indices_ : List ℕ)

/-- Modelled from the spec: a boundary triangle of a mesh surface — three
vertex indices; per edge, the index of the adjacent boundary triangle sharing
that edge (edge `j` is the edge opposite vertex `j`, the sentinel meaning not
yet linked); the index of the tetrahedron corner opposite the face it was cut
from; and a back-reference to the tetrahedron and face it bounds (sentinel
for faces created ad hoc at the hull). -/
structure TetrahedralMeshSurfaceTriangle where
  indices_ : Fin 3 → ℕ
  neighbors_ : Fin 3 → ℕ
  unusedIndex_ : ℕ
  tetIndex_ : ℕ
  tetFace_ : ℕ

instance : DecidableEq TetrahedralMeshSurfaceTriangle := fun a b =>
  decidable_of_iff
    (a.indices_ = b.indices_ ∧ a.neighbors_ = b.neighbors_ ∧
      a.unusedIndex_ = b.unusedIndex_ ∧ a.tetIndex_ = b.tetIndex_ ∧ a.tetFace_ = b.tetFace_)
    (by cases a; cases b; simp)

/-- The default surface triangle (unlinked, no back-reference). -/
def TetrahedralMeshSurfaceTriangle.empty : TetrahedralMeshSurfaceTriangle :=
  ⟨fun _ => 0, fun _ => M_MAX_UNSIGNED, M_MAX_UNSIGNED, M_MAX_UNSIGNED, M_MAX_UNSIGNED⟩

/-- Indexed read of a surface's face list. -/
def getTri (faces : List TetrahedralMeshSurfaceTriangle) (i : ℕ) :
    TetrahedralMeshSurfaceTriangle :=
  faces.getD i TetrahedralMeshSurfaceTriangle.empty

/-- The `j`-th corner slot of the face opposite corner `faceIndex` of a
tetrahedron (the three slots other than `faceIndex`, in ascending order). -/
def faceSlot (faceIndex : Fin 4) (j : Fin 3) : Fin 4 :=
  if j.val < faceIndex.val then ⟨j.val, by omega⟩ else ⟨j.val + 1, by omega⟩

/-- Modelled from the spec: `Tetrahedron::GetTriangleFace` — the boundary
triangle holding the three vertex indices of the face opposite the given
corner, the opposite corner itself as `unusedIndex_`, and the given
back-reference; edges start unlinked. -/
def Tetrahedron.GetTriangleFace (t : Tetrahedron) (faceIndex : Fin 4)
    (tetIndex tetFace : ℕ) : TetrahedralMeshSurfaceTriangle :=
  { indices_ := fun j => t.indices_ (faceSlot faceIndex j)
    neighbors_ := fun _ => M_MAX_UNSIGNED
    unusedIndex_ := t.indices_ faceIndex
    tetIndex_ := tetIndex
    tetFace_ := tetFace }

/-- `GetTriangleFace` addressed with a plain natural face number, as the
source indexes raw arrays; out of range yields the default triangle with the
given back-reference (the source never takes that branch in a valid state). -/
def Tetrahedron.GetTriangleFaceN (t : Tetrahedron) (faceIndex : ℕ)
    (tetIndex tetFace : ℕ) : TetrahedralMeshSurfaceTriangle :=
  if h : faceIndex < 4 then t.GetTriangleFace ⟨faceIndex, h⟩ tetIndex tetFace
  else { TetrahedralMeshSurfaceTriangle.empty with tetIndex_ := tetIndex, tetFace_ := tetFace }

/-- The unordered vertex pair of edge `j` of a boundary triangle (the edge
opposite vertex `j`), normalized as (smaller, larger). -/
def TetrahedralMeshSurfaceTriangle.edge (tri : TetrahedralMeshSurfaceTriangle)
    (j : Fin 3) : ℕ × ℕ :=
  let a := tri.indices_ (j + 1)
  let b := tri.indices_ (j + 2)
  (min a b, max a b)

/-- Modelled from the spec: `TetrahedralMeshSurfaceTriangle::Normalize` —
reorient the triangle so that its normal points away from the recorded
opposite corner of the tetrahedron it was cut from (for hole faces this makes
the normal face the carved hole; for hull faces, outward); swapping two
vertex slots also swaps the two corresponding edge links. A triangle without
a recorded opposite corner is left unchanged. -/
def TetrahedralMeshSurfaceTriangle.Normalize (tri : TetrahedralMeshSurfaceTriangle)
    (vertices : List Vec3) : TetrahedralMeshSurfaceTriangle :=
  if tri.unusedIndex_ != M_MAX_UNSIGNED then
    let p0 := getVec vertices (tri.indices_ 0)
    let p1 := getVec vertices (tri.indices_ 1)
    let p2 := getVec vertices (tri.indices_ 2)
    let p3 := getVec vertices tri.unusedIndex_
    let normal := (p1 - p0).CrossProduct (p2 - p0)
    if 0 < normal.DotProduct (p3 - p0) then
      { tri with
          indices_ := ![tri.indices_ 0, tri.indices_ 2, tri.indices_ 1]
          neighbors_ := ![tri.neighbors_ 0, tri.neighbors_ 2, tri.neighbors_ 1] }
    else tri
  else tri

/-- Replacement of one edge link of a boundary triangle. -/
def TetrahedralMeshSurfaceTriangle.setNeighbor (tri : TetrahedralMeshSurfaceTriangle)
    (l : Fin 3) (v : ℕ) : TetrahedralMeshSurfaceTriangle :=
  { tri with neighbors_ := Function.update tri.neighbors_ l v }

/-- The first unlinked edge slot among the existing faces matching the given
unordered vertex pair, scanning faces in order. -/
def findOpenEdge (faces : List TetrahedralMeshSurfaceTriangle) (e : ℕ × ℕ) :
    Option (ℕ × Fin 3) :=
  (List.range faces.length).findSome? fun k =>
    ((List.finRange 3).find? fun l =>
        decide ((getTri faces k).edge l = e) && ((getTri faces k).neighbors_ l == M_MAX_UNSIGNED)).map
      fun l => (k, l)

/-- Modelled from the spec: `TetrahedralMeshSurface::AddFace` — append a face
to the mutually-linked face set: each of its three edges is linked to the
first existing face with a matching unlinked edge (and that face is linked
back). The spec gives `AddFace` no failure condition; defects surface in the
closedness check instead. -/
def AddFace (faces : List TetrahedralMeshSurfaceTriangle)
    (tri0 : TetrahedralMeshSurfaceTriangle) : List TetrahedralMeshSurfaceTriangle :=
  let n := faces.length
  let st := (List.finRange 3).foldl
    (fun (st : List TetrahedralMeshSurfaceTriangle × TetrahedralMeshSurfaceTriangle) j =>
      match findOpenEdge st.1 (st.2.edge j) with
      | some (k, l) =>
          (st.1.set k ((getTri st.1 k).setNeighbor l n), st.2.setNeighbor j k)
      | none => st)
    (faces, tri0)
  st.1 ++ [st.2]

/-- The number of edge slots of the whole face list matching the given
unordered vertex pair. -/
def edgeCount (faces : List TetrahedralMeshSurfaceTriangle) (e : ℕ × ℕ) : ℕ :=
  ((List.range faces.length).map fun k =>
      ((List.finRange 3).filter fun l => decide ((getTri faces k).edge l = e)).length).sum

/-- Modelled from the spec: "a surface is closed iff every edge has exactly
one matching edge in the surface, i.e. no boundary edges of its own" — every
edge slot's unordered vertex pair occurs exactly twice in the face list. -/
def IsClosedSurface (faces : List TetrahedralMeshSurfaceTriangle) : Bool :=
  (List.range faces.length).all fun i =>
    (List.finRange 3).all fun j =>
      edgeCount faces ((getTri faces i).edge j) == 2

/-- Equality of all surface-triangle fields except the edge links; `AddFace`
only rewires links, so these fields survive the linking fold. -/
def sameTriFields (a b : TetrahedralMeshSurfaceTriangle) : Prop :=
  a.indices_ = b.indices_ ∧ a.tetIndex_ = b.tetIndex_ ∧ a.tetFace_ = b.tetFace_ ∧
    a.unusedIndex_ = b.unusedIndex_

/-- The structural soundness of the edge links produced by `AddFace`: every
linked edge names another face of the set, never its own face, and the named
face links back across an edge with the same vertex pair. -/
def WellLinked (faces : List TetrahedralMeshSurfaceTriangle) : Prop :=
  ∀ i, ∀ j : Fin 3, i < faces.length →
    (getTri faces i).neighbors_ j ≠ M_MAX_UNSIGNED →
    (getTri faces i).neighbors_ j < faces.length ∧
    (getTri faces i).neighbors_ j ≠ i ∧
    ∃ j' : Fin 3,
      (getTri faces ((getTri faces i).neighbors_ j)).neighbors_ j' = i ∧
      (getTri faces ((getTri faces i).neighbors_ j)).edge j' = (getTri faces i).edge j

/-- One edge-linking step of `AddFace` (the body of its three-edge fold),
with `n` the index the face being added will receive. -/
def addFaceStep (n : ℕ) (st : List TetrahedralMeshSurfaceTriangle ×
    TetrahedralMeshSurfaceTriangle) (j : Fin 3) :
    List TetrahedralMeshSurfaceTriangle × TetrahedralMeshSurfaceTriangle :=
  match findOpenEdge st.1 (st.2.edge j) with
  | some (k, l) =>
      (st.1.set k ((getTri st.1 k).setNeighbor l n), st.2.setNeighbor j k)
  | none => st

/-- The invariant of the `AddFace` fold state: the face set keeps its size,
every linked edge of the set either pairs mutually inside the set or names
the incoming face (index `n`) and is mirrored by one of its pending links,
and every pending link of the incoming face is mirrored in the set. -/
def AddFaceInv (n : ℕ) (st : List TetrahedralMeshSurfaceTriangle ×
    TetrahedralMeshSurfaceTriangle) : Prop :=
  st.1.length = n ∧
  (∀ i, ∀ j₂ : Fin 3, i < n → (getTri st.1 i).neighbors_ j₂ ≠ M_MAX_UNSIGNED →
    ((getTri st.1 i).neighbors_ j₂ < n ∧ (getTri st.1 i).neighbors_ j₂ ≠ i ∧
      ∃ j' : Fin 3,
        (getTri st.1 ((getTri st.1 i).neighbors_ j₂)).neighbors_ j' = i ∧
        (getTri st.1 ((getTri st.1 i).neighbors_ j₂)).edge j' =
          (getTri st.1 i).edge j₂) ∨
    ((getTri st.1 i).neighbors_ j₂ = n ∧
      ∃ j' : Fin 3, st.2.neighbors_ j' = i ∧
        st.2.edge j' = (getTri st.1 i).edge j₂)) ∧
  (∀ j₂ : Fin 3, st.2.neighbors_ j₂ ≠ M_MAX_UNSIGNED →
    st.2.neighbors_ j₂ < n ∧
    ∃ j' : Fin 3, (getTri st.1 (st.2.neighbors_ j₂)).neighbors_ j' = n ∧
      (getTri st.1 (st.2.neighbors_ j₂)).edge j' = st.2.edge j₂)

/-- No two distinct unlinked edge slots of the face set carry the same vertex
pair: the greedy matching of `AddFace` links matching open edges as soon as
both are present, so open edges are pairwise distinct. -/
def openSlotsEdgeDistinct (faces : List TetrahedralMeshSurfaceTriangle) : Prop :=
  ∀ i i', ∀ j j' : Fin 3, i < faces.length → i' < faces.length →
    (i, j) ≠ (i', j') →
    (getTri faces i).neighbors_ j = M_MAX_UNSIGNED →
    (getTri faces i').neighbors_ j' = M_MAX_UNSIGNED →
    (getTri faces i).edge j ≠ (getTri faces i').edge j'

/-- The three edges of a triangle are pairwise distinct as unordered vertex
pairs (true whenever its three corners are distinct). -/
def triEdgesDistinct (tri : TetrahedralMeshSurfaceTriangle) : Prop :=
  ∀ j j' : Fin 3, j ≠ j' → tri.edge j ≠ tri.edge j'

/-- Read of the removal-flag array; out of range counts as removed (the
source never indexes out of range in a valid state). -/
def removedAt (removed : List Bool) (i : ℕ) : Bool :=
  removed.getD i true

/-- Modelled from the spec: the construction's conflict predicate — whether
the cached circumsphere of the given cell contains the query position
(squared distance strictly below the stored squared radius). -/
def IsInsideCircumsphere (circumspheres : List HighPrecisionSphere) (tetIndex : ℕ)
    (position : Vec3) : Bool :=
  let sphere := circumspheres.getD tetIndex HighPrecisionSphere.empty
  decide ((position - sphere.center).LengthSquared < sphere.radiusSquared)

/-- The seed scan of `FindAndRemoveIntersected`: the first live tetrahedron
whose circumsphere contains the position. -/
def findFirstIntersected (tets : List Tetrahedron)
    (circumspheres : List HighPrecisionSphere) (removed : List Bool)
    (position : Vec3) : Option ℕ :=
  (List.range tets.length).find? fun tetIndex =>
    !(removedAt removed tetIndex) && IsInsideCircumsphere circumspheres tetIndex position

/-- One neighbor inspection of the breadth-first conflict search: a live
neighbor whose circumsphere contains the position is marked removed and
queued. -/
def floodFillProcessFace (tets : List Tetrahedron)
    (circumspheres : List HighPrecisionSphere) (position : Vec3)
    (st : List Bool × List ℕ) (tetIndex : ℕ) (faceIndex : Fin 4) :
    List Bool × List ℕ :=
  let neighborTetIndex := (getTet tets tetIndex).neighbors_ faceIndex
  if neighborTetIndex = M_MAX_UNSIGNED then st
  else if removedAt st.1 neighborTetIndex then st
  else if IsInsideCircumsphere circumspheres neighborTetIndex position then
    (st.1.set neighborTetIndex true, st.2 ++ [neighborTetIndex])
  else st

theorem count_false_set_true (l : List Bool) (n : ℕ) (h : l.getD n true = false) :
    (l.set n true).count false + 1 = l.count false := by
  induction l generalizing n with
  | nil => simp [List.getD] at h
  | cons b t ih =>
    cases n with
    | zero =>
      rw [List.getD_cons_zero] at h
      subst h
      simp [List.count_cons]
    | succ n =>
      rw [List.getD_cons_succ] at h
      have h2 := ih n h
      simp only [List.set_cons_succ, List.count_cons]
      omega

theorem floodFillProcessFace_measure (tets : List Tetrahedron)
    (circumspheres : List HighPrecisionSphere) (position : Vec3)
    (st : List Bool × List ℕ) (tetIndex : ℕ) (faceIndex : Fin 4) :
    2 * (floodFillProcessFace tets circumspheres position st tetIndex faceIndex).1.count false +
        (floodFillProcessFace tets circumspheres position st tetIndex faceIndex).2.length ≤
      2 * st.1.count false + st.2.length := by
  rw [floodFillProcessFace]
  split
  · exact le_refl _
  · split
    · exact le_refl _
    · split
      · rename_i hrem _
        have hfalse : st.1.getD ((getTet tets tetIndex).neighbors_ faceIndex) true = false := by
          simpa [removedAt] using hrem
        have := count_false_set_true st.1 _ hfalse
        simp only [List.length_append, List.length_cons, List.length_nil]
        omega
      · exact le_refl _

theorem floodFillFold_measure (tets : List Tetrahedron)
    (circumspheres : List HighPrecisionSphere) (position : Vec3)
    (st : List Bool × List ℕ) (tetIndex : ℕ) :
    2 * ((List.finRange 4).foldl
          (fun st f => floodFillProcessFace tets circumspheres position st tetIndex f)
          st).1.count false +
        ((List.finRange 4).foldl
          (fun st f => floodFillProcessFace tets circumspheres position st tetIndex f)
          st).2.length ≤
      2 * st.1.count false + st.2.length := by
  have step : ∀ (l : List (Fin 4)) (st : List Bool × List ℕ),
      2 * (l.foldl (fun st f => floodFillProcessFace tets circumspheres position st tetIndex f)
            st).1.count false +
          (l.foldl (fun st f => floodFillProcessFace tets circumspheres position st tetIndex f)
            st).2.length ≤
        2 * st.1.count false + st.2.length := by
    intro l
    induction l with
    | nil => intro st; exact le_refl _
    | cons f fs ih =>
      intro st
      calc _ ≤ 2 * (floodFillProcessFace tets circumspheres position st tetIndex f).1.count false +
            (floodFillProcessFace tets circumspheres position st tetIndex f).2.length :=
              ih _
        _ ≤ _ := floodFillProcessFace_measure tets circumspheres position st tetIndex f
  exact step _ st

/-- The breadth-first conflict-region search of `FindAndRemoveIntersected`
("note: size may change during the loop"): process queue position `i`,
inspecting the four neighbors of the queued cell, until the queue is
exhausted. -/
def floodFillAux (tets : List Tetrahedron) (circumspheres : List HighPrecisionSphere)
    (position : Vec3) (removed : List Bool) (queue : List ℕ) (i : ℕ) :
    List Bool × List ℕ :=
  if h : i < queue.length then
    floodFillAux tets circumspheres position
      ((List.finRange 4).foldl
        (fun st f => floodFillProcessFace tets circumspheres position st (queue.getD i 0) f)
        (removed, queue)).1
      ((List.finRange 4).foldl
        (fun st f => floodFillProcessFace tets circumspheres position st (queue.getD i 0) f)
        (removed, queue)).2
      (i + 1)
  else (removed, queue)
termination_by 2 * removed.count false + queue.length - i
decreasing_by
  have hm := floodFillFold_measure tets circumspheres position (removed, queue) (queue.getD i 0)
  simp only at hm
  omega

/-- The hole-boundary extraction of `FindAndRemoveIntersected`: for every
removed cell, a face toward the hull becomes a sentinel-backed triangle of
the removed cell itself, and a face toward a live neighbor becomes that
neighbor's matching face (backed by the neighbor). Faces toward other removed
cells are interior to the hole and skipped. -/
def collectHoleTriangles (tets : List Tetrahedron) (removedFlags : List Bool)
    (removedTetrahedrons : List ℕ) : List TetrahedralMeshSurfaceTriangle :=
  removedTetrahedrons.flatMap fun tetIndex =>
    (List.finRange 4).filterMap fun faceIndex =>
      let tetrahedron := getTet tets tetIndex
      let neighborTetIndex := tetrahedron.neighbors_ faceIndex
      if neighborTetIndex = M_MAX_UNSIGNED then
        some (tetrahedron.GetTriangleFace faceIndex M_MAX_UNSIGNED M_MAX_UNSIGNED)
      else if removedAt removedFlags neighborTetIndex then none
      else
        let neighborTetrahedron := getTet tets neighborTetIndex
        let neighborFaceIndex := neighborTetrahedron.GetNeighborFaceIndex tetIndex
        some (neighborTetrahedron.GetTriangleFaceN neighborFaceIndex
          neighborTetIndex neighborFaceIndex)

/-- The signed orientation volume of the hole-face check: the hole triangle's
normal `(p2 - p1) x (p3 - p1)` dotted with `position - p1`. -/
def orientationDistance (vertices : List Vec3) (position : Vec3)
    (triangle : TetrahedralMeshSurfaceTriangle) : ℚ :=
  let p1 := getVec vertices (triangle.indices_ 0)
  let p2 := getVec vertices (triangle.indices_ 1)
  let p3 := getVec vertices (triangle.indices_ 2)
  (position - p1).DotProduct ((p2 - p1).CrossProduct (p3 - p1))

/-- The per-triangle normalization applied inside the orientation loop of
`FindAndRemoveIntersected` (sentinel-backed hull triangles are skipped). -/
def normalizeHoleTriangle (vertices : List Vec3)
    (triangle : TetrahedralMeshSurfaceTriangle) : TetrahedralMeshSurfaceTriangle :=
  if triangle.tetIndex_ == M_MAX_UNSIGNED then triangle
  else triangle.Normalize vertices

/-- The orientation validity of the normalized hole triangles: every
non-sentinel triangle must have the inserted position strictly on its outward
side, by at least `M_LARGE_EPSILON` of signed volume. -/
def holeTrianglesValid (vertices : List Vec3) (position : Vec3)
    (triangles : List TetrahedralMeshSurfaceTriangle) : Bool :=
  triangles.all fun triangle =>
    triangle.tetIndex_ == M_MAX_UNSIGNED ||
      decide (M_LARGE_EPSILON ≤ orientationDistance vertices position triangle)

/-- The rollback of a failed carve: every flag marked during this insertion
is reverted to live. -/
def revertRemoved (removedFlags : List Bool) (removedTetrahedrons : List ℕ) :
    List Bool :=
  removedTetrahedrons.foldl (fun flags tetIndex => flags.set tetIndex false) removedFlags

/-- The result of `FindAndRemoveIntersected`: the updated removal flags, the
hole surface, the removed-cell list, and whether the carve succeeded. -/
structure CarveResult where
  removed : List Bool
  holeSurface : List TetrahedralMeshSurfaceTriangle
  removedTetrahedrons : List ℕ
  ok : Bool
  deriving DecidableEq

/-- `TetrahedralMesh::FindAndRemoveIntersected`: find a seed conflicting cell
(else fail), flood-fill the conflict region marking cells removed, collect
the hole-boundary triangles, verify the orientation of every non-sentinel
hole face (on failure revert all marks and fail), assemble the hole surface,
and verify it is closed (on failure, fail — without reverting the marks, as
in the source). The mesh itself is never modified (the source method is
`const` on the tetrahedron array). The source's `AddFace`-failure logging
path is unreachable here because the modelled `AddFace` is total, and the
debug edge dump of `dumpErrors` mode is not modelled. -/
def FindAndRemoveIntersected (tets : List Tetrahedron) (vertices : List Vec3)
    (circumspheres : List HighPrecisionSphere) (removed0 : List Bool)
    (position : Vec3) (dumpErrors : Bool) : CarveResult :=
  match findFirstIntersected tets circumspheres removed0 position with
  | none => ⟨removed0, [], [], false⟩
  | some seed =>
    let st := floodFillAux tets circumspheres position (removed0.set seed true) [seed] 0
    let holeTriangles :=
      (collectHoleTriangles tets st.1 st.2).map (normalizeHoleTriangle vertices)
    if !holeTrianglesValid vertices position holeTriangles || dumpErrors then
      ⟨revertRemoved st.1 st.2, [], [], false⟩
    else
      let holeSurface := holeTriangles.foldl AddFace []
      if IsClosedSurface holeSurface then ⟨st.1, holeSurface, st.2, true⟩
      else ⟨st.1, [], st.2, false⟩

/-- One face disconnection of `DisconnectRemovedTetrahedrons`: clear the link
and its mirror in the neighbor. -/
def disconnectOneFace (tets : List Tetrahedron) (tetIndex : ℕ) (faceIndex : Fin 4) :
    List Tetrahedron :=
  let tetrahedron := getTet tets tetIndex
  let neighborTetIndex := tetrahedron.neighbors_ faceIndex
  if neighborTetIndex = M_MAX_UNSIGNED then tets
  else
    let neighborFaceIndex := (getTet tets neighborTetIndex).GetNeighborFaceIndex tetIndex
    let tets1 := tets.set tetIndex (tetrahedron.setNeighbor faceIndex.val M_MAX_UNSIGNED)
    tets1.set neighborTetIndex
      ((getTet tets1 neighborTetIndex).setNeighbor neighborFaceIndex M_MAX_UNSIGNED)

/-- `TetrahedralMesh::DisconnectRemovedTetrahedrons`: sever, in both
directions, every link between a carved-out cell and the rest of the mesh. -/
def DisconnectRemovedTetrahedrons (tets : List Tetrahedron)
    (removedTetrahedrons : List ℕ) : List Tetrahedron :=
  removedTetrahedrons.foldl
    (fun ts tetIndex =>
      (List.finRange 4).foldl (fun ts f => disconnectOneFace ts tetIndex f) ts)
    tets

/-- The per-run mutable state of the construction: the growing vertex list
and tetrahedron list of the mesh plus the Delaunay context's parallel arrays
(cached circumspheres and removal flags). -/
structure DelaunayState where
  vertices : List Vec3
  tets : List Tetrahedron
  circumspheres : List HighPrecisionSphere
  removed : List Bool
  deriving DecidableEq

/-- The slot-allocation loop of `BuildTetrahedrons`: while there are fewer
reusable removed slots than hole faces, append a fresh default cell, a fresh
default circumsphere and a `removed` flag, and queue the new slot's index. -/
def allocateSlots (st : DelaunayState) (removedTetrahedrons : List ℕ)
    (holeSize : ℕ) : DelaunayState × List ℕ :=
  if removedTetrahedrons.length < holeSize then
    allocateSlots
      { st with
          tets := st.tets ++ [Tetrahedron.empty]
          circumspheres := st.circumspheres ++ [HighPrecisionSphere.empty]
          removed := st.removed ++ [true] }
      (removedTetrahedrons ++ [st.tets.length]) holeSize
  else (st, removedTetrahedrons)
termination_by holeSize - removedTetrahedrons.length
decreasing_by
  simp only [List.length_append, List.length_cons, List.length_nil]
  omega

/-- Read of one neighbor slot addressed by a plain natural number; out of
range yields the sentinel. -/
def Tetrahedron.neighborN (t : Tetrahedron) (f : ℕ) : ℕ :=
  if h : f < 4 then t.neighbors_ ⟨f, h⟩ else M_MAX_UNSIGNED

/-- The cell written into output slot `i` by `FillStarShapedHole`: the slot's
previous cell (its matrix is not touched here) with the boundary face's three
vertex indices plus the inserted vertex as apex, and with neighbors the new
cells on the linked boundary faces plus the cell the face referenced. -/
def fillCellValue (tets0 : List Tetrahedron) (outputTetrahedrons : List ℕ)
    (holeSurface : List TetrahedralMeshSurfaceTriangle) (centerIndex : ℕ) (i : ℕ) :
    Tetrahedron :=
  { getTet tets0 (outputTetrahedrons.getD i M_MAX_UNSIGNED) with
      indices_ := ![(getTri holeSurface i).indices_ 0, (getTri holeSurface i).indices_ 1,
        (getTri holeSurface i).indices_ 2, centerIndex]
      neighbors_ :=
        ![outputTetrahedrons.getD ((getTri holeSurface i).neighbors_ 0) M_MAX_UNSIGNED,
          outputTetrahedrons.getD ((getTri holeSurface i).neighbors_ 1) M_MAX_UNSIGNED,
          outputTetrahedrons.getD ((getTri holeSurface i).neighbors_ 2) M_MAX_UNSIGNED,
          (getTri holeSurface i).tetIndex_] }

/-- The body of the `FillStarShapedHole` loop for boundary face `i`: write
the new cell into its output slot, fix up the referenced cell's back-link
unless the face borders the hull, clear the slot's removed flag, and compute
the slot's circumsphere. -/
def fillOneCell (outputTetrahedrons : List ℕ)
    (holeSurface : List TetrahedralMeshSurfaceTriangle) (centerIndex : ℕ)
    (st : DelaunayState) (i : ℕ) : DelaunayState :=
  let newTetIndex := outputTetrahedrons.getD i M_MAX_UNSIGNED
  let holeTriangle := getTri holeSurface i
  let tetrahedron :=
    { getTet st.tets newTetIndex with
        indices_ := ![holeTriangle.indices_ 0, holeTriangle.indices_ 1,
          holeTriangle.indices_ 2, centerIndex]
        neighbors_ := ![outputTetrahedrons.getD (holeTriangle.neighbors_ 0) M_MAX_UNSIGNED,
          outputTetrahedrons.getD (holeTriangle.neighbors_ 1) M_MAX_UNSIGNED,
          outputTetrahedrons.getD (holeTriangle.neighbors_ 2) M_MAX_UNSIGNED,
          holeTriangle.tetIndex_] }
  let tets1 := st.tets.set newTetIndex tetrahedron
  let tets2 :=
    if holeTriangle.tetIndex_ ≠ M_MAX_UNSIGNED then
      tets1.set holeTriangle.tetIndex_
        ((getTet tets1 holeTriangle.tetIndex_).setNeighbor holeTriangle.tetFace_ newTetIndex)
    else tets1
  { st with
      tets := tets2
      removed := st.removed.set newTetIndex false
      circumspheres := st.circumspheres.set newTetIndex
        (GetTetrahedronCircumsphere st.vertices (getTet tets2 newTetIndex)) }

/-- `TetrahedralMesh::FillStarShapedHole`: for each hole-boundary face, build
one new tetrahedron in the next output slot — its base is the face's three
vertex indices, its apex (index 3) is the inserted vertex, its first three
neighbors are the new cells built on the linked boundary faces, its fourth
neighbor is the cell the face referenced (whose back-link is fixed up unless
it is the hull sentinel) — then clear the slot's removed flag and compute its
circumsphere. -/
def FillStarShapedHole (st : DelaunayState) (outputTetrahedrons : List ℕ)
    (holeSurface : List TetrahedralMeshSurfaceTriangle) (centerIndex : ℕ) :
    DelaunayState :=
  (List.range holeSurface.length).foldl
    (fillOneCell outputTetrahedrons holeSurface centerIndex) st

/-- The body of the vertex loop of `BuildTetrahedrons` for one vertex: carve
the hole; on failure leave the mesh unchanged and report the vertex postponed
(`false`); on success disconnect the carved cells, allocate output slots
(reusing carved slots before appending fresh ones) and fill the hole. -/
def insertVertexStep (st : DelaunayState) (newVertexIndex : ℕ) :
    DelaunayState × Bool :=
  let r := FindAndRemoveIntersected st.tets st.vertices st.circumspheres st.removed
    (getVec st.vertices newVertexIndex) false
  if r.ok then
    let st1 := { st with
        removed := r.removed
        tets := DisconnectRemovedTetrahedrons st.tets r.removedTetrahedrons }
    let alloc := allocateSlots st1 r.removedTetrahedrons r.holeSurface.length
    (FillStarShapedHole alloc.1 alloc.2 r.holeSurface newVertexIndex, true)
  else
    ({ st with removed := r.removed }, false)

/-- One pass of the vertex loop of `BuildTetrahedrons`: process every queued
vertex, collecting the postponed ones in order. -/
def processPass (st : DelaunayState) (queue : List ℕ) : DelaunayState × List ℕ :=
  queue.foldl
    (fun acc v =>
      let step := insertVertexStep acc.1 v
      if step.2 then (step.1, acc.2) else (step.1, acc.2 ++ [v]))
    (st, [])

theorem processPass_length_le (st : DelaunayState) (queue : List ℕ) :
    (processPass st queue).2.length ≤ queue.length := by
  have general : ∀ (q : List ℕ) (st : DelaunayState) (post : List ℕ),
      (q.foldl (fun acc v =>
          let step := insertVertexStep acc.1 v
          if step.2 then (step.1, acc.2) else (step.1, acc.2 ++ [v])) (st, post)).2.length ≤
        post.length + q.length := by
    intro q
    induction q with
    | nil => intro st post; simp
    | cons v vs ih =>
      intro st post
      simp only [List.foldl_cons, List.length_cons]
      split
      · calc _ ≤ post.length + vs.length := ih _ _
          _ ≤ post.length + (vs.length + 1) := by omega
      · calc _ ≤ (post ++ [v]).length + vs.length := ih _ _
          _ ≤ post.length + (vs.length + 1) := by simp; omega
  simpa [processPass] using general queue st []

/-- The retry loop of `BuildTetrahedrons`: run passes over the queue of
pending vertices; when a whole pass makes no progress (as many vertices
postponed as attempted), stop and report the postponed vertices as excluded;
when the queue empties, stop with no exclusions. -/
def BuildTetrahedronsLoop (st : DelaunayState) (queue : List ℕ) :
    DelaunayState × List ℕ :=
  if queue.isEmpty then (st, [])
  else if _h2 : (processPass st queue).2.length = queue.length then processPass st queue
  else BuildTetrahedronsLoop (processPass st queue).1 (processPass st queue).2
termination_by queue.length
decreasing_by
  have := processPass_length_le st queue
  omega

/-- A concrete non-degenerate corner tetrahedron's vertex list, used to
exercise the theorems on explicit inputs. -/
def unitTetVertices : List Vec3 :=
  [⟨0, 0, 0⟩, ⟨1, 0, 0⟩, ⟨0, 1, 0⟩, ⟨0, 0, 1⟩]

/-- The single tetrahedron over `unitTetVertices`, with no neighbors. -/
def unitTet : Tetrahedron :=
  { indices_ := fun j => j.val
    neighbors_ := fun _ => M_MAX_UNSIGNED
    matrix_ := Matrix3x4.zero }

/-- One face of the inner loop of `DisconnectSuperMeshTetrahedrons`: if the
face has a live neighbor, clear that neighbor's back-link slot toward
`tetIndex` (only the neighbor's side is cleared). -/
def disconnectSuperFace (ts : List Tetrahedron) (tetIndex : ℕ) (f : Fin 4) :
    List Tetrahedron :=
  let neighborIndex := (getTet ts tetIndex).neighbors_ f
  if neighborIndex ≠ M_MAX_UNSIGNED then
    ts.set neighborIndex
      ((getTet ts neighborIndex).setNeighbor
        ((getTet ts neighborIndex).GetNeighborFaceIndex tetIndex) M_MAX_UNSIGNED)
  else ts

/-- One iteration of `DisconnectSuperMeshTetrahedrons`: mark the cell removed
if it touches a super-mesh vertex, and if it is (now) removed, clear every
live neighbor's back-link to it (the cell's own slots are left as they
are). -/
def disconnectSuperStep (st : List Tetrahedron × List Bool) (tetIndex : ℕ) :
    List Tetrahedron × List Bool :=
  let marked :=
    if (List.finRange 4).any
        (fun j => (getTet st.1 tetIndex).indices_ j < NumSuperMeshVertices) then
      st.2.set tetIndex true
    else st.2
  if removedAt marked tetIndex then
    ((List.finRange 4).foldl (fun ts f => disconnectSuperFace ts tetIndex f) st.1, marked)
  else (st.1, marked)

/-- `TetrahedralMesh::DisconnectSuperMeshTetrahedrons`: walk the cells in
index order; mark every cell that uses a super-mesh vertex as removed; for
every cell now marked removed (including cells already flagged, such as
leftover carved slots), clear each of its live neighbors' back-links to it
(the marked cell's own slots are left as they are — it is about to be
dropped). -/
def DisconnectSuperMeshTetrahedrons (tets : List Tetrahedron) (removed : List Bool) :
    List Tetrahedron × List Bool :=
  (List.range tets.length).foldl disconnectSuperStep (tets, removed)

/-- Whether a cell is removed after the marking pass of
`DisconnectSuperMeshTetrahedrons`: it was already flagged, or one of its
vertex indices is a super-mesh vertex. -/
def superMarked (tets : List Tetrahedron) (removed : List Bool) (j : ℕ) : Bool :=
  removed.getD j true ||
    (List.finRange 4).any fun f =>
      decide ((getTet tets j).indices_ f < NumSuperMeshVertices)

/-- The old-to-new index table built by
`TetrahedralMesh::RemoveMarkedTetrahedrons`: a removed slot maps to the
sentinel, a kept slot maps to the number of kept slots before it. -/
def oldToNewIndexMap (removed : List Bool) (n : ℕ) : List ℕ :=
  (List.range n).map fun i =>
    if removed.getD i true then M_MAX_UNSIGNED else (removed.take i).count false

/-- The order-preserving compaction of the first `n` cell slots: the cells
whose removal flag is clear, in index order. -/
def keptPrefix (tets : List Tetrahedron) (removed : List Bool) (n : ℕ) :
    List Tetrahedron :=
  (List.range n).filterMap fun i =>
    if removed.getD i true then none else some (getTet tets i)

/-- The neighbor remapping applied to each surviving cell by
`RemoveMarkedTetrahedrons`: every non-sentinel neighbor index is pushed
through the old-to-new table. -/
def remapCell (removed : List Bool) (n : ℕ) (t : Tetrahedron) : Tetrahedron :=
  { t with
      neighbors_ := fun f =>
        if t.neighbors_ f ≠ M_MAX_UNSIGNED then
          (oldToNewIndexMap removed n).getD (t.neighbors_ f) M_MAX_UNSIGNED
        else t.neighbors_ f }

/-- `TetrahedralMesh::RemoveMarkedTetrahedrons`: compact the cell array,
dropping removed cells while preserving order, and remap every non-sentinel
neighbor index through the old-to-new table (a stale reference to a removed
cell maps to the sentinel, as the release build assigns it). -/
def RemoveMarkedTetrahedrons (tets : List Tetrahedron) (removed : List Bool) :
    List Tetrahedron :=
  (keptPrefix tets removed tets.length).map (remapCell removed tets.length)

/-- `TetrahedralMesh::RemoveSuperMeshVertices`: rotate the eight super-mesh
vertices to the tail of the vertex list and shift every cell's vertex
indices down by eight. Neighbor slots are untouched, so adjacency is
unaffected by this step. -/
def RemoveSuperMeshVertices (vertices : List Vec3) (tets : List Tetrahedron) :
    List Vec3 × List Tetrahedron :=
  (vertices.rotateLeft NumSuperMeshVertices,
   tets.map fun t => { t with indices_ := fun f => t.indices_ f - NumSuperMeshVertices })

/-- The raw hull triangles collected by `BuildHullSurface` before linking:
one triangle per face with a sentinel neighbor slot, backed by its own cell
and face, scanned in cell-then-face order. -/
def hullRawFaces (tets : List Tetrahedron) : List TetrahedralMeshSurfaceTriangle :=
  (List.range tets.length).flatMap fun tetIndex =>
    (List.finRange 4).filterMap fun faceIndex =>
      if (getTet tets tetIndex).neighbors_ faceIndex ≠ M_MAX_UNSIGNED then none
      else some ((getTet tets tetIndex).GetTriangleFace faceIndex tetIndex
        faceIndex.val)

/-- `TetrahedralMesh::BuildHullSurface`: every face with a sentinel neighbor
slot becomes a hull triangle backed by its own cell and face; the triangles
are linked into a surface with `AddFace` as they are collected, and then
every hull triangle is normalized (oriented outward). -/
def BuildHullSurface (vertices : List Vec3) (tets : List Tetrahedron) :
    List TetrahedralMeshSurfaceTriangle :=
  ((hullRawFaces tets).foldl AddFace []).map
    fun hullTriangle => hullTriangle.Normalize vertices

/-- The index permutation applied to a surface triangle's corners (and so to
its edge slots) when `Normalize` flips it: corners 1 and 2 swap. -/
def swap3 : Fin 3 → Fin 3 := ![0, 2, 1]

/-- All edge slots of the face list carrying the given unordered vertex
pair, as explicit (face, slot) positions. -/
def edgeSlots (faces : List TetrahedralMeshSurfaceTriangle) (e : ℕ × ℕ) :
    List (ℕ × Fin 3) :=
  (List.range faces.length).flatMap fun k =>
    ((List.finRange 3).filter fun l =>
      decide ((getTri faces k).edge l = e)).map fun l => (k, l)

/-- One iteration of `BuildOuterTetrahedrons`: write the outer cell over hull
triangle `k` — three real corners from the hull face, the `Infinity3`
sentinel as 4th corner, neighbors 0-2 the outer cells over the linked hull
faces (the source adds `numInnerTetrahedrons_` to the stored link with
32-bit unsigned wrap-around), neighbor 3 the inner cell behind the face —
and point that inner cell's former hull slot at the new outer cell. -/
def buildOuterStep (tets : List Tetrahedron)
    (hullSurface : List TetrahedralMeshSurfaceTriangle)
    (ts : List Tetrahedron) (k : ℕ) : List Tetrahedron :=
  let numInnerTetrahedrons := tets.length
  let hullTriangle := getTri hullSurface k
  let tetrahedron :=
    { getTet ts (numInnerTetrahedrons + k) with
        indices_ := ![hullTriangle.indices_ 0, hullTriangle.indices_ 1,
          hullTriangle.indices_ 2, Tetrahedron.Infinity3]
        neighbors_ :=
          ![(numInnerTetrahedrons + hullTriangle.neighbors_ 0) % (M_MAX_UNSIGNED + 1),
            (numInnerTetrahedrons + hullTriangle.neighbors_ 1) % (M_MAX_UNSIGNED + 1),
            (numInnerTetrahedrons + hullTriangle.neighbors_ 2) % (M_MAX_UNSIGNED + 1),
            hullTriangle.tetIndex_] }
  let ts1 := ts.set (numInnerTetrahedrons + k) tetrahedron
  ts1.set hullTriangle.tetIndex_
    ((getTet ts1 hullTriangle.tetIndex_).setNeighbor hullTriangle.tetFace_
      (numInnerTetrahedrons + k))

/-- `TetrahedralMesh::BuildOuterTetrahedrons`: extend the cell array with one
outer cell per hull triangle, running `buildOuterStep` over the hull faces in
order. -/
def BuildOuterTetrahedrons (tets : List Tetrahedron)
    (hullSurface : List TetrahedralMeshSurfaceTriangle) : List Tetrahedron :=
  (List.range hullSurface.length).foldl (buildOuterStep tets hullSurface)
    (tets ++ List.replicate hullSurface.length Tetrahedron.empty)

/-- The state invariant of the incremental construction, checked as a single
Boolean over the cell array and the removal flags: the flag array covers the
cells; the cell count fits 32-bit index arithmetic with headroom for the
per-cell faces (so neither a cell index nor a face-list index collides with
the sentinel); adjacency is symmetric; every neighbor slot is the sentinel
or in range; no cell names itself; no cell names the same neighbor on two
faces; and a cell flagged removed is fully disconnected (all its slots are
sentinels and no cell points at it). -/
def meshInvariantHolds (tets : List Tetrahedron) (removed : List Bool) : Bool :=
  (removed.length == tets.length) &&
  decide (4 * tets.length + 4 < M_MAX_UNSIGNED) &&
  IsAdjacencyValid tets false &&
  ((List.range tets.length).all fun i =>
    (List.finRange 4).all fun f =>
      !((getTet tets i).neighbors_ f == i)) &&
  ((List.range tets.length).all fun i =>
    (List.finRange 4).all fun f =>
      ((getTet tets i).neighbors_ f == M_MAX_UNSIGNED) ||
        decide ((getTet tets i).neighbors_ f < tets.length)) &&
  ((List.range tets.length).all fun i =>
    (List.finRange 4).all fun f =>
      (List.finRange 4).all fun g =>
        (f == g) || ((getTet tets i).neighbors_ f == M_MAX_UNSIGNED) ||
          !((getTet tets i).neighbors_ f == (getTet tets i).neighbors_ g)) &&
  ((List.range tets.length).all fun i =>
    !(removedAt removed i) ||
      (((List.finRange 4).all fun f =>
          (getTet tets i).neighbors_ f == M_MAX_UNSIGNED) &&
        ((List.range tets.length).all fun j =>
          (List.finRange 4).all fun f =>
            !((getTet tets j).neighbors_ f == i))))

/-- Whether every cell's four vertex indices are pairwise distinct (the cells
are non-degenerate at the index level); this makes the three edges of every
face pairwise distinct as unordered vertex pairs, which is what the greedy
edge matching of `AddFace` needs to pair a closed surface completely. -/
def distinctCorners (tets : List Tetrahedron) : Bool :=
  (List.range tets.length).all fun i =>
    (List.finRange 4).all fun f =>
      (List.finRange 4).all fun g =>
        (f == g) || !((getTet tets i).indices_ f == (getTet tets i).indices_ g)

/-- A one-cell state used to exercise the retriangulation theorem: one
reusable removed slot, aligned flag and sphere arrays, no vertices needed. -/
def c4State : DelaunayState :=
  ⟨[], [Tetrahedron.empty], [HighPrecisionSphere.empty], [true]⟩

/-- A single hull-sentinel hole triangle used to exercise the
retriangulation theorem. -/
def c4Tri : TetrahedralMeshSurfaceTriangle :=
  ⟨![0, 1, 2], fun _ => M_MAX_UNSIGNED, M_MAX_UNSIGNED, M_MAX_UNSIGNED, M_MAX_UNSIGNED⟩

/-- Vertex list of a concrete two-cell mesh state whose carved hole surface
is not closed: cells 0 and 1 are mutually linked across their face 0, but the
two cells share no vertex, so the face collected from the live neighbor does
not stitch to the removed cell's hull faces. Adjacency symmetry (the only
invariant the code checks) holds for this state. -/
def c3Vertices : List Vec3 :=
  [⟨0, 0, 0⟩, ⟨1, 0, 0⟩, ⟨0, 1, 0⟩, ⟨0, 0, 1⟩,
   ⟨0, 0, -1⟩, ⟨0, 0, 0⟩, ⟨1, 0, 0⟩, ⟨0, 1, 0⟩]

/-- Cell 0 of the two-cell state: vertices 0-3, linked to cell 1 across its
face 0. -/
def c3T0 : Tetrahedron :=
  { indices_ := fun j => j.val
    neighbors_ := fun j => if j = 0 then 1 else M_MAX_UNSIGNED
    matrix_ := Matrix3x4.zero }

/-- Cell 1 of the two-cell state: vertices 4-7, linked back to cell 0 across
its face 0. -/
def c3T1 : Tetrahedron :=
  { indices_ := fun j => j.val + 4
    neighbors_ := fun j => if j = 0 then 0 else M_MAX_UNSIGNED
    matrix_ := Matrix3x4.zero }

/-- The two-cell mesh state. -/
def c3Tets : List Tetrahedron := [c3T0, c3T1]

/-- Cached circumspheres of the two-cell state: cell 0's sphere contains the
query position, cell 1's does not. -/
def c3Spheres : List HighPrecisionSphere :=
  [⟨Vec3.zero, 10⟩, ⟨Vec3.zero, 0⟩]

/-- The inserted position of the two-cell scenario. -/
def c3Position : Vec3 := ⟨0, 0, 3⟩

/-- The hole triangle collected from the live neighbor (cell 1's face 0). -/
def c3TriLive : TetrahedralMeshSurfaceTriangle :=
  ⟨fun j => j.val + 5, fun _ => M_MAX_UNSIGNED, 4, 1, 0⟩

/-- The sentinel hole triangle of cell 0's face 1. -/
def c3TriA : TetrahedralMeshSurfaceTriangle :=
  ⟨![0, 2, 3], fun _ => M_MAX_UNSIGNED, 1, M_MAX_UNSIGNED, M_MAX_UNSIGNED⟩

/-- The sentinel hole triangle of cell 0's face 2. -/
def c3TriB : TetrahedralMeshSurfaceTriangle :=
  ⟨![0, 1, 3], fun _ => M_MAX_UNSIGNED, 2, M_MAX_UNSIGNED, M_MAX_UNSIGNED⟩

/-- The sentinel hole triangle of cell 0's face 3. -/
def c3TriC : TetrahedralMeshSurfaceTriangle :=
  ⟨![0, 1, 2], fun _ => M_MAX_UNSIGNED, 3, M_MAX_UNSIGNED, M_MAX_UNSIGNED⟩

/-- A concrete outer tetrahedron (hull-face corners 0, 1, 2 and the
`Infinity3` sentinel as 4th corner), used to exercise the outer-matrix
theorems on an explicit input. -/
def outerDemoTet : Tetrahedron :=
  { indices_ := fun j => if j = 3 then Tetrahedron.Infinity3 else j.val
    neighbors_ := fun _ => M_MAX_UNSIGNED
    matrix_ := Matrix3x4.zero }

theorem Vec3.sub_def (a b : Vec3) : a - b = Vec3.sub a b := rfl

theorem Vec3.add_def (a b : Vec3) : a + b = Vec3.add a b := rfl

theorem Vec3.neg_def (a : Vec3) : -a = Vec3.neg a := rfl

/-- Reading an element of a `mapIdx` image through `getTet`. -/
theorem getTet_mapIdx (tets : List Tetrahedron) (f : ℕ → Tetrahedron → Tetrahedron)
    (i : ℕ) (h : i < tets.length) :
    getTet (tets.mapIdx f) i = f i (getTet tets i) := by
  have h' : i < (tets.mapIdx f).length := by
    simp [List.length_mapIdx, h]
  rw [getTet, getTet, List.getD_eq_getElem _ _ h', List.getD_eq_getElem _ _ h]
  simp

/-- C6: `InitializeSuperMesh` produces exactly 8 super-vertices at the corners
of the padded bounding box and exactly 5 tetrahedra (4 corner cells plus 1
central cell) whose hand-specified adjacency is mutually correct: the
symmetric-adjacency checker accepts the mesh, each corner cell's only
non-sentinel neighbor slot is slot 0 naming the central cell, the central
cell's slots name the four corner cells, and every link is across a matching
face (same three vertex indices on both sides); hence the mesh is non-empty
and closed before any real point is inserted. -/
theorem C6_super_mesh_bootstrap (boundingBox : BoundingBox) :
    (InitializeSuperMesh boundingBox).1.length = 8 ∧
    (∀ i : Fin 8,
        getVec (InitializeSuperMesh boundingBox).1 i.val =
          boundingBox.min_ + boundingBox.Size.mulVec (superMeshOffsets i)) ∧
    (InitializeSuperMesh boundingBox).2.length = 5 ∧
    (InitializeSuperMesh boundingBox).2 ≠ [] ∧
    IsAdjacencyValid (InitializeSuperMesh boundingBox).2 false = true ∧
    (∀ c : Fin 5, c.val < 4 →
        (getTet (InitializeSuperMesh boundingBox).2 c.val).neighbors_ 0 = 4 ∧
        ∀ f : Fin 4, f ≠ 0 →
          (getTet (InitializeSuperMesh boundingBox).2 c.val).neighbors_ f = M_MAX_UNSIGNED) ∧
    (getTet (InitializeSuperMesh boundingBox).2 4).neighbors_ = ![3, 2, 1, 0] ∧
    (∀ f : Fin 4, ∃ g : Fin 4,
        (getTet (InitializeSuperMesh boundingBox).2
            ((getTet (InitializeSuperMesh boundingBox).2 4).neighbors_ f)).neighbors_ g = 4 ∧
        faceVertices
            (getTet (InitializeSuperMesh boundingBox).2
              ((getTet (InitializeSuperMesh boundingBox).2 4).neighbors_ f)) g =
          faceVertices (getTet (InitializeSuperMesh boundingBox).2 4) f) := by
  have h2 : (InitializeSuperMesh boundingBox).2 =
      (List.finRange 5).map (fun i =>
        { indices_ := superMeshIndices i
          neighbors_ := superMeshNeighbors i
          matrix_ := Matrix3x4.zero }) := rfl
  refine ⟨rfl, ?_, rfl, ?_, ?_, ?_, ?_, ?_⟩
  · intro i
    fin_cases i <;> rfl
  all_goals rw [h2]
  all_goals decide

/-- Witness for C6 at a concrete unit bounding box, instantiating the
corner-cell conjunct at corner cell 0. -/
theorem C6_super_mesh_bootstrap_witness :
    ((0 : Fin 5).val < 4) ∧
    (getTet (InitializeSuperMesh ⟨Vec3.zero, ⟨1, 1, 1⟩⟩).2 (0 : Fin 5).val).neighbors_ 0 = 4 :=
  ⟨by decide,
   ((C6_super_mesh_bootstrap ⟨Vec3.zero, ⟨1, 1, 1⟩⟩).2.2.2.2.2.1 0 (by decide)).1⟩

theorem Vec3.dot_scale (u v : Vec3) (s : ℚ) :
    u.DotProduct (v.scale s) = u.DotProduct v * s := by
  obtain ⟨a, b, c⟩ := u
  obtain ⟨d, e, f⟩ := v
  simp only [Vec3.DotProduct, Vec3.scale]
  ring

theorem Vec3.sub_add_eq (p q r : Vec3) : p - (q + r) = (p - q) - r := by
  obtain ⟨a, b, c⟩ := p
  obtain ⟨d, e, f⟩ := q
  obtain ⟨g, h, i⟩ := r
  simp only [Vec3.sub_def, Vec3.sub, Vec3.add_def, Vec3.add, Vec3.mk.injEq]
  refine ⟨by ring, by ring, by ring⟩

theorem Vec3.lengthSquared_sub (u q : Vec3) :
    (u - q).LengthSquared = u.LengthSquared - 2 * u.DotProduct q + q.LengthSquared := by
  obtain ⟨a, b, c⟩ := u
  obtain ⟨d, e, f⟩ := q
  simp only [Vec3.sub_def, Vec3.sub, Vec3.LengthSquared, Vec3.DotProduct]
  ring

theorem Vec3.self_sub_add_lengthSquared (p q : Vec3) :
    (p - (p + q)).LengthSquared = q.LengthSquared := by
  obtain ⟨a, b, c⟩ := p
  obtain ⟨d, e, f⟩ := q
  simp only [Vec3.sub_def, Vec3.sub, Vec3.add_def, Vec3.add, Vec3.LengthSquared,
    Vec3.DotProduct]
  ring

/-- Any corner whose edge vector `u = pk - p0` satisfies
`2 (u . N) = |u|^2 D` is equidistant from `p0 + N / D` with corner `p0`. -/
theorem dist_to_circumcenter_eq (p0 pk N : Vec3) (D : ℚ) (hD : D ≠ 0)
    (h : 2 * ((pk - p0).DotProduct N) = (pk - p0).LengthSquared * D) :
    (pk - (p0 + N.scale (1 / D))).LengthSquared =
      (p0 - (p0 + N.scale (1 / D))).LengthSquared := by
  rw [Vec3.sub_add_eq, Vec3.lengthSquared_sub, Vec3.self_sub_add_lengthSquared,
    Vec3.dot_scale]
  field_simp
  linarith [h]

/-- The scalar-triple-product identity behind the circumcenter formula, for
the edge vector `u1`: the numerator vector dotted with `u1` equals
`|u1|^2` times half the denominator. -/
theorem circumsphere_dot_identity_u1 (u1 u2 u3 : Vec3) :
    2 * (u1.DotProduct ((u2.CrossProduct u3).scale u1.LengthSquared +
        (u3.CrossProduct u1).scale u2.LengthSquared +
        (u1.CrossProduct u2).scale u3.LengthSquared)) =
      u1.LengthSquared * (2 * u1.DotProduct (u2.CrossProduct u3)) := by
  obtain ⟨a1, b1, c1⟩ := u1
  obtain ⟨a2, b2, c2⟩ := u2
  obtain ⟨a3, b3, c3⟩ := u3
  simp only [Vec3.add_def, Vec3.add, Vec3.scale, Vec3.DotProduct, Vec3.CrossProduct,
    Vec3.LengthSquared]
  ring

/-- The scalar-triple-product identity for the edge vector `u2`. -/
theorem circumsphere_dot_identity_u2 (u1 u2 u3 : Vec3) :
    2 * (u2.DotProduct ((u2.CrossProduct u3).scale u1.LengthSquared +
        (u3.CrossProduct u1).scale u2.LengthSquared +
        (u1.CrossProduct u2).scale u3.LengthSquared)) =
      u2.LengthSquared * (2 * u1.DotProduct (u2.CrossProduct u3)) := by
  obtain ⟨a1, b1, c1⟩ := u1
  obtain ⟨a2, b2, c2⟩ := u2
  obtain ⟨a3, b3, c3⟩ := u3
  simp only [Vec3.add_def, Vec3.add, Vec3.scale, Vec3.DotProduct, Vec3.CrossProduct,
    Vec3.LengthSquared]
  ring

/-- The scalar-triple-product identity for the edge vector `u3`. -/
theorem circumsphere_dot_identity_u3 (u1 u2 u3 : Vec3) :
    2 * (u3.DotProduct ((u2.CrossProduct u3).scale u1.LengthSquared +
        (u3.CrossProduct u1).scale u2.LengthSquared +
        (u1.CrossProduct u2).scale u3.LengthSquared)) =
      u3.LengthSquared * (2 * u1.DotProduct (u2.CrossProduct u3)) := by
  obtain ⟨a1, b1, c1⟩ := u1
  obtain ⟨a2, b2, c2⟩ := u2
  obtain ⟨a3, b3, c3⟩ := u3
  simp only [Vec3.add_def, Vec3.add, Vec3.scale, Vec3.DotProduct, Vec3.CrossProduct,
    Vec3.LengthSquared]
  ring

/-- C10: `GetTetrahedronCircumsphere` is total over all tetrahedra — when the
denominator `2 * u1 . (u2 x u3)` has absolute value below `M_EPSILON` squared
it returns the sentinel sphere with zero center and huge radius
`M_LARGE_VALUE` squared (its square being stored in this embedding) instead
of failing; otherwise the returned squared radius is the minimum of the four
squared corner distances to the computed circumcenter, and under the exact
arithmetic of this embedding all four distances are equal. -/
theorem C10_circumsphere_total (vertices : List Vec3) (t : Tetrahedron) :
    (|circumsphereRadiusDen vertices t| < M_EPSILON * M_EPSILON →
      GetTetrahedronCircumsphere vertices t =
        ⟨Vec3.zero, (M_LARGE_VALUE * M_LARGE_VALUE) ^ 2⟩) ∧
    (¬ |circumsphereRadiusDen vertices t| < M_EPSILON * M_EPSILON →
      (GetTetrahedronCircumsphere vertices t).center = circumsphereCenter vertices t ∧
      (GetTetrahedronCircumsphere vertices t).radiusSquared =
        min (min (min
          ((getVec vertices (t.indices_ 0) - circumsphereCenter vertices t).LengthSquared)
          ((getVec vertices (t.indices_ 1) - circumsphereCenter vertices t).LengthSquared))
          ((getVec vertices (t.indices_ 2) - circumsphereCenter vertices t).LengthSquared))
          ((getVec vertices (t.indices_ 3) - circumsphereCenter vertices t).LengthSquared) ∧
      ((getVec vertices (t.indices_ 1) - circumsphereCenter vertices t).LengthSquared =
        (getVec vertices (t.indices_ 0) - circumsphereCenter vertices t).LengthSquared) ∧
      ((getVec vertices (t.indices_ 2) - circumsphereCenter vertices t).LengthSquared =
        (getVec vertices (t.indices_ 0) - circumsphereCenter vertices t).LengthSquared) ∧
      ((getVec vertices (t.indices_ 3) - circumsphereCenter vertices t).LengthSquared =
        (getVec vertices (t.indices_ 0) - circumsphereCenter vertices t).LengthSquared)) := by
  constructor
  · intro h
    rw [GetTetrahedronCircumsphere, if_pos h]
  · intro h
    have hD : circumsphereRadiusDen vertices t ≠ 0 := by
      intro h0
      apply h
      rw [h0]
      norm_num [M_EPSILON]
    refine ⟨by rw [GetTetrahedronCircumsphere, if_neg h],
      by rw [GetTetrahedronCircumsphere, if_neg h], ?_, ?_, ?_⟩
    · rw [circumsphereCenter]
      refine dist_to_circumcenter_eq _ _ _ _ hD ?_
      rw [circumsphereRadiusNum, circumsphereRadiusDen]
      exact circumsphere_dot_identity_u1 _ _ _
    · rw [circumsphereCenter]
      refine dist_to_circumcenter_eq _ _ _ _ hD ?_
      rw [circumsphereRadiusNum, circumsphereRadiusDen]
      exact circumsphere_dot_identity_u2 _ _ _
    · rw [circumsphereCenter]
      refine dist_to_circumcenter_eq _ _ _ _ hD ?_
      rw [circumsphereRadiusNum, circumsphereRadiusDen]
      exact circumsphere_dot_identity_u3 _ _ _

/-- Witness for C10: the degenerate branch at the all-zero tetrahedron and
the non-degenerate branch at the concrete corner tetrahedron. -/
theorem C10_circumsphere_total_witness :
    (|circumsphereRadiusDen [] Tetrahedron.empty| < M_EPSILON * M_EPSILON ∧
      GetTetrahedronCircumsphere [] Tetrahedron.empty =
        ⟨Vec3.zero, (M_LARGE_VALUE * M_LARGE_VALUE) ^ 2⟩) ∧
    (¬ |circumsphereRadiusDen unitTetVertices unitTet| < M_EPSILON * M_EPSILON ∧
      (GetTetrahedronCircumsphere unitTetVertices unitTet).center =
        circumsphereCenter unitTetVertices unitTet) :=
  ⟨⟨by norm_num [circumsphereRadiusDen, getVec, Tetrahedron.empty, Vec3.zero,
      Vec3.sub_def, Vec3.sub, Vec3.DotProduct, Vec3.CrossProduct, M_EPSILON],
    (C10_circumsphere_total [] Tetrahedron.empty).1
      (by norm_num [circumsphereRadiusDen, getVec, Tetrahedron.empty, Vec3.zero,
        Vec3.sub_def, Vec3.sub, Vec3.DotProduct, Vec3.CrossProduct, M_EPSILON])⟩,
   ⟨by norm_num [circumsphereRadiusDen, getVec, unitTetVertices, unitTet, Vec3.zero,
      Vec3.sub_def, Vec3.sub, Vec3.DotProduct, Vec3.CrossProduct, M_EPSILON,
      show ((3 : Fin 4) : ℕ) = 3 from rfl, List.getElem_cons_succ, List.getElem_cons_zero],
    ((C10_circumsphere_total unitTetVertices unitTet).2
      (by norm_num [circumsphereRadiusDen, getVec, unitTetVertices, unitTet, Vec3.zero,
        Vec3.sub_def, Vec3.sub, Vec3.DotProduct, Vec3.CrossProduct, M_EPSILON,
        show ((3 : Fin 4) : ℕ) = 3 from rfl, List.getElem_cons_succ, List.getElem_cons_zero])).1⟩⟩

/-- Cramer identity: the adjugate-over-determinant inverse applied to each
column of the original matrix yields the three standard basis vectors. -/
theorem Matrix3.inverse_apply_columns (m : Matrix3) (h : m.det ≠ 0) :
    m.Inverse.apply ⟨m.m00, m.m10, m.m20⟩ = ⟨1, 0, 0⟩ ∧
    m.Inverse.apply ⟨m.m01, m.m11, m.m21⟩ = ⟨0, 1, 0⟩ ∧
    m.Inverse.apply ⟨m.m02, m.m12, m.m22⟩ = ⟨0, 0, 1⟩ := by
  obtain ⟨a, b, c, d, e, f, g, p, q⟩ := m
  simp only [Matrix3.det] at h
  simp only [Matrix3.Inverse, Matrix3.det, Matrix3.apply, Vec3.mk.injEq]
  refine ⟨⟨?_, ?_, ?_⟩, ⟨?_, ?_, ?_⟩, ⟨?_, ?_, ?_⟩⟩ <;>
  · field_simp
    ring

/-- C9: for every inner tetrahedron with affinely independent corners (the
edge matrix has nonzero determinant), `CalculateInnerMatrices` stores
exactly the inverse of the 3x3 matrix whose columns are the edge vectors
`p1 - p0`, `p2 - p0`, `p3 - p0`; consequently applying that inverse to
`p_i - p0` yields the one-hot weight vector selecting corner `i` for
`i = 1, 2, 3`, and applying it to `p0 - p0` yields the zero vector. -/
theorem C9_inner_matrices (vertices : List Vec3) (tets : List Tetrahedron)
    (numInnerTetrahedrons tetIndex : ℕ)
    (hLen : tetIndex < tets.length) (hInner : tetIndex < numInnerTetrahedrons)
    (hDet : (innerEdgeMatrix vertices (getTet tets tetIndex)).det ≠ 0) :
    (getTet (CalculateInnerMatrices vertices tets numInnerTetrahedrons) tetIndex).matrix_ =
      (innerEdgeMatrix vertices (getTet tets tetIndex)).Inverse.toMatrix3x4 ∧
    (innerEdgeMatrix vertices (getTet tets tetIndex)).Inverse.apply
        (getVec vertices ((getTet tets tetIndex).indices_ 1) -
          getVec vertices ((getTet tets tetIndex).indices_ 0)) = ⟨1, 0, 0⟩ ∧
    (innerEdgeMatrix vertices (getTet tets tetIndex)).Inverse.apply
        (getVec vertices ((getTet tets tetIndex).indices_ 2) -
          getVec vertices ((getTet tets tetIndex).indices_ 0)) = ⟨0, 1, 0⟩ ∧
    (innerEdgeMatrix vertices (getTet tets tetIndex)).Inverse.apply
        (getVec vertices ((getTet tets tetIndex).indices_ 3) -
          getVec vertices ((getTet tets tetIndex).indices_ 0)) = ⟨0, 0, 1⟩ ∧
    (innerEdgeMatrix vertices (getTet tets tetIndex)).Inverse.apply
        (getVec vertices ((getTet tets tetIndex).indices_ 0) -
          getVec vertices ((getTet tets tetIndex).indices_ 0)) = Vec3.zero := by
  refine ⟨?_, ?_, ?_, ?_, ?_⟩
  · rw [CalculateInnerMatrices, getTet_mapIdx _ _ _ hLen]
    simp [hInner]
  · exact (Matrix3.inverse_apply_columns _ hDet).1
  · exact (Matrix3.inverse_apply_columns _ hDet).2.1
  · exact (Matrix3.inverse_apply_columns _ hDet).2.2
  · have hz : getVec vertices ((getTet tets tetIndex).indices_ 0) -
        getVec vertices ((getTet tets tetIndex).indices_ 0) = Vec3.zero := by
      simp [Vec3.sub_def, Vec3.sub, Vec3.zero]
    rw [hz]
    simp [Matrix3.apply, Vec3.zero]

/-- Witness for C9 at the concrete corner tetrahedron, whose edge matrix is
the identity. -/
theorem C9_inner_matrices_witness :
    ((0 : ℕ) < ([unitTet] : List Tetrahedron).length ∧ (0 : ℕ) < 1 ∧
      (innerEdgeMatrix unitTetVertices (getTet [unitTet] 0)).det ≠ 0) ∧
    (innerEdgeMatrix unitTetVertices (getTet [unitTet] 0)).Inverse.apply
        (getVec unitTetVertices ((getTet [unitTet] 0).indices_ 1) -
          getVec unitTetVertices ((getTet [unitTet] 0).indices_ 0)) = ⟨1, 0, 0⟩ :=
  ⟨⟨by decide, by decide,
    by norm_num [innerEdgeMatrix, Matrix3.det, getTet, getVec, unitTet, unitTetVertices,
      Vec3.sub_def, Vec3.sub, List.getD_cons_zero, List.getD_cons_succ,
      show ((1 : Fin 4) : ℕ) = 1 from rfl, show ((2 : Fin 4) : ℕ) = 2 from rfl,
      show ((3 : Fin 4) : ℕ) = 3 from rfl]⟩,
   (C9_inner_matrices unitTetVertices [unitTet] 1 0 (by decide) (by decide)
     (by norm_num [innerEdgeMatrix, Matrix3.det, getTet, getVec, unitTet, unitTetVertices,
       Vec3.sub_def, Vec3.sub, List.getD_cons_zero, List.getD_cons_succ,
       show ((1 : Fin 4) : ℕ) = 1 from rfl, show ((2 : Fin 4) : ℕ) = 2 from rfl,
       show ((3 : Fin 4) : ℕ) = 3 from rfl])).2.1⟩

/-- C8: for every outer tetrahedron (with its 4th index at `Infinity3` as
`BuildOuterTetrahedrons` leaves it), `CalculateOuterMatrices` branches on
the leading coefficient `a` of the closed-form cubic: when `|a| > M_EPSILON`
the 3x4 matrix is scaled by `1 / a` and the 4th vertex index remains
`Infinity3`; otherwise the matrix is left unscaled and the 4th vertex index
is set to `Infinity2` — in both cases a cell is produced (the near-singular
case is never an error). -/
theorem C8_outer_matrix_branch (vertices hullNormals : List Vec3)
    (tets : List Tetrahedron) (numInnerTetrahedrons tetIndex : ℕ)
    (hLo : numInnerTetrahedrons ≤ tetIndex) (hLen : tetIndex < tets.length)
    (hInf : (getTet tets tetIndex).indices_ 3 = Tetrahedron.Infinity3) :
    (M_EPSILON < |outerLeadingCoefficient (outerCorners hullNormals (getTet tets tetIndex))| →
      (getTet (CalculateOuterMatrices vertices hullNormals tets numInnerTetrahedrons)
          tetIndex).matrix_ =
        (outerMatrixRaw (outerCorners vertices (getTet tets tetIndex))
            (outerCorners hullNormals (getTet tets tetIndex))).scale
          (1 / outerLeadingCoefficient (outerCorners hullNormals (getTet tets tetIndex))) ∧
      (getTet (CalculateOuterMatrices vertices hullNormals tets numInnerTetrahedrons)
          tetIndex).indices_ 3 = Tetrahedron.Infinity3) ∧
    (¬ M_EPSILON < |outerLeadingCoefficient (outerCorners hullNormals (getTet tets tetIndex))| →
      (getTet (CalculateOuterMatrices vertices hullNormals tets numInnerTetrahedrons)
          tetIndex).matrix_ =
        outerMatrixRaw (outerCorners vertices (getTet tets tetIndex))
          (outerCorners hullNormals (getTet tets tetIndex)) ∧
      (getTet (CalculateOuterMatrices vertices hullNormals tets numInnerTetrahedrons)
          tetIndex).indices_ 3 = Tetrahedron.Infinity2) := by
  rw [CalculateOuterMatrices, getTet_mapIdx _ _ _ hLen, if_pos hLo,
    CalculateOuterMatrixCell]
  constructor
  · intro ha
    rw [if_pos ha]
    exact ⟨rfl, hInf⟩
  · intro ha
    rw [if_neg ha]
    refine ⟨rfl, ?_⟩
    simp [Function.update]

/-- Witness for C8: at the concrete outer cell with empty hull-normal list
the leading coefficient vanishes, so the lower-degree branch fires and the
4th index is retagged `Infinity2`. -/
theorem C8_outer_matrix_branch_witness :
    ((0 : ℕ) ≤ 0 ∧ (0 : ℕ) < ([outerDemoTet] : List Tetrahedron).length ∧
      (getTet [outerDemoTet] 0).indices_ 3 = Tetrahedron.Infinity3 ∧
      ¬ M_EPSILON < |outerLeadingCoefficient (outerCorners [] (getTet [outerDemoTet] 0))|) ∧
    (getTet (CalculateOuterMatrices [] [] [outerDemoTet] 0) 0).indices_ 3 =
      Tetrahedron.Infinity2 :=
  ⟨⟨by decide, by decide, by decide,
    by norm_num [outerLeadingCoefficient, outerCorners, getVec, getTet, outerDemoTet,
      Vec3.zero, Vec3.sub_def, Vec3.sub, Vec3.neg_def, Vec3.neg, M_EPSILON]⟩,
   ((C8_outer_matrix_branch [] [] [outerDemoTet] 0 0 (by decide) (by decide) (by decide)).2
     (by norm_num [outerLeadingCoefficient, outerCorners, getVec, getTet, outerDemoTet,
       Vec3.zero, Vec3.sub_def, Vec3.sub, Vec3.neg_def, Vec3.neg, M_EPSILON])).2⟩

/-- C5: the insertion retry loop always terminates and never fails fatally —
every pass postpones at most as many vertices as it attempts; when a non-empty
pass postpones strictly fewer (progress), the loop recurses on the strictly
smaller postponed queue; when a non-empty pass postpones every vertex (no
progress), the loop exits at once, returning the remaining vertices as the
permanently excluded set while still producing a mesh state; and an empty
queue exits with no exclusions. The strict decrease is exactly the
well-founded measure by which `BuildTetrahedronsLoop` is defined in this
embedding, so the loop is total on every input. -/
theorem C5_retry_loop_terminates :
    (∀ (st : DelaunayState) (queue : List ℕ),
      (processPass st queue).2.length ≤ queue.length) ∧
    (∀ (st : DelaunayState) (queue : List ℕ), queue ≠ [] →
      (processPass st queue).2.length = queue.length →
      BuildTetrahedronsLoop st queue = processPass st queue) ∧
    (∀ (st : DelaunayState) (queue : List ℕ), queue ≠ [] →
      (processPass st queue).2.length ≠ queue.length →
      (processPass st queue).2.length < queue.length ∧
      BuildTetrahedronsLoop st queue =
        BuildTetrahedronsLoop (processPass st queue).1 (processPass st queue).2) ∧
    (∀ st : DelaunayState, BuildTetrahedronsLoop st [] = (st, [])) := by
  refine ⟨processPass_length_le, ?_, ?_, ?_⟩
  · intro st queue hne heq
    rw [BuildTetrahedronsLoop]
    simp [List.isEmpty_iff, hne, heq]
  · intro st queue hne hneq
    have hle := processPass_length_le st queue
    refine ⟨by omega, ?_⟩
    rw [BuildTetrahedronsLoop]
    simp [List.isEmpty_iff, hne, hneq]
  · intro st
    rw [BuildTetrahedronsLoop]
    simp

/-- Witness for C5: on the empty super-mesh-free state, the single queued
vertex cannot find a conflicting cell, the whole pass makes no progress, and
the loop exits returning that vertex as excluded. -/
theorem C5_retry_loop_terminates_witness :
    (([0] : List ℕ) ≠ [] ∧
      (processPass ⟨[], [], [], []⟩ [0]).2.length = ([0] : List ℕ).length) ∧
    BuildTetrahedronsLoop ⟨[], [], [], []⟩ [0] = processPass ⟨[], [], [], []⟩ [0] :=
  ⟨⟨by decide, by decide⟩,
   C5_retry_loop_terminates.2.1 ⟨[], [], [], []⟩ [0] (by decide) (by decide)⟩

theorem lt_length_of_getD_false (l : List Bool) (n : ℕ) (h : l.getD n true = false) :
    n < l.length := by
  by_contra hn
  rw [List.getD_eq_default] at h
  · simp at h
  · omega

theorem getD_set_true (l : List Bool) (m n : ℕ) :
    (l.set m true).getD n true = if n = m then true else l.getD n true := by
  induction l generalizing m n with
  | nil => simp [List.getD]
  | cons b t ih =>
    cases m with
    | zero =>
      cases n with
      | zero => rw [List.set_cons_zero, List.getD_cons_zero, if_pos rfl]
      | succ n =>
        rw [List.set_cons_zero, List.getD_cons_succ, List.getD_cons_succ,
          if_neg (Nat.succ_ne_zero n)]
    | succ m =>
      cases n with
      | zero =>
        rw [List.set_cons_succ, List.getD_cons_zero, List.getD_cons_zero,
          if_neg (by omega)]
      | succ n =>
        rw [List.set_cons_succ, List.getD_cons_succ, List.getD_cons_succ, ih]
        simp [Nat.succ.injEq]

theorem getD_set_false (l : List Bool) (m n : ℕ) (hm : m < l.length) :
    (l.set m false).getD n true = if n = m then false else l.getD n true := by
  induction l generalizing m n with
  | nil => simp at hm
  | cons b t ih =>
    cases m with
    | zero =>
      cases n with
      | zero => rw [List.set_cons_zero, List.getD_cons_zero, if_pos rfl]
      | succ n =>
        rw [List.set_cons_zero, List.getD_cons_succ, List.getD_cons_succ,
          if_neg (Nat.succ_ne_zero n)]
    | succ m =>
      cases n with
      | zero =>
        rw [List.set_cons_succ, List.getD_cons_zero, List.getD_cons_zero,
          if_neg (by omega)]
      | succ n =>
        simp only [List.length_cons] at hm
        rw [List.set_cons_succ, List.getD_cons_succ, List.getD_cons_succ,
          ih m n (by omega)]
        simp [Nat.succ.injEq]

theorem getD_foldl_set_true (extra : List ℕ) (fl : List Bool) (n : ℕ) :
    (extra.foldl (fun fl m => fl.set m true) fl).getD n true =
      if n ∈ extra then true else fl.getD n true := by
  induction extra generalizing fl with
  | nil => simp
  | cons e es ih =>
    simp only [List.foldl_cons, ih, getD_set_true, List.mem_cons]
    by_cases h1 : n ∈ es <;> by_cases h2 : n = e <;> simp [h1, h2]

theorem length_foldl_set (idxs : List ℕ) (fl : List Bool) (b : Bool) :
    (idxs.foldl (fun fl m => fl.set m b) fl).length = fl.length := by
  induction idxs generalizing fl with
  | nil => rfl
  | cons e es ih => simp [ih]

theorem getD_foldl_set_false (idxs : List ℕ) (fl : List Bool) (n : ℕ)
    (hin : ∀ m ∈ idxs, m < fl.length) :
    (idxs.foldl (fun fl m => fl.set m false) fl).getD n true =
      if n ∈ idxs then false else fl.getD n true := by
  induction idxs generalizing fl with
  | nil => simp
  | cons e es ih =>
    simp only [List.foldl_cons, List.mem_cons]
    rw [ih (fl.set e false)
      (by intro m hm; rw [List.length_set]; exact hin m (List.mem_cons_of_mem e hm))]
    rw [getD_set_false fl e n (hin e (List.mem_cons_self e es))]
    by_cases h1 : n ∈ es <;> by_cases h2 : n = e <;> simp [h1, h2]

theorem list_bool_ext (l1 l2 : List Bool) (hlen : l1.length = l2.length)
    (h : ∀ n, l1.getD n true = l2.getD n true) : l1 = l2 := by
  apply List.ext_getElem?
  intro n
  by_cases hn : n < l1.length
  · have hn2 : n < l2.length := hlen ▸ hn
    rw [List.getElem?_eq_getElem hn, List.getElem?_eq_getElem hn2]
    have := h n
    rw [List.getD_eq_getElem _ _ hn, List.getD_eq_getElem _ _ hn2] at this
    rw [this]
  · rw [List.getElem?_eq_none (by omega), List.getElem?_eq_none (by omega)]

theorem floodFillProcessFace_spec (tets : List Tetrahedron)
    (circumspheres : List HighPrecisionSphere) (position : Vec3)
    (st : List Bool × List ℕ) (tetIndex : ℕ) (faceIndex : Fin 4) :
    floodFillProcessFace tets circumspheres position st tetIndex faceIndex = st ∨
    ∃ n, st.1.getD n true = false ∧
      floodFillProcessFace tets circumspheres position st tetIndex faceIndex =
        (st.1.set n true, st.2 ++ [n]) := by
  rw [floodFillProcessFace]
  split
  · exact Or.inl rfl
  · split
    · exact Or.inl rfl
    · split
      · rename_i hrem _
        exact Or.inr ⟨_, by simpa [removedAt] using hrem, rfl⟩
      · exact Or.inl rfl

theorem floodFillFold_spec (tets : List Tetrahedron)
    (circumspheres : List HighPrecisionSphere) (position : Vec3)
    (st : List Bool × List ℕ) (tetIndex : ℕ) :
    ∃ extra : List ℕ,
      ((List.finRange 4).foldl
          (fun st f => floodFillProcessFace tets circumspheres position st tetIndex f)
          st).2 = st.2 ++ extra ∧
      ((List.finRange 4).foldl
          (fun st f => floodFillProcessFace tets circumspheres position st tetIndex f)
          st).1 = extra.foldl (fun fl n => fl.set n true) st.1 ∧
      ∀ n ∈ extra, st.1.getD n true = false := by
  have general : ∀ (l : List (Fin 4)) (st : List Bool × List ℕ),
      ∃ extra : List ℕ,
        (l.foldl (fun st f => floodFillProcessFace tets circumspheres position st tetIndex f)
            st).2 = st.2 ++ extra ∧
        (l.foldl (fun st f => floodFillProcessFace tets circumspheres position st tetIndex f)
            st).1 = extra.foldl (fun fl n => fl.set n true) st.1 ∧
        ∀ n ∈ extra, st.1.getD n true = false := by
    intro l
    induction l with
    | nil => intro st; exact ⟨[], by simp, by simp, by simp⟩
    | cons f fs ih =>
      intro st
      rcases floodFillProcessFace_spec tets circumspheres position st tetIndex f with
        heq | ⟨n, hn, heq⟩
      · obtain ⟨extra, h1, h2, h3⟩ := ih (floodFillProcessFace tets circumspheres position st tetIndex f)
        exact ⟨extra, by rw [List.foldl_cons, h1, heq],
          by rw [List.foldl_cons, h2, heq], by rw [heq] at h3; exact h3⟩
      · obtain ⟨extra, h1, h2, h3⟩ := ih (floodFillProcessFace tets circumspheres position st tetIndex f)
        refine ⟨n :: extra, ?_, ?_, ?_⟩
        · rw [List.foldl_cons, h1, heq]
          simp
        · rw [List.foldl_cons, h2, heq, List.foldl_cons]
        · intro m hm
          rcases List.mem_cons.mp hm with hm | hm
          · exact hm ▸ hn
          · have := h3 m hm
            rw [heq] at this
            simp only at this
            rw [getD_set_true] at this
            by_cases hmn : m = n
            · simp [hmn] at this
            · simpa [hmn] using this
  exact general (List.finRange 4) st

theorem floodFillAux_spec (tets : List Tetrahedron)
    (circumspheres : List HighPrecisionSphere) (position : Vec3)
    (removed : List Bool) (queue : List ℕ) (i : ℕ) :
    ∃ extra : List ℕ,
      (floodFillAux tets circumspheres position removed queue i).2 = queue ++ extra ∧
      (floodFillAux tets circumspheres position removed queue i).1 =
        extra.foldl (fun fl n => fl.set n true) removed ∧
      ∀ n ∈ extra, removed.getD n true = false := by
  induction removed, queue, i using floodFillAux.induct tets circumspheres position with
  | case1 removed queue i h ih =>
    rw [floodFillAux, dif_pos h]
    obtain ⟨extraF, hf1, hf2, hf3⟩ :=
      floodFillFold_spec tets circumspheres position (removed, queue) (queue.getD i 0)
    obtain ⟨extra2, h1, h2, h3⟩ := ih
    refine ⟨extraF ++ extra2, ?_, ?_, ?_⟩
    · rw [h1, hf1]
      simp [List.append_assoc]
    · rw [h2, hf2, List.foldl_append]
    · intro n hn
      rcases List.mem_append.mp hn with hn | hn
      · exact hf3 n hn
      · have := h3 n hn
        rw [hf2, getD_foldl_set_true] at this
        by_cases hmem : n ∈ extraF
        · simp [hmem] at this
        · simpa [hmem] using this
  | case2 removed queue i h =>
    rw [floodFillAux, dif_neg h]
    exact ⟨[], by simp, by simp, by simp⟩

/-- Reverting exactly the marks made by a seed-plus-flood insertion restores
the pre-insertion flags. -/
theorem revert_restores (removed0 : List Bool) (seed : ℕ) (extra : List ℕ)
    (hseed : removed0.getD seed true = false)
    (hextra : ∀ n ∈ extra, (removed0.set seed true).getD n true = false) :
    revertRemoved (extra.foldl (fun fl n => fl.set n true) (removed0.set seed true))
      (seed :: extra) = removed0 := by
  have hseedLt : seed < removed0.length := lt_length_of_getD_false removed0 seed hseed
  have hextraLt : ∀ n ∈ extra, n < removed0.length := by
    intro n hn
    have := lt_length_of_getD_false _ n (hextra n hn)
    simpa using this
  have hlenMarked :
      (extra.foldl (fun fl n => fl.set n true) (removed0.set seed true)).length =
        removed0.length := by
    rw [length_foldl_set]
    simp
  apply list_bool_ext
  · rw [revertRemoved, length_foldl_set, hlenMarked]
  · intro n
    rw [revertRemoved, getD_foldl_set_false _ _ _ (by
      intro m hm
      rw [hlenMarked]
      rcases List.mem_cons.mp hm with hm | hm
      · exact hm ▸ hseedLt
      · exact hextraLt m hm)]
    by_cases hmem : n ∈ seed :: extra
    · rw [if_pos hmem]
      rcases List.mem_cons.mp hmem with hn | hn
      · rw [hn, hseed]
      · have := hextra n hn
        rw [getD_set_true] at this
        by_cases hns : n = seed
        · simp [hns] at this
        · rw [if_neg hns] at this
          rw [this]
    · rw [if_neg hmem]
      have hns : n ≠ seed := fun hc => hmem (hc ▸ List.mem_cons_self seed extra)
      have hne : n ∉ extra := fun hc => hmem (List.mem_cons_of_mem seed hc)
      rw [getD_foldl_set_true, if_neg hne, getD_set_true, if_neg hns]

/-- A successful seed scan names a live cell. -/
theorem findFirstIntersected_live (tets : List Tetrahedron)
    (circumspheres : List HighPrecisionSphere) (removed0 : List Bool)
    (position : Vec3) (seed : ℕ)
    (hseed : findFirstIntersected tets circumspheres removed0 position = some seed) :
    removed0.getD seed true = false := by
  have hp := List.find?_some hseed
  simp only [Bool.and_eq_true, Bool.not_eq_true'] at hp
  simpa [removedAt] using hp.1

/-- C3 (amended): insertion failure rolls back fully in the orientation-failure
mode but not in the not-closed mode. If any normalized non-sentinel hole face
fails the orientation test, `FindAndRemoveIntersected` reverts every removed
flag marked during this insertion (the flag array returns exactly to its
pre-insertion value), clears the removed-cell list and the hole surface, and
reports failure; if instead every face passes but the assembled hole surface
is not closed, it reports failure with an empty hole surface — but the flags
of the conflict region remain marked removed and the removed-cell list is
kept. In either failure mode the caller leaves the mesh arrays unchanged and
defers the vertex (the failing `insertVertexStep` changes no field of the
state except the flags). -/
theorem C3_insertion_failure_modes (tets : List Tetrahedron) (vertices : List Vec3)
    (circumspheres : List HighPrecisionSphere) (removed0 : List Bool)
    (position : Vec3) (seed : ℕ)
    (hseed : findFirstIntersected tets circumspheres removed0 position = some seed) :
    (holeTrianglesValid vertices position
        ((collectHoleTriangles tets
            (floodFillAux tets circumspheres position (removed0.set seed true) [seed] 0).1
            (floodFillAux tets circumspheres position (removed0.set seed true) [seed] 0).2).map
          (normalizeHoleTriangle vertices)) = false →
      FindAndRemoveIntersected tets vertices circumspheres removed0 position false =
        ⟨removed0, [], [], false⟩) ∧
    (holeTrianglesValid vertices position
        ((collectHoleTriangles tets
            (floodFillAux tets circumspheres position (removed0.set seed true) [seed] 0).1
            (floodFillAux tets circumspheres position (removed0.set seed true) [seed] 0).2).map
          (normalizeHoleTriangle vertices)) = true →
      IsClosedSurface
        (((collectHoleTriangles tets
            (floodFillAux tets circumspheres position (removed0.set seed true) [seed] 0).1
            (floodFillAux tets circumspheres position (removed0.set seed true) [seed] 0).2).map
          (normalizeHoleTriangle vertices)).foldl AddFace []) = false →
      FindAndRemoveIntersected tets vertices circumspheres removed0 position false =
        ⟨(floodFillAux tets circumspheres position (removed0.set seed true) [seed] 0).1, [],
          (floodFillAux tets circumspheres position (removed0.set seed true) [seed] 0).2,
          false⟩ ∧
      removedAt
        (FindAndRemoveIntersected tets vertices circumspheres removed0 position false).removed
        seed = true ∧
      removed0.getD seed true = false) ∧
    (∀ (st : DelaunayState) (v : ℕ), (insertVertexStep st v).2 = false →
      (insertVertexStep st v).1.tets = st.tets ∧
      (insertVertexStep st v).1.vertices = st.vertices ∧
      (insertVertexStep st v).1.circumspheres = st.circumspheres) := by
  have hseedF : removed0.getD seed true = false :=
    findFirstIntersected_live tets circumspheres removed0 position seed hseed
  obtain ⟨extra, hq, hfl, hex⟩ :=
    floodFillAux_spec tets circumspheres position (removed0.set seed true) [seed] 0
  refine ⟨?_, ?_, ?_⟩
  · intro hbad
    rw [FindAndRemoveIntersected, hseed]
    simp only [hbad, Bool.not_false, Bool.true_or, if_pos]
    have : revertRemoved
        (floodFillAux tets circumspheres position (removed0.set seed true) [seed] 0).1
        (floodFillAux tets circumspheres position (removed0.set seed true) [seed] 0).2 =
        removed0 := by
      rw [hq, hfl]
      exact revert_restores removed0 seed extra hseedF hex
    rw [this]
  · intro hgood hnc
    have hres : FindAndRemoveIntersected tets vertices circumspheres removed0 position false =
        ⟨(floodFillAux tets circumspheres position (removed0.set seed true) [seed] 0).1, [],
          (floodFillAux tets circumspheres position (removed0.set seed true) [seed] 0).2,
          false⟩ := by
      rw [FindAndRemoveIntersected, hseed]
      simp [hgood, hnc]
    refine ⟨hres, ?_, hseedF⟩
    rw [hres]
    rw [removedAt, hfl, getD_foldl_set_true]
    by_cases hmem : seed ∈ extra
    · rw [if_pos hmem]
    · rw [if_neg hmem, getD_set_true, if_pos rfl]
  · intro st v hfail
    rw [insertVertexStep] at hfail
    by_cases hok : (FindAndRemoveIntersected st.tets st.vertices st.circumspheres
        st.removed (getVec st.vertices v) false).ok = true
    · rw [if_pos hok] at hfail
      simp at hfail
    · rw [insertVertexStep, if_neg hok]
      exact ⟨rfl, rfl, rfl⟩

theorem c3_inside0 : IsInsideCircumsphere c3Spheres 0 c3Position = true := by
  norm_num [IsInsideCircumsphere, c3Spheres, c3Position, Vec3.zero, Vec3.sub_def,
    Vec3.sub, Vec3.LengthSquared, Vec3.DotProduct, List.getD_cons_zero]

theorem c3_inside1 : IsInsideCircumsphere c3Spheres 1 c3Position = false := by
  norm_num [IsInsideCircumsphere, c3Spheres, c3Position, Vec3.zero, Vec3.sub_def,
    Vec3.sub, Vec3.LengthSquared, Vec3.DotProduct, List.getD_cons_zero,
    List.getD_cons_succ]

theorem c3_seed : findFirstIntersected c3Tets c3Spheres [false, false] c3Position = some 0 := by
  rw [findFirstIntersected, show List.range c3Tets.length = [0, 1] from rfl]
  exact List.find?_cons_of_pos _ (by simp [removedAt, c3_inside0])

theorem c3_flood :
    floodFillAux c3Tets c3Spheres c3Position [true, false] [0] 0 = ([true, false], [0]) := by
  rw [floodFillAux, dif_pos (by norm_num : (0 : ℕ) < ([0] : List ℕ).length)]
  have hfold : (List.finRange 4).foldl
      (fun st f => floodFillProcessFace c3Tets c3Spheres c3Position st (([0] : List ℕ).getD 0 0) f)
      ([true, false], [0]) = ([true, false], [0]) := by
    rw [show List.finRange 4 = [0, 1, 2, 3] from rfl]
    simp only [List.foldl_cons, List.foldl_nil]
    simp [floodFillProcessFace, getTet, c3Tets, c3T0, removedAt, c3_inside1,
      M_MAX_UNSIGNED, List.getD_cons_zero, List.getD_cons_succ]
  rw [hfold]
  rw [floodFillAux, dif_neg (by norm_num)]

theorem c3_collect :
    collectHoleTriangles c3Tets [true, false] [0] = [c3TriLive, c3TriA, c3TriB, c3TriC] := by
  decide

theorem c3_norm :
    (collectHoleTriangles c3Tets [true, false] [0]).map (normalizeHoleTriangle c3Vertices) =
      [c3TriLive, c3TriA, c3TriB, c3TriC] := by
  rw [c3_collect]
  simp only [List.map_cons, List.map_nil]
  rw [show normalizeHoleTriangle c3Vertices c3TriA = c3TriA from by decide,
    show normalizeHoleTriangle c3Vertices c3TriB = c3TriB from by decide,
    show normalizeHoleTriangle c3Vertices c3TriC = c3TriC from by decide]
  have hlive : normalizeHoleTriangle c3Vertices c3TriLive = c3TriLive := by
    rw [normalizeHoleTriangle]
    rw [if_neg (by decide)]
    rw [TetrahedralMeshSurfaceTriangle.Normalize]
    rw [if_pos (by decide)]
    rw [if_neg ?_]
    · norm_num [c3TriLive, c3Vertices, getVec, Vec3.sub_def, Vec3.sub,
        Vec3.CrossProduct, Vec3.DotProduct, List.getD_cons_zero, List.getD_cons_succ]
  rw [hlive]

theorem c3_valid :
    holeTrianglesValid c3Vertices c3Position [c3TriLive, c3TriA, c3TriB, c3TriC] = true := by
  rw [holeTrianglesValid]
  simp only [List.all_cons, List.all_nil, Bool.and_true]
  rw [show (c3TriA.tetIndex_ == M_MAX_UNSIGNED) = true from by decide,
    show (c3TriB.tetIndex_ == M_MAX_UNSIGNED) = true from by decide,
    show (c3TriC.tetIndex_ == M_MAX_UNSIGNED) = true from by decide,
    show (c3TriLive.tetIndex_ == M_MAX_UNSIGNED) = false from by decide]
  norm_num [orientationDistance, M_LARGE_EPSILON, c3TriLive, c3Vertices, c3Position,
    getVec, Vec3.sub_def, Vec3.sub, Vec3.CrossProduct, Vec3.DotProduct,
    List.getD_cons_zero, List.getD_cons_succ]

theorem c3_notclosed :
    IsClosedSurface (([c3TriLive, c3TriA, c3TriB, c3TriC] :
      List TetrahedralMeshSurfaceTriangle).foldl AddFace []) = false := by
  decide

theorem c3_carve_eval :
    FindAndRemoveIntersected c3Tets c3Vertices c3Spheres [false, false] c3Position false =
      ⟨[true, false], [], [0], false⟩ := by
  rw [FindAndRemoveIntersected, c3_seed]
  simp [c3_flood, c3_norm, c3_valid]
  decide

/-- Counterexample to C3 as stated: at a concrete two-cell mesh state
satisfying the code's own symmetric-adjacency invariant, the carved hole
surface is not closed, and `FindAndRemoveIntersected` aborts — but the
conflict cell's removed flag stays `true` instead of being reverted to its
pre-insertion value `false`, so the not-closed case does not abort
identically to the orientation-failure case. -/
theorem C3_counterexample_no_rollback_when_not_closed :
    (FindAndRemoveIntersected c3Tets c3Vertices c3Spheres [false, false] c3Position
        false).ok = false ∧
    (FindAndRemoveIntersected c3Tets c3Vertices c3Spheres [false, false] c3Position
        false).removed = [true, false] ∧
    ([true, false] : List Bool) ≠ [false, false] :=
  ⟨by rw [c3_carve_eval], by rw [c3_carve_eval], by decide⟩

/-- Witness for the amended C3 at the concrete two-cell state: the carve
fails with the hole surface not closed, and the flags stay marked. -/
theorem C3_insertion_failure_modes_witness :
    (findFirstIntersected c3Tets c3Spheres [false, false] c3Position = some 0 ∧
      holeTrianglesValid c3Vertices c3Position
        ((collectHoleTriangles c3Tets
            (floodFillAux c3Tets c3Spheres c3Position (([false, false] : List Bool).set 0 true)
              [0] 0).1
            (floodFillAux c3Tets c3Spheres c3Position (([false, false] : List Bool).set 0 true)
              [0] 0).2).map
          (normalizeHoleTriangle c3Vertices)) = true ∧
      IsClosedSurface
        (((collectHoleTriangles c3Tets
            (floodFillAux c3Tets c3Spheres c3Position (([false, false] : List Bool).set 0 true)
              [0] 0).1
            (floodFillAux c3Tets c3Spheres c3Position (([false, false] : List Bool).set 0 true)
              [0] 0).2).map
          (normalizeHoleTriangle c3Vertices)).foldl AddFace []) = false) ∧
    FindAndRemoveIntersected c3Tets c3Vertices c3Spheres [false, false] c3Position false =
      ⟨(floodFillAux c3Tets c3Spheres c3Position (([false, false] : List Bool).set 0 true)
          [0] 0).1, [],
        (floodFillAux c3Tets c3Spheres c3Position (([false, false] : List Bool).set 0 true)
          [0] 0).2, false⟩ := by
  have hx : holeTrianglesValid c3Vertices c3Position
      ((collectHoleTriangles c3Tets
          (floodFillAux c3Tets c3Spheres c3Position (([false, false] : List Bool).set 0 true)
            [0] 0).1
          (floodFillAux c3Tets c3Spheres c3Position (([false, false] : List Bool).set 0 true)
            [0] 0).2).map
        (normalizeHoleTriangle c3Vertices)) = true := by
    rw [show ([false, false] : List Bool).set 0 true = [true, false] from rfl, c3_flood]
    rw [c3_norm]
    exact c3_valid
  have hy : IsClosedSurface
      (((collectHoleTriangles c3Tets
          (floodFillAux c3Tets c3Spheres c3Position (([false, false] : List Bool).set 0 true)
            [0] 0).1
          (floodFillAux c3Tets c3Spheres c3Position (([false, false] : List Bool).set 0 true)
            [0] 0).2).map
        (normalizeHoleTriangle c3Vertices)).foldl AddFace []) = false := by
    rw [show ([false, false] : List Bool).set 0 true = [true, false] from rfl, c3_flood]
    rw [c3_norm]
    exact c3_notclosed
  exact ⟨⟨c3_seed, hx, hy⟩,
    ((C3_insertion_failure_modes c3Tets c3Vertices c3Spheres [false, false] c3Position 0
      c3_seed).2.1 hx hy).1⟩

theorem getD_set_generic {α : Type} (l : List α) (m n : ℕ) (a d : α) :
    (l.set m a).getD n d = if m = n ∧ m < l.length then a else l.getD n d := by
  induction l generalizing m n with
  | nil => simp [List.getD]
  | cons b t ih =>
    cases m with
    | zero =>
      cases n with
      | zero => rw [List.set_cons_zero, List.getD_cons_zero, if_pos ⟨rfl, by simp⟩]
      | succ n =>
        rw [List.set_cons_zero, List.getD_cons_succ, if_neg (by simp), List.getD_cons_succ]
    | succ m =>
      cases n with
      | zero => rw [List.set_cons_succ, List.getD_cons_zero, if_neg (by simp), List.getD_cons_zero]
      | succ n =>
        rw [List.set_cons_succ, List.getD_cons_succ, ih]
        have hiff : (m = n ∧ m < t.length) ↔ (m + 1 = n + 1 ∧ m + 1 < (b :: t).length) := by
          rw [List.length_cons]
          omega
        rw [if_congr hiff rfl rfl, List.getD_cons_succ]

theorem getTet_set (tets : List Tetrahedron) (m n : ℕ) (t : Tetrahedron) :
    getTet (tets.set m t) n = if m = n ∧ m < tets.length then t else getTet tets n := by
  rw [getTet, getD_set_generic]
  rfl

theorem getTri_eq_getD (faces : List TetrahedralMeshSurfaceTriangle) (i : ℕ) :
    getTri faces i = faces.getD i TetrahedralMeshSurfaceTriangle.empty := rfl

theorem setNeighbor_indices (t : Tetrahedron) (f v : ℕ) :
    (t.setNeighbor f v).indices_ = t.indices_ := by
  rw [Tetrahedron.setNeighbor]
  split <;> rfl

theorem setNeighbor_matrix (t : Tetrahedron) (f v : ℕ) :
    (t.setNeighbor f v).matrix_ = t.matrix_ := by
  rw [Tetrahedron.setNeighbor]
  split <;> rfl

theorem neighborN_setNeighbor (t : Tetrahedron) (f g v : ℕ) :
    (t.setNeighbor f v).neighborN g = if f = g ∧ f < 4 then v else t.neighborN g := by
  by_cases hf : f < 4
  · by_cases hg : g < 4
    · by_cases hfg : f = g
      · subst hfg
        simp [Tetrahedron.setNeighbor, Tetrahedron.neighborN, hf, Function.update]
      · simp only [Tetrahedron.setNeighbor, Tetrahedron.neighborN, dif_pos hf, dif_pos hg]
        rw [if_neg (by tauto)]
        rw [Function.update_apply, if_neg (by simp [Fin.ext_iff]; omega)]
    · simp only [Tetrahedron.setNeighbor, Tetrahedron.neighborN, dif_pos hf, dif_neg hg]
      rw [if_neg (by omega)]
  · simp only [Tetrahedron.setNeighbor, Tetrahedron.neighborN, dif_neg hf]
    rw [if_neg (by tauto)]

/-- The slot-allocation loop: the output slot list keeps the reused removed
slots as a prefix and appends the freshly created trailing slots (consecutive
indices at the old end of the array), each fresh slot holding a default cell,
a default sphere, and a `removed` flag; existing entries are untouched and
the vertex list is unchanged. -/
theorem allocateSlots_spec (st : DelaunayState) (removedTets : List ℕ) (holeSize : ℕ) :
    (allocateSlots st removedTets holeSize).2.length = max removedTets.length holeSize ∧
    (∀ i, i < removedTets.length →
      (allocateSlots st removedTets holeSize).2.getD i M_MAX_UNSIGNED =
        removedTets.getD i M_MAX_UNSIGNED) ∧
    (∀ i, removedTets.length ≤ i → i < (allocateSlots st removedTets holeSize).2.length →
      (allocateSlots st removedTets holeSize).2.getD i M_MAX_UNSIGNED =
        st.tets.length + (i - removedTets.length)) ∧
    (allocateSlots st removedTets holeSize).1.vertices = st.vertices ∧
    (allocateSlots st removedTets holeSize).1.tets.length =
      st.tets.length + (holeSize - removedTets.length) ∧
    (allocateSlots st removedTets holeSize).1.removed.length =
      st.removed.length + (holeSize - removedTets.length) ∧
    (allocateSlots st removedTets holeSize).1.circumspheres.length =
      st.circumspheres.length + (holeSize - removedTets.length) ∧
    (∀ j, j < st.tets.length →
      getTet (allocateSlots st removedTets holeSize).1.tets j = getTet st.tets j) ∧
    (∀ j, st.tets.length ≤ j →
      getTet (allocateSlots st removedTets holeSize).1.tets j = Tetrahedron.empty) ∧
    (∀ j, j < st.removed.length →
      (allocateSlots st removedTets holeSize).1.removed.getD j true =
        st.removed.getD j true) ∧
    (∀ j, st.removed.length ≤ j →
      (allocateSlots st removedTets holeSize).1.removed.getD j true = true) ∧
    (∀ j, j < st.circumspheres.length →
      (allocateSlots st removedTets holeSize).1.circumspheres.getD j
        HighPrecisionSphere.empty = st.circumspheres.getD j HighPrecisionSphere.empty) := by
  induction st, removedTets, holeSize using allocateSlots.induct with
  | case1 st removedTets holeSize hlt ih =>
    rw [allocateSlots, if_pos hlt]
    obtain ⟨i1, i2, i3, i4, i5, i6, i7, i8, i9, i10, i11, i12⟩ := ih
    simp only [List.length_append, List.length_cons, List.length_nil] at i1 i5 i6 i7 ⊢
    refine ⟨by omega, ?_, ?_, i4, by omega, by omega, by omega, ?_, ?_, ?_, ?_, ?_⟩
    · intro i hi
      rw [i2 i (by simp; omega)]
      rw [List.getD_append _ _ _ _ hi]
    · intro i hge hlen
      by_cases heq : i = removedTets.length
      · subst heq
        rw [i2 _ (by simp)]
        rw [List.getD_append_right _ _ _ _ (le_refl _)]
        simp
      · rw [i3 i (by simp; omega) hlen]
        simp
        omega
    · intro j hj
      rw [i8 j (by simp; omega)]
      rw [getTet, getTet, List.getD_append _ _ _ _ hj]
    · intro j hj
      by_cases heq : j = st.tets.length
      · subst heq
        rw [i8 _ (by simp)]
        rw [getTet, List.getD_append_right _ _ _ _ (le_refl _)]
        simp
      · rw [i9 j (by simp; omega)]
    · intro j hj
      rw [i10 j (by simp; omega), List.getD_append _ _ _ _ hj]
    · intro j hj
      by_cases heq : j = st.removed.length
      · subst heq
        rw [i10 _ (by simp)]
        rw [List.getD_append_right _ _ _ _ (le_refl _)]
        simp
      · rw [i11 j (by simp; omega)]
    · intro j hj
      rw [i12 j (by simp; omega), List.getD_append _ _ _ _ hj]
  | case2 st removedTets holeSize hge =>
    rw [allocateSlots, if_neg hge]
    dsimp only
    rw [not_lt] at hge
    refine ⟨by omega, fun i _ => rfl, fun i h1 h2 => by omega, rfl, by omega, by omega,
      by omega, fun j _ => rfl, ?_, fun j _ => rfl, ?_, fun j _ => rfl⟩
    · intro j hj
      rw [getTet, List.getD_eq_default]
      omega
    · intro j hj
      rw [List.getD_eq_default]
      omega

theorem fillOneCell_vertices (out : List ℕ) (hs : List TetrahedralMeshSurfaceTriangle)
    (c : ℕ) (st : DelaunayState) (i : ℕ) :
    (fillOneCell out hs c st i).vertices = st.vertices := rfl

theorem fillOneCell_tets (out : List ℕ) (hs : List TetrahedralMeshSurfaceTriangle)
    (c : ℕ) (st : DelaunayState) (i : ℕ) :
    (fillOneCell out hs c st i).tets =
      if (getTri hs i).tetIndex_ ≠ M_MAX_UNSIGNED then
        (st.tets.set (out.getD i M_MAX_UNSIGNED) (fillCellValue st.tets out hs c i)).set
          (getTri hs i).tetIndex_
          ((getTet (st.tets.set (out.getD i M_MAX_UNSIGNED) (fillCellValue st.tets out hs c i))
              (getTri hs i).tetIndex_).setNeighbor (getTri hs i).tetFace_
            (out.getD i M_MAX_UNSIGNED))
      else st.tets.set (out.getD i M_MAX_UNSIGNED) (fillCellValue st.tets out hs c i) := rfl

theorem fillOneCell_removed (out : List ℕ) (hs : List TetrahedralMeshSurfaceTriangle)
    (c : ℕ) (st : DelaunayState) (i : ℕ) :
    (fillOneCell out hs c st i).removed =
      st.removed.set (out.getD i M_MAX_UNSIGNED) false := rfl

theorem fillOneCell_spheres (out : List ℕ) (hs : List TetrahedralMeshSurfaceTriangle)
    (c : ℕ) (st : DelaunayState) (i : ℕ) :
    (fillOneCell out hs c st i).circumspheres =
      st.circumspheres.set (out.getD i M_MAX_UNSIGNED)
        (GetTetrahedronCircumsphere st.vertices
          (getTet (fillOneCell out hs c st i).tets (out.getD i M_MAX_UNSIGNED))) := rfl

/-- The step-by-step account of `FillStarShapedHole`: after processing the
first `n` boundary faces, each processed output slot holds exactly its
`fillCellValue` cell with its removed flag cleared and its circumsphere
computed from that cell, each processed face's referenced live cell has its
back-link slot pointing at the new cell, and every other cell, flag and
sphere of the state is untouched. -/
theorem fillStarShapedHole_invariant (st0 : DelaunayState) (out : List ℕ)
    (hs : List TetrahedralMeshSurfaceTriangle) (c : ℕ)
    (hdist : ∀ i j, i < hs.length → j < hs.length → i ≠ j →
      out.getD i M_MAX_UNSIGNED ≠ out.getD j M_MAX_UNSIGNED)
    (hrange : ∀ i, i < hs.length → out.getD i M_MAX_UNSIGNED < st0.tets.length)
    (hback : ∀ i, i < hs.length → (getTri hs i).tetIndex_ ≠ M_MAX_UNSIGNED →
      ∀ j, j < hs.length → out.getD j M_MAX_UNSIGNED ≠ (getTri hs i).tetIndex_)
    (hbidx : ∀ i, i < hs.length → (getTri hs i).tetIndex_ ≠ M_MAX_UNSIGNED →
      (getTri hs i).tetIndex_ < st0.tets.length)
    (hface4 : ∀ i, i < hs.length → (getTri hs i).tetIndex_ ≠ M_MAX_UNSIGNED →
      (getTri hs i).tetFace_ < 4)
    (hfacedist : ∀ i j, i < hs.length → j < hs.length → i ≠ j →
      (getTri hs i).tetIndex_ ≠ M_MAX_UNSIGNED →
      ¬((getTri hs i).tetIndex_ = (getTri hs j).tetIndex_ ∧
        (getTri hs i).tetFace_ = (getTri hs j).tetFace_))
    (hlenR : st0.removed.length = st0.tets.length)
    (hlenS : st0.circumspheres.length = st0.tets.length) :
    ∀ n, n ≤ hs.length →
      ((List.range n).foldl (fillOneCell out hs c) st0).vertices = st0.vertices ∧
      ((List.range n).foldl (fillOneCell out hs c) st0).tets.length = st0.tets.length ∧
      ((List.range n).foldl (fillOneCell out hs c) st0).removed.length =
        st0.removed.length ∧
      ((List.range n).foldl (fillOneCell out hs c) st0).circumspheres.length =
        st0.circumspheres.length ∧
      (∀ i, i < n →
        getTet ((List.range n).foldl (fillOneCell out hs c) st0).tets
            (out.getD i M_MAX_UNSIGNED) =
          fillCellValue st0.tets out hs c i) ∧
      (∀ i, i < n → (getTri hs i).tetIndex_ ≠ M_MAX_UNSIGNED →
        (getTet ((List.range n).foldl (fillOneCell out hs c) st0).tets
            (getTri hs i).tetIndex_).neighborN (getTri hs i).tetFace_ =
          out.getD i M_MAX_UNSIGNED) ∧
      (∀ j, (∀ i, i < n → out.getD i M_MAX_UNSIGNED ≠ j) →
        (∀ i, i < n → (getTri hs i).tetIndex_ = M_MAX_UNSIGNED ∨
          (getTri hs i).tetIndex_ ≠ j) →
        getTet ((List.range n).foldl (fillOneCell out hs c) st0).tets j =
          getTet st0.tets j) ∧
      (∀ j, (∀ i, i < n → out.getD i M_MAX_UNSIGNED ≠ j) →
        (getTet ((List.range n).foldl (fillOneCell out hs c) st0).tets j).indices_ =
          (getTet st0.tets j).indices_ ∧
        (getTet ((List.range n).foldl (fillOneCell out hs c) st0).tets j).matrix_ =
          (getTet st0.tets j).matrix_) ∧
      (∀ j g, (∀ i, i < n → out.getD i M_MAX_UNSIGNED ≠ j) →
        (∀ i, i < n → ¬((getTri hs i).tetIndex_ ≠ M_MAX_UNSIGNED ∧
          (getTri hs i).tetIndex_ = j ∧ (getTri hs i).tetFace_ = g)) →
        (getTet ((List.range n).foldl (fillOneCell out hs c) st0).tets j).neighborN g =
          (getTet st0.tets j).neighborN g) ∧
      (∀ i, i < n →
        ((List.range n).foldl (fillOneCell out hs c) st0).removed.getD
          (out.getD i M_MAX_UNSIGNED) true = false) ∧
      (∀ j, (∀ i, i < n → out.getD i M_MAX_UNSIGNED ≠ j) →
        ((List.range n).foldl (fillOneCell out hs c) st0).removed.getD j true =
          st0.removed.getD j true) ∧
      (∀ i, i < n →
        ((List.range n).foldl (fillOneCell out hs c) st0).circumspheres.getD
            (out.getD i M_MAX_UNSIGNED) HighPrecisionSphere.empty =
          GetTetrahedronCircumsphere st0.vertices (fillCellValue st0.tets out hs c i)) ∧
      (∀ j, (∀ i, i < n → out.getD i M_MAX_UNSIGNED ≠ j) →
        ((List.range n).foldl (fillOneCell out hs c) st0).circumspheres.getD j
            HighPrecisionSphere.empty =
          st0.circumspheres.getD j HighPrecisionSphere.empty) := by
  intro n
  induction n with
  | zero =>
    intro _
    exact ⟨rfl, rfl, rfl, rfl, fun i hi => absurd hi (by omega),
      fun i hi => absurd hi (by omega), fun j _ _ => rfl, fun j _ => ⟨rfl, rfl⟩,
      fun j g _ _ => rfl, fun i hi => absurd hi (by omega), fun j _ => rfl,
      fun i hi => absurd hi (by omega), fun j _ => rfl⟩
  | succ n ih =>
    intro hn1
    have hn : n ≤ hs.length := by omega
    have hnlen : n < hs.length := by omega
    obtain ⟨h1, h2, h3, h4, h5, h6, h7, h8, h9, h10, h11, h12, h13⟩ := ih hn
    have hstep : (List.range (n + 1)).foldl (fillOneCell out hs c) st0 =
        fillOneCell out hs c ((List.range n).foldl (fillOneCell out hs c) st0) n := by
      rw [List.range_succ, List.foldl_append, List.foldl_cons, List.foldl_nil]
    rw [hstep]
    have hNlen : out.getD n M_MAX_UNSIGNED < st0.tets.length := hrange n hnlen
    have houtN : ∀ i, i < n → out.getD i M_MAX_UNSIGNED ≠ out.getD n M_MAX_UNSIGNED :=
      fun i hi => hdist i n (by omega) hnlen (by omega)
    have hbackN : ∀ i, i < hs.length → (getTri hs i).tetIndex_ ≠ M_MAX_UNSIGNED →
        out.getD n M_MAX_UNSIGNED ≠ (getTri hs i).tetIndex_ :=
      fun i hi hMi => hback i hi hMi n hnlen
    have hslotN : getTet ((List.range n).foldl (fillOneCell out hs c) st0).tets
        (out.getD n M_MAX_UNSIGNED) = getTet st0.tets (out.getD n M_MAX_UNSIGNED) := by
      refine h7 _ houtN ?_
      intro i hi
      by_cases hMi : (getTri hs i).tetIndex_ = M_MAX_UNSIGNED
      · exact Or.inl hMi
      · exact Or.inr fun hc => hbackN i (by omega) hMi hc.symm
    have hvalue : fillCellValue ((List.range n).foldl (fillOneCell out hs c) st0).tets
        out hs c n = fillCellValue st0.tets out hs c n := by
      rw [fillCellValue, fillCellValue, hslotN]
    have hgetN : getTet (fillOneCell out hs c
          ((List.range n).foldl (fillOneCell out hs c) st0) n).tets
        (out.getD n M_MAX_UNSIGNED) = fillCellValue st0.tets out hs c n := by
      rw [fillOneCell_tets]
      split
      · rename_i hMn
        rw [getTet_set, if_neg (fun hc => hbackN n hnlen hMn hc.1.symm), getTet_set,
          if_pos ⟨rfl, by rw [h2]; exact hNlen⟩, hvalue]
      · rw [getTet_set, if_pos ⟨rfl, by rw [h2]; exact hNlen⟩, hvalue]
    have htetslen : (fillOneCell out hs c
        ((List.range n).foldl (fillOneCell out hs c) st0) n).tets.length =
        st0.tets.length := by
      rw [fillOneCell_tets]
      split <;> simp [h2]
    have hframe : ∀ j, out.getD n M_MAX_UNSIGNED ≠ j →
        ((getTri hs n).tetIndex_ = M_MAX_UNSIGNED ∨ (getTri hs n).tetIndex_ ≠ j) →
        getTet (fillOneCell out hs c
            ((List.range n).foldl (fillOneCell out hs c) st0) n).tets j =
          getTet ((List.range n).foldl (fillOneCell out hs c) st0).tets j := by
      intro j hjN hjB
      rw [fillOneCell_tets]
      split
      · rename_i hMn
        rcases hjB with hjB | hjB
        · exact absurd hjB hMn
        · rw [getTet_set, if_neg (fun hc => hjB hc.1), getTet_set, if_neg (fun hc => hjN hc.1)]
      · rw [getTet_set, if_neg (fun hc => hjN hc.1)]
    have hframeB : ∀ j, out.getD n M_MAX_UNSIGNED ≠ j → (getTri hs n).tetIndex_ = j →
        (getTri hs n).tetIndex_ ≠ M_MAX_UNSIGNED →
        getTet (fillOneCell out hs c
            ((List.range n).foldl (fillOneCell out hs c) st0) n).tets j =
          ((getTet ((List.range n).foldl (fillOneCell out hs c) st0).tets j).setNeighbor
            (getTri hs n).tetFace_ (out.getD n M_MAX_UNSIGNED)) := by
      intro j hjN hjB hMn
      rw [fillOneCell_tets, if_pos hMn, hjB]
      rw [getTet_set, if_pos ⟨rfl, by rw [List.length_set, h2, ← hjB]; exact hbidx n hnlen hMn⟩]
      rw [getTet_set, if_neg (fun hc => hjN hc.1)]
    refine ⟨h1 ▸ fillOneCell_vertices out hs c _ n, htetslen, ?_, ?_, ?_, ?_, ?_, ?_, ?_,
      ?_, ?_, ?_, ?_⟩
    · rw [fillOneCell_removed, List.length_set, h3]
    · rw [fillOneCell_spheres, List.length_set, h4]
    · intro i hi
      by_cases hieq : i = n
      · subst hieq
        exact hgetN
      · have hilt : i < n := by omega
        have : getTet (fillOneCell out hs c
            ((List.range n).foldl (fillOneCell out hs c) st0) n).tets
            (out.getD i M_MAX_UNSIGNED) =
            getTet ((List.range n).foldl (fillOneCell out hs c) st0).tets
              (out.getD i M_MAX_UNSIGNED) := by
          refine hframe _ (fun hc => houtN i hilt hc.symm) ?_
          by_cases hMn : (getTri hs n).tetIndex_ = M_MAX_UNSIGNED
          · exact Or.inl hMn
          · exact Or.inr fun hc => hback n hnlen hMn i (by omega) hc.symm
        rw [this]
        exact h5 i hilt
    · intro i hi hMi
      by_cases hieq : i = n
      · subst hieq
        rw [fillOneCell_tets, if_pos hMi]
        rw [getTet_set, if_pos ⟨rfl, by rw [List.length_set, h2]; exact hbidx i hnlen hMi⟩]
        rw [neighborN_setNeighbor, if_pos ⟨rfl, hface4 i hnlen hMi⟩]
      · have hilt : i < n := by omega
        by_cases hMn : (getTri hs n).tetIndex_ = M_MAX_UNSIGNED
        · rw [hframe _ (fun hc => hbackN i (by omega) hMi hc) (Or.inl hMn)]
          exact h6 i hilt hMi
        · by_cases hsame : (getTri hs n).tetIndex_ = (getTri hs i).tetIndex_
          · rw [hframeB (getTri hs i).tetIndex_ (fun hc => hbackN i (by omega) hMi hc) hsame hMn]
            rw [neighborN_setNeighbor]
            rw [if_neg ?_]
            · exact h6 i hilt hMi
            · intro hc
              exact hfacedist n i hnlen (by omega) (by omega) hMn ⟨hsame, hc.1⟩
          · rw [hframe _ (fun hc => hbackN i (by omega) hMi hc) (Or.inr fun hc => hsame hc)]
            exact h6 i hilt hMi
    · intro j hj hjB
      have hjn : out.getD n M_MAX_UNSIGNED ≠ j := hj n (by omega)
      rw [hframe j hjn (hjB n (by omega))]
      exact h7 j (fun i hi => hj i (by omega)) (fun i hi => hjB i (by omega))
    · intro j hj
      have hjn : out.getD n M_MAX_UNSIGNED ≠ j := hj n (by omega)
      have hrest := h8 j (fun i hi => hj i (by omega))
      by_cases hMn : (getTri hs n).tetIndex_ = M_MAX_UNSIGNED
      · rw [hframe j hjn (Or.inl hMn)]
        exact hrest
      · by_cases hjB : (getTri hs n).tetIndex_ = j
        · rw [hframeB j hjn hjB hMn, setNeighbor_indices, setNeighbor_matrix]
          exact hrest
        · rw [hframe j hjn (Or.inr hjB)]
          exact hrest
    · intro j g hj hg
      have hjn : out.getD n M_MAX_UNSIGNED ≠ j := hj n (by omega)
      have hrest := h9 j g (fun i hi => hj i (by omega)) (fun i hi => hg i (by omega))
      by_cases hMn : (getTri hs n).tetIndex_ = M_MAX_UNSIGNED
      · rw [hframe j hjn (Or.inl hMn)]
        exact hrest
      · by_cases hjB : (getTri hs n).tetIndex_ = j
        · rw [hframeB j hjn hjB hMn, neighborN_setNeighbor]
          rw [if_neg ?_]
          · exact hrest
          · intro hc
            exact hg n (by omega) ⟨hMn, hjB, hc.1⟩
        · rw [hframe j hjn (Or.inr hjB)]
          exact hrest
    · intro i hi
      rw [fillOneCell_removed, getD_set_generic]
      by_cases hieq : i = n
      · subst hieq
        rw [if_pos ⟨rfl, by rw [h3, hlenR]; exact hNlen⟩]
      · have hilt : i < n := by omega
        rw [if_neg (fun hc => houtN i hilt hc.1.symm)]
        exact h10 i hilt
    · intro j hj
      rw [fillOneCell_removed, getD_set_generic, if_neg (fun hc => (hj n (by omega)) hc.1)]
      exact h11 j fun i hi => hj i (by omega)
    · intro i hi
      rw [fillOneCell_spheres, getD_set_generic]
      by_cases hieq : i = n
      · subst hieq
        rw [if_pos ⟨rfl, by rw [h4, hlenS]; exact hNlen⟩]
        rw [hgetN, h1]
      · have hilt : i < n := by omega
        rw [if_neg (fun hc => houtN i hilt hc.1.symm)]
        exact h12 i hilt
    · intro j hj
      rw [fillOneCell_spheres, getD_set_generic, if_neg (fun hc => (hj n (by omega)) hc.1)]
      exact h13 j fun i hi => hj i (by omega)

/-- C4: retriangulation after a successful carve creates exactly as many new
tetrahedra as there are hole-boundary faces. First, the allocation loop
reuses the removed cells' slots as a prefix of the output-slot list and then
appends fresh slots (consecutive indices at the old end of the array, each a
default cell flagged removed). Second, the star-shaped fill writes into
output slot `i` exactly the cell made of boundary face `i`'s three vertex
indices plus the inserted vertex as apex (index 3), whose neighbor across
the base face is the cell the face referenced (the sentinel for hull faces)
and whose other three neighbors are the new cells on the faces linked across
the boundary face's edges; the referenced cell's back-link is fixed up, the
slot's removed flag is cleared and its circumsphere is computed immediately;
all other cells and flags are untouched. -/
theorem C4_star_shaped_retriangulation :
    (∀ (st : DelaunayState) (removedTetrahedrons : List ℕ) (holeSize : ℕ),
      (allocateSlots st removedTetrahedrons holeSize).2.length =
        max removedTetrahedrons.length holeSize ∧
      (∀ i, i < removedTetrahedrons.length →
        (allocateSlots st removedTetrahedrons holeSize).2.getD i M_MAX_UNSIGNED =
          removedTetrahedrons.getD i M_MAX_UNSIGNED) ∧
      (∀ i, removedTetrahedrons.length ≤ i →
        i < (allocateSlots st removedTetrahedrons holeSize).2.length →
        (allocateSlots st removedTetrahedrons holeSize).2.getD i M_MAX_UNSIGNED =
          st.tets.length + (i - removedTetrahedrons.length)) ∧
      (∀ j, st.tets.length ≤ j →
        getTet (allocateSlots st removedTetrahedrons holeSize).1.tets j =
          Tetrahedron.empty) ∧
      (∀ j, st.removed.length ≤ j →
        (allocateSlots st removedTetrahedrons holeSize).1.removed.getD j true = true) ∧
      (allocateSlots st removedTetrahedrons holeSize).1.tets.length =
        st.tets.length + (holeSize - removedTetrahedrons.length)) ∧
    (∀ (st0 : DelaunayState) (out : List ℕ) (hs : List TetrahedralMeshSurfaceTriangle)
        (c : ℕ),
      (∀ i, i < hs.length → ∀ j, j < hs.length → i ≠ j →
        out.getD i M_MAX_UNSIGNED ≠ out.getD j M_MAX_UNSIGNED) →
      (∀ i, i < hs.length → out.getD i M_MAX_UNSIGNED < st0.tets.length) →
      (∀ i, i < hs.length → (getTri hs i).tetIndex_ ≠ M_MAX_UNSIGNED →
        ∀ j, j < hs.length → out.getD j M_MAX_UNSIGNED ≠ (getTri hs i).tetIndex_) →
      (∀ i, i < hs.length → (getTri hs i).tetIndex_ ≠ M_MAX_UNSIGNED →
        (getTri hs i).tetIndex_ < st0.tets.length) →
      (∀ i, i < hs.length → (getTri hs i).tetIndex_ ≠ M_MAX_UNSIGNED →
        (getTri hs i).tetFace_ < 4) →
      (∀ i, i < hs.length → ∀ j, j < hs.length → i ≠ j →
        (getTri hs i).tetIndex_ ≠ M_MAX_UNSIGNED →
        ¬((getTri hs i).tetIndex_ = (getTri hs j).tetIndex_ ∧
          (getTri hs i).tetFace_ = (getTri hs j).tetFace_)) →
      st0.removed.length = st0.tets.length →
      st0.circumspheres.length = st0.tets.length →
      (∀ i, i < hs.length →
        getTet (FillStarShapedHole st0 out hs c).tets (out.getD i M_MAX_UNSIGNED) =
          fillCellValue st0.tets out hs c i ∧
        (FillStarShapedHole st0 out hs c).removed.getD (out.getD i M_MAX_UNSIGNED) true =
          false ∧
        (FillStarShapedHole st0 out hs c).circumspheres.getD (out.getD i M_MAX_UNSIGNED)
            HighPrecisionSphere.empty =
          GetTetrahedronCircumsphere st0.vertices (fillCellValue st0.tets out hs c i) ∧
        ((getTri hs i).tetIndex_ ≠ M_MAX_UNSIGNED →
          (getTet (FillStarShapedHole st0 out hs c).tets
              (getTri hs i).tetIndex_).neighborN (getTri hs i).tetFace_ =
            out.getD i M_MAX_UNSIGNED)) ∧
      (∀ j, (∀ i, i < hs.length → out.getD i M_MAX_UNSIGNED ≠ j) →
        (∀ i, i < hs.length → (getTri hs i).tetIndex_ = M_MAX_UNSIGNED ∨
          (getTri hs i).tetIndex_ ≠ j) →
        getTet (FillStarShapedHole st0 out hs c).tets j = getTet st0.tets j ∧
        (FillStarShapedHole st0 out hs c).removed.getD j true =
          st0.removed.getD j true)) := by
  constructor
  · intro st removedTetrahedrons holeSize
    obtain ⟨a1, a2, a3, _, a5, _, _, _, a9, _, a11, _⟩ :=
      allocateSlots_spec st removedTetrahedrons holeSize
    exact ⟨a1, a2, a3, a9, a11, a5⟩
  · intro st0 out hs c hdist hrange hback hbidx hface4 hfacedist hlenR hlenS
    obtain ⟨_, _, _, _, f5, f6, f7, _, _, f10, f11, f12, _⟩ :=
      fillStarShapedHole_invariant st0 out hs c
        (fun i j hi hj hne => hdist i hi j hj hne) hrange hback hbidx hface4
        (fun i j hi hj hne hMi => hfacedist i hi j hj hne hMi) hlenR hlenS
        hs.length (le_refl _)
    rw [FillStarShapedHole]
    exact ⟨fun i hi => ⟨f5 i hi, f10 i hi, f12 i hi, f6 i hi⟩,
      fun j hj1 hj2 => ⟨f7 j hj1 hj2, f11 j hj1⟩⟩

/-- Witness for C4 at a one-cell state with a single hull-sentinel hole
face: the reused slot receives the new cell and its removed flag is
cleared. -/
theorem C4_star_shaped_retriangulation_witness :
    ((∀ i, i < ([c4Tri] : List TetrahedralMeshSurfaceTriangle).length → ∀ j,
        j < ([c4Tri] : List TetrahedralMeshSurfaceTriangle).length → i ≠ j →
        ([0] : List ℕ).getD i M_MAX_UNSIGNED ≠ ([0] : List ℕ).getD j M_MAX_UNSIGNED) ∧
      (∀ i, i < ([c4Tri] : List TetrahedralMeshSurfaceTriangle).length →
        ([0] : List ℕ).getD i M_MAX_UNSIGNED < c4State.tets.length) ∧
      c4State.removed.length = c4State.tets.length ∧
      c4State.circumspheres.length = c4State.tets.length) ∧
    (FillStarShapedHole c4State [0] [c4Tri] 0).removed.getD
      (([0] : List ℕ).getD 0 M_MAX_UNSIGNED) true = false :=
  ⟨⟨by decide, by decide, by decide, by decide⟩,
   ((C4_star_shaped_retriangulation.2 c4State [0] [c4Tri] 0 (by decide) (by decide)
      (by decide) (by decide) (by decide) (by decide) (by decide) (by decide)).1 0
      (by decide)).2.1⟩

theorem hasNeighbor_iff (t : Tetrahedron) (i : ℕ) :
    t.HasNeighbor i = true ↔ ∃ f : Fin 4, t.neighbors_ f = i := by
  simp [Tetrahedron.HasNeighbor, List.any_eq_true, List.mem_finRange]

theorem isAdjacencyValid_iff (tets : List Tetrahedron) (fc : Bool) :
    IsAdjacencyValid tets fc = true ↔
      ∀ i, i < tets.length → ∀ f : Fin 4,
        ((getTet tets i).neighbors_ f = M_MAX_UNSIGNED → fc = false) ∧
        ((getTet tets i).neighbors_ f ≠ M_MAX_UNSIGNED →
          (getTet tets ((getTet tets i).neighbors_ f)).HasNeighbor i = true) := by
  rw [IsAdjacencyValid]
  simp only [List.all_eq_true, List.mem_range, List.mem_finRange]
  constructor
  · intro h i hi f
    have hf := h i hi f trivial
    constructor
    · intro hv
      rw [if_neg (by simp [hv])] at hf
      simpa using hf
    · intro hv
      rwa [if_pos (by simpa using hv)] at hf
  · intro h i hi f _
    by_cases hv : (getTet tets i).neighbors_ f = M_MAX_UNSIGNED
    · rw [if_neg (by simp [hv])]
      simpa using (h i hi f).1 hv
    · rw [if_pos (by simpa using hv)]
      exact (h i hi f).2 hv

theorem meshInvariant_props (tets : List Tetrahedron) (removed : List Bool)
    (h : meshInvariantHolds tets removed = true) :
    removed.length = tets.length ∧
    4 * tets.length + 4 < M_MAX_UNSIGNED ∧
    IsAdjacencyValid tets false = true ∧
    (∀ i, i < tets.length → ∀ f : Fin 4, (getTet tets i).neighbors_ f ≠ i) ∧
    (∀ i, i < tets.length → ∀ f : Fin 4,
      (getTet tets i).neighbors_ f = M_MAX_UNSIGNED ∨
        (getTet tets i).neighbors_ f < tets.length) ∧
    (∀ i, i < tets.length → ∀ f g : Fin 4, f ≠ g →
      (getTet tets i).neighbors_ f = M_MAX_UNSIGNED ∨
        (getTet tets i).neighbors_ f ≠ (getTet tets i).neighbors_ g) ∧
    (∀ i, i < tets.length → removedAt removed i = true →
      (∀ f : Fin 4, (getTet tets i).neighbors_ f = M_MAX_UNSIGNED) ∧
      (∀ j, j < tets.length → ∀ f : Fin 4, (getTet tets j).neighbors_ f ≠ i)) := by
  rw [meshInvariantHolds] at h
  simp only [Bool.and_eq_true, beq_iff_eq, decide_eq_true_eq, List.all_eq_true,
    List.mem_range, List.mem_finRange, Bool.or_eq_true, Bool.not_eq_true',
    beq_eq_false_iff_ne] at h
  obtain ⟨⟨⟨⟨⟨⟨h1, h2⟩, h3⟩, h4⟩, h5⟩, h6⟩, h7⟩ := h
  refine ⟨h1, h2, h3, ?_, ?_, ?_, ?_⟩
  · intro i hi f
    exact h4 i hi f trivial
  · intro i hi f
    rcases h5 i hi f trivial with hf | hf
    · exact Or.inl hf
    · exact Or.inr hf
  · intro i hi f g hfg
    rcases h6 i hi f trivial g trivial with hc | hc
    · rcases hc with hc | hc
      · exact absurd hc hfg
      · exact Or.inl hc
    · exact Or.inr hc
  · intro i hi hrem
    rcases h7 i hi with hc | hc
    · rw [hrem] at hc
      simp at hc
    · exact ⟨fun f => hc.1 f trivial, fun j hj f => hc.2 j hj f trivial⟩

theorem getNeighborFaceIndex_eq (t : Tetrahedron) (i : ℕ) (g : Fin 4)
    (hg : t.neighbors_ g = i)
    (huniq : ∀ g' : Fin 4, t.neighbors_ g' = i → g' = g) :
    t.GetNeighborFaceIndex i = g.val := by
  rw [Tetrahedron.GetNeighborFaceIndex]
  cases hfind : (List.finRange 4).find? (fun f => t.neighbors_ f == i) with
  | none =>
    have := List.find?_eq_none.mp hfind g (List.mem_finRange g)
    simp [hg] at this
  | some f =>
    have hf := List.find?_some hfind
    simp only [beq_iff_eq] at hf
    rw [huniq f hf]

theorem getNeighborFaceIndex_none (t : Tetrahedron) (i : ℕ)
    (h : ∀ g : Fin 4, t.neighbors_ g ≠ i) :
    t.GetNeighborFaceIndex i = M_MAX_UNSIGNED := by
  rw [Tetrahedron.GetNeighborFaceIndex]
  cases hfind : (List.finRange 4).find? (fun f => t.neighbors_ f == i) with
  | none => rfl
  | some f =>
    have hf := List.find?_some hfind
    simp only [beq_iff_eq] at hf
    exact absurd hf (h f)

theorem neighborN_eq (t : Tetrahedron) (f : Fin 4) :
    t.neighborN f.val = t.neighbors_ f := by
  rw [Tetrahedron.neighborN, dif_pos f.isLt]

theorem neighbors_setNeighbor (t : Tetrahedron) (f v : ℕ) (g : Fin 4) :
    (t.setNeighbor f v).neighbors_ g = if f = g.val then v else t.neighbors_ g := by
  rw [← neighborN_eq (t.setNeighbor f v) g, neighborN_setNeighbor, neighborN_eq]
  exact if_congr ⟨fun h => h.1, fun h => ⟨h, h ▸ g.isLt⟩⟩ rfl rfl

theorem getTet_out_of_range (ts : List Tetrahedron) (j : ℕ) (h : ts.length ≤ j) :
    getTet ts j = Tetrahedron.empty := by
  rw [getTet, List.getD_eq_default _ _ h]

theorem empty_neighbors (g : Fin 4) :
    Tetrahedron.empty.neighbors_ g = M_MAX_UNSIGNED := rfl

theorem disconnectOneFace_spec (ts : List Tetrahedron) (r : ℕ) (f : Fin 4)
    (hrlen : r < ts.length) (hmax : ts.length ≤ M_MAX_UNSIGNED)
    (hself : ∀ f' : Fin 4, (getTet ts r).neighbors_ f' ≠ r)
    (huniq : ∀ j, ∀ g g' : Fin 4, (getTet ts j).neighbors_ g = r →
      (getTet ts j).neighbors_ g' = r → g = g') :
    (disconnectOneFace ts r f).length = ts.length ∧
    (∀ j, (getTet (disconnectOneFace ts r f) j).indices_ = (getTet ts j).indices_ ∧
      (getTet (disconnectOneFace ts r f) j).matrix_ = (getTet ts j).matrix_) ∧
    (∀ f' : Fin 4, (getTet (disconnectOneFace ts r f) r).neighbors_ f' =
      if f' = f then M_MAX_UNSIGNED else (getTet ts r).neighbors_ f') ∧
    (∀ j, j ≠ r → ∀ g : Fin 4,
      (getTet (disconnectOneFace ts r f) j).neighbors_ g =
        if (getTet ts r).neighbors_ f = j ∧ (getTet ts j).neighbors_ g = r then
          M_MAX_UNSIGNED
        else (getTet ts j).neighbors_ g) := by
  have hrMAX : r ≠ M_MAX_UNSIGNED := by omega
  by_cases hv : (getTet ts r).neighbors_ f = M_MAX_UNSIGNED
  · have heq : disconnectOneFace ts r f = ts := by
      rw [disconnectOneFace]
      exact if_pos hv
    rw [heq]
    refine ⟨rfl, fun j => ⟨rfl, rfl⟩, ?_, ?_⟩
    · intro f'
      by_cases hf' : f' = f
      · rw [if_pos hf', hf', hv]
      · rw [if_neg hf']
    · intro j hj g
      rw [hv]
      by_cases hc : M_MAX_UNSIGNED = j ∧ (getTet ts j).neighbors_ g = r
      · exfalso
        obtain ⟨hc1, hc2⟩ := hc
        have : getTet ts j = Tetrahedron.empty :=
          getTet_out_of_range ts j (by omega)
        rw [this, empty_neighbors] at hc2
        exact hrMAX hc2.symm
      · rw [if_neg hc]
  · have hvr : (getTet ts r).neighbors_ f ≠ r := hself f
    have heq : disconnectOneFace ts r f =
        (ts.set r ((getTet ts r).setNeighbor f.val M_MAX_UNSIGNED)).set
          ((getTet ts r).neighbors_ f)
          ((getTet (ts.set r ((getTet ts r).setNeighbor f.val M_MAX_UNSIGNED))
              ((getTet ts r).neighbors_ f)).setNeighbor
            ((getTet ts ((getTet ts r).neighbors_ f)).GetNeighborFaceIndex r)
            M_MAX_UNSIGNED) := by
      rw [disconnectOneFace]
      exact if_neg hv
    have hts1v : getTet (ts.set r ((getTet ts r).setNeighbor f.val M_MAX_UNSIGNED))
        ((getTet ts r).neighbors_ f) = getTet ts ((getTet ts r).neighbors_ f) := by
      rw [getTet_set, if_neg (fun hc => hvr hc.1.symm)]
    rw [heq, hts1v]
    refine ⟨by rw [List.length_set, List.length_set], ?_, ?_, ?_⟩
    · intro j
      rw [getTet_set]
      by_cases hc1 : (getTet ts r).neighbors_ f = j ∧
          (getTet ts r).neighbors_ f <
            (ts.set r ((getTet ts r).setNeighbor f.val M_MAX_UNSIGNED)).length
      · rw [if_pos hc1, setNeighbor_indices, setNeighbor_matrix, hc1.1]
        exact ⟨rfl, rfl⟩
      · rw [if_neg hc1, getTet_set]
        by_cases hc2 : r = j ∧ r < ts.length
        · rw [if_pos hc2, setNeighbor_indices, setNeighbor_matrix, hc2.1]
          exact ⟨rfl, rfl⟩
        · rw [if_neg hc2]
          exact ⟨rfl, rfl⟩
    · intro f'
      rw [getTet_set, if_neg (fun hc => hvr hc.1), getTet_set,
        if_pos ⟨rfl, hrlen⟩, neighbors_setNeighbor]
      by_cases hf' : f' = f
      · rw [if_pos hf', if_pos (by rw [hf'])]
      · rw [if_neg hf', if_neg (fun hc => hf' ((Fin.ext hc).symm))]
    · intro j hj g
      by_cases hvj : (getTet ts r).neighbors_ f = j
      · by_cases hjlen : j < ts.length
        · rw [getTet_set, if_pos ⟨hvj, by rw [List.length_set]; omega⟩, hvj]
          by_cases hex : ∃ g₀ : Fin 4, (getTet ts j).neighbors_ g₀ = r
          · obtain ⟨g₀, hg₀⟩ := hex
            rw [getNeighborFaceIndex_eq _ r g₀ hg₀
              (fun g' hg' => huniq j g' g₀ hg' hg₀), neighbors_setNeighbor]
            by_cases hg : g = g₀
            · rw [if_pos (by rw [hg]), if_pos ⟨rfl, by rw [hg]; exact hg₀⟩]
            · rw [if_neg (fun hc => hg (Fin.ext hc).symm),
                if_neg (fun hc => hg (huniq j g g₀ hc.2 hg₀))]
          · push_neg at hex
            rw [getNeighborFaceIndex_none _ r hex]
            have hno : Tetrahedron.setNeighbor
                (getTet ts j) M_MAX_UNSIGNED M_MAX_UNSIGNED = getTet ts j := by
              rw [Tetrahedron.setNeighbor, dif_neg (by rw [M_MAX_UNSIGNED]; omega)]
            rw [hno, if_neg (fun hc => hex g hc.2)]
        · rw [getTet_set,
            if_neg (fun hc => hjlen (by rw [List.length_set] at hc; omega : j < ts.length)),
            getTet_set, if_neg (fun hc => hj hc.1.symm)]
          have hje : getTet ts j = Tetrahedron.empty :=
            getTet_out_of_range ts j (by omega)
          rw [if_neg (fun hc => hrMAX (by rw [hje] at hc; exact (empty_neighbors g ▸ hc.2).symm))]
      · rw [getTet_set, if_neg (fun hc => hvj hc.1), getTet_set,
          if_neg (fun hc => hj hc.1.symm), if_neg (fun hc => hvj hc.1)]

theorem disconnectFaces_spec (l : List (Fin 4)) (ts : List Tetrahedron) (r : ℕ)
    (hrlen : r < ts.length) (hmax : ts.length ≤ M_MAX_UNSIGNED)
    (hself : ∀ f' : Fin 4, (getTet ts r).neighbors_ f' ≠ r)
    (huniq : ∀ j, ∀ g g' : Fin 4, (getTet ts j).neighbors_ g = r →
      (getTet ts j).neighbors_ g' = r → g = g') :
    (l.foldl (fun ts f => disconnectOneFace ts r f) ts).length = ts.length ∧
    (∀ j, (getTet (l.foldl (fun ts f => disconnectOneFace ts r f) ts) j).indices_ =
        (getTet ts j).indices_ ∧
      (getTet (l.foldl (fun ts f => disconnectOneFace ts r f) ts) j).matrix_ =
        (getTet ts j).matrix_) ∧
    (∀ f' : Fin 4,
      (getTet (l.foldl (fun ts f => disconnectOneFace ts r f) ts) r).neighbors_ f' =
        if f' ∈ l then M_MAX_UNSIGNED else (getTet ts r).neighbors_ f') ∧
    (∀ j, j ≠ r → ∀ g : Fin 4,
      (getTet (l.foldl (fun ts f => disconnectOneFace ts r f) ts) j).neighbors_ g =
        if (∃ f ∈ l, (getTet ts r).neighbors_ f = j) ∧ (getTet ts j).neighbors_ g = r then
          M_MAX_UNSIGNED
        else (getTet ts j).neighbors_ g) := by
  have hrMAX : r ≠ M_MAX_UNSIGNED := by omega
  induction l generalizing ts with
  | nil =>
    exact ⟨rfl, fun j => ⟨rfl, rfl⟩, fun f' => by simp, fun j hj g => by simp⟩
  | cons f l' ih =>
    simp only [List.foldl_cons]
    obtain ⟨s1, s2, s3, s4⟩ := disconnectOneFace_spec ts r f hrlen hmax hself huniq
    generalize hgen : disconnectOneFace ts r f = ts' at s1 s2 s3 s4 ⊢
    have hrlen' : r < ts'.length := by rw [s1]; exact hrlen
    have hmax' : ts'.length ≤ M_MAX_UNSIGNED := by rw [s1]; exact hmax
    have hself' : ∀ f' : Fin 4, (getTet ts' r).neighbors_ f' ≠ r := by
      intro f'
      rw [s3 f']
      by_cases hf : f' = f
      · rw [if_pos hf]; exact fun hc => hrMAX hc.symm
      · rw [if_neg hf]; exact hself f'
    have hred : ∀ (c : Prop) (inst : Decidable c) (x : ℕ),
        (if c then M_MAX_UNSIGNED else x) = r → x = r := by
      intro c inst x h
      by_cases hc : c
      · rw [if_pos hc] at h
        exact absurd h.symm hrMAX
      · rwa [if_neg hc] at h
    have huniq' : ∀ j, ∀ g g' : Fin 4, (getTet ts' j).neighbors_ g = r →
        (getTet ts' j).neighbors_ g' = r → g = g' := by
      intro j g g' hg hg'
      by_cases hjr : j = r
      · exfalso
        exact hself' g (hjr ▸ hg)
      · rw [s4 j hjr g] at hg
        rw [s4 j hjr g'] at hg'
        exact huniq j g g' (hred _ _ _ hg) (hred _ _ _ hg')
    obtain ⟨i1, i2, i3, i4⟩ := ih ts' hrlen' hmax' hself' huniq'
    refine ⟨i1.trans s1, fun j => ⟨(i2 j).1.trans (s2 j).1, (i2 j).2.trans (s2 j).2⟩,
      ?_, ?_⟩
    · intro f'
      rw [i3 f']
      by_cases hm : f' ∈ l'
      · rw [if_pos hm, if_pos (List.mem_cons_of_mem f hm)]
      · rw [if_neg hm, s3 f']
        by_cases hf : f' = f
        · rw [if_pos hf, if_pos (by rw [hf]; exact List.mem_cons_self f l')]
        · rw [if_neg hf, if_neg (fun hc => by
            rcases List.mem_cons.mp hc with h | h
            · exact hf h
            · exact hm h)]
    · intro j hj g
      by_cases hjg : (getTet ts j).neighbors_ g = r
      · have hjlen : j < ts.length := by
          by_contra hcon
          rw [getTet_out_of_range ts j (by omega), empty_neighbors] at hjg
          exact hrMAX hjg.symm
        have hjMAX : j ≠ M_MAX_UNSIGNED := by omega
        by_cases hC : (getTet ts r).neighbors_ f = j
        · have hts'jg : (getTet ts' j).neighbors_ g = M_MAX_UNSIGNED := by
            rw [s4 j hj g, if_pos ⟨hC, hjg⟩]
          rw [i4 j hj g, hts'jg,
            if_neg (fun hc => hrMAX hc.2.symm),
            if_pos ⟨⟨f, List.mem_cons_self f l', hC⟩, hjg⟩]
        · have hts'jg : (getTet ts' j).neighbors_ g = (getTet ts j).neighbors_ g := by
            rw [s4 j hj g, if_neg (fun hc => hC hc.1)]
          by_cases hB : ∃ f₂ ∈ l', (getTet ts r).neighbors_ f₂ = j
          · obtain ⟨f₂, hf₂m, hf₂⟩ := hB
            have hf₂f : f₂ ≠ f := fun hc => hC (hc ▸ hf₂)
            rw [i4 j hj g,
              if_pos ⟨⟨f₂, hf₂m, by rw [s3 f₂, if_neg hf₂f]; exact hf₂⟩,
                by rw [hts'jg]; exact hjg⟩,
              if_pos ⟨⟨f₂, List.mem_cons_of_mem f hf₂m, hf₂⟩, hjg⟩]
          · rw [i4 j hj g, hts'jg,
              if_neg (fun hc => by
                obtain ⟨⟨f₂, hm, hval⟩, _⟩ := hc
                rw [s3 f₂] at hval
                by_cases hf₂f : f₂ = f
                · rw [if_pos hf₂f] at hval
                  exact hjMAX hval.symm
                · rw [if_neg hf₂f] at hval
                  exact hB ⟨f₂, hm, hval⟩),
              if_neg (fun hc => by
                obtain ⟨⟨f₂, hm, hval⟩, _⟩ := hc
                rcases List.mem_cons.mp hm with h | h
                · exact hC (h ▸ hval)
                · exact hB ⟨f₂, h, hval⟩)]
      · have hts'jg : (getTet ts' j).neighbors_ g = (getTet ts j).neighbors_ g := by
          rw [s4 j hj g, if_neg (fun hc => hjg hc.2)]
        rw [i4 j hj g, hts'jg, if_neg (fun hc => hjg hc.2), if_neg (fun hc => hjg hc.2)]

/-- The full effect of `DisconnectRemovedTetrahedrons` on a symmetric,
per-cell-distinct, self-loop-free mesh: every carved cell ends with four
sentinel slots, every surviving cell keeps its slots except that links into
the carved set are severed, and vertex indices and matrices are untouched. -/
theorem disconnectRemoved_spec (R : List ℕ) (tets : List Tetrahedron)
    (hmax : tets.length ≤ M_MAX_UNSIGNED)
    (hR : ∀ r ∈ R, r < tets.length)
    (hself : ∀ i, i < tets.length → ∀ f : Fin 4, (getTet tets i).neighbors_ f ≠ i)
    (hdist : ∀ i, i < tets.length → ∀ g g' : Fin 4, g ≠ g' →
      (getTet tets i).neighbors_ g = M_MAX_UNSIGNED ∨
        (getTet tets i).neighbors_ g ≠ (getTet tets i).neighbors_ g')
    (hsym : ∀ i, i < tets.length → ∀ f : Fin 4,
      (getTet tets i).neighbors_ f ≠ M_MAX_UNSIGNED →
      ∃ g : Fin 4, (getTet tets ((getTet tets i).neighbors_ f)).neighbors_ g = i) :
    (DisconnectRemovedTetrahedrons tets R).length = tets.length ∧
    (∀ j, (getTet (DisconnectRemovedTetrahedrons tets R) j).indices_ =
        (getTet tets j).indices_ ∧
      (getTet (DisconnectRemovedTetrahedrons tets R) j).matrix_ =
        (getTet tets j).matrix_) ∧
    (∀ j, ∀ g : Fin 4, (getTet (DisconnectRemovedTetrahedrons tets R) j).neighbors_ g =
      if j ∈ R then M_MAX_UNSIGNED
      else if (getTet tets j).neighbors_ g ∈ R then M_MAX_UNSIGNED
      else (getTet tets j).neighbors_ g) := by
  induction R generalizing tets with
  | nil =>
    exact ⟨rfl, fun j => ⟨rfl, rfl⟩, fun j g => by simp [DisconnectRemovedTetrahedrons]⟩
  | cons r R' ih =>
    have hrlen : r < tets.length := hR r (List.mem_cons_self r R')
    have hrMAX : r ≠ M_MAX_UNSIGNED := by omega
    have huniq : ∀ j, ∀ g g' : Fin 4, (getTet tets j).neighbors_ g = r →
        (getTet tets j).neighbors_ g' = r → g = g' := by
      intro j g g' hg hg'
      by_cases hjlen : j < tets.length
      · by_cases hgg : g = g'
        · exact hgg
        · rcases hdist j hjlen g g' hgg with hc | hc
          · rw [hg] at hc
            exact absurd hc hrMAX
          · rw [hg, hg'] at hc
            exact absurd rfl hc
      · rw [getTet_out_of_range tets j (by omega), empty_neighbors] at hg
        exact absurd hg.symm hrMAX
    obtain ⟨s1, s2, s3, s4⟩ :=
      disconnectFaces_spec (List.finRange 4) tets r hrlen hmax (hself r hrlen) huniq
    have hfold : DisconnectRemovedTetrahedrons tets (r :: R') =
        DisconnectRemovedTetrahedrons
          ((List.finRange 4).foldl (fun ts f => disconnectOneFace ts r f) tets) R' := by
      rw [DisconnectRemovedTetrahedrons, DisconnectRemovedTetrahedrons, List.foldl_cons]
    rw [hfold]
    generalize hgen :
      (List.finRange 4).foldl (fun ts f => disconnectOneFace ts r f) tets = ts'
      at s1 s2 s3 s4
    have hs3 : ∀ f' : Fin 4, (getTet ts' r).neighbors_ f' = M_MAX_UNSIGNED := by
      intro f'
      rw [s3 f', if_pos (List.mem_finRange f')]
    have hs4 : ∀ j, j ≠ r → ∀ g : Fin 4, (getTet ts' j).neighbors_ g =
        if (∃ f : Fin 4, (getTet tets r).neighbors_ f = j) ∧
            (getTet tets j).neighbors_ g = r then M_MAX_UNSIGNED
        else (getTet tets j).neighbors_ g := by
      intro j hj g
      rw [s4 j hj g]
      refine if_congr ⟨?_, ?_⟩ rfl rfl
      · rintro ⟨⟨f, _, hf⟩, h2⟩
        exact ⟨⟨f, hf⟩, h2⟩
      · rintro ⟨⟨f, hf⟩, h2⟩
        exact ⟨⟨f, List.mem_finRange f, hf⟩, h2⟩
    have hmax' : ts'.length ≤ M_MAX_UNSIGNED := by rw [s1]; exact hmax
    have hR' : ∀ r' ∈ R', r' < ts'.length := by
      intro r' hr'
      rw [s1]
      exact hR r' (List.mem_cons_of_mem r hr')
    have hself' : ∀ i, i < ts'.length → ∀ f : Fin 4, (getTet ts' i).neighbors_ f ≠ i := by
      intro i hi f
      by_cases hir : i = r
      · rw [hir, hs3 f]
        exact fun hc => hrMAX hc.symm
      · rw [hs4 i hir f]
        by_cases hc : (∃ f₀ : Fin 4, (getTet tets r).neighbors_ f₀ = i) ∧
            (getTet tets i).neighbors_ f = r
        · rw [if_pos hc]
          rw [s1] at hi
          intro hcon
          omega
        · rw [if_neg hc]
          exact hself i (by rw [s1] at hi; exact hi) f
    have hdist' : ∀ i, i < ts'.length → ∀ g g' : Fin 4, g ≠ g' →
        (getTet ts' i).neighbors_ g = M_MAX_UNSIGNED ∨
          (getTet ts' i).neighbors_ g ≠ (getTet ts' i).neighbors_ g' := by
      intro i hi g g' hgg
      rw [s1] at hi
      by_cases hir : i = r
      · rw [hir, hs3 g]
        exact Or.inl rfl
      · rw [hs4 i hir g, hs4 i hir g']
        by_cases hcg : (∃ f₀ : Fin 4, (getTet tets r).neighbors_ f₀ = i) ∧
            (getTet tets i).neighbors_ g = r
        · rw [if_pos hcg]
          exact Or.inl rfl
        · rw [if_neg hcg]
          by_cases horig : (getTet tets i).neighbors_ g = M_MAX_UNSIGNED
          · exact Or.inl horig
          · refine Or.inr ?_
            by_cases hcg' : (∃ f₀ : Fin 4, (getTet tets r).neighbors_ f₀ = i) ∧
                (getTet tets i).neighbors_ g' = r
            · rw [if_pos hcg']
              exact horig
            · rw [if_neg hcg']
              rcases hdist i hi g g' hgg with hc | hc
              · exact absurd hc horig
              · exact hc
    have hsym' : ∀ i, i < ts'.length → ∀ f : Fin 4,
        (getTet ts' i).neighbors_ f ≠ M_MAX_UNSIGNED →
        ∃ g : Fin 4, (getTet ts' ((getTet ts' i).neighbors_ f)).neighbors_ g = i := by
      intro i hi f hne
      rw [s1] at hi
      have hir : i ≠ r := by
        intro hc
        exact hne (hc ▸ hs3 f)
      have hiMAX : i ≠ M_MAX_UNSIGNED := by omega
      rw [hs4 i hir f] at hne ⊢
      by_cases hc : (∃ f₀ : Fin 4, (getTet tets r).neighbors_ f₀ = i) ∧
          (getTet tets i).neighbors_ f = r
      · rw [if_pos hc] at hne
        exact absurd rfl hne
      · rw [if_neg hc] at hne ⊢
        have hvr : (getTet tets i).neighbors_ f ≠ r := by
          intro hcon
          refine hc ⟨?_, hcon⟩
          obtain ⟨g₁, hg₁⟩ := hsym i hi f hne
          rw [hcon] at hg₁
          exact ⟨g₁, hg₁⟩
        obtain ⟨g, hg⟩ := hsym i hi f hne
        refine ⟨g, ?_⟩
        rw [hs4 _ hvr g, hg, if_neg (fun hcon => hir hcon.2)]
    obtain ⟨i1, i2, i3⟩ := ih ts' hmax' hR' hself' hdist' hsym'
    have hMAXnotin : M_MAX_UNSIGNED ∉ R' := by
      intro hc
      have := hR M_MAX_UNSIGNED (List.mem_cons_of_mem r hc)
      omega
    refine ⟨i1.trans s1, fun j => ⟨(i2 j).1.trans (s2 j).1, (i2 j).2.trans (s2 j).2⟩, ?_⟩
    intro j g
    rw [i3 j g]
    by_cases hjR : j ∈ R'
    · rw [if_pos hjR, if_pos (List.mem_cons_of_mem r hjR)]
    · rw [if_neg hjR]
      by_cases hjr : j = r
      · rw [hjr, hs3 g, if_neg hMAXnotin, if_pos (List.mem_cons_self r R')]
      · rw [if_neg (fun hc => (List.mem_cons.mp hc).elim hjr hjR)]
        by_cases hjg : (getTet tets j).neighbors_ g = r
        · have hjlen : j < tets.length := by
            by_contra hcon
            rw [getTet_out_of_range tets j (by omega), empty_neighbors] at hjg
            exact hrMAX hjg.symm
          obtain ⟨g₁, hg₁⟩ := hsym j hjlen g (by rw [hjg]; exact hrMAX)
          rw [hjg] at hg₁
          have hval : (getTet ts' j).neighbors_ g = M_MAX_UNSIGNED := by
            rw [hs4 j hjr g, if_pos ⟨⟨g₁, hg₁⟩, hjg⟩]
          rw [hval, if_neg hMAXnotin,
            if_pos (by rw [hjg]; exact List.mem_cons_self r R')]
        · have hval : (getTet ts' j).neighbors_ g = (getTet tets j).neighbors_ g := by
            rw [hs4 j hjr g, if_neg (fun hc => hjg hc.2)]
          rw [hval]
          by_cases hmem : (getTet tets j).neighbors_ g ∈ R'
          · rw [if_pos hmem, if_pos (List.mem_cons_of_mem r hmem)]
          · rw [if_neg hmem,
              if_neg (fun hc => (List.mem_cons.mp hc).elim hjg hmem)]

theorem disconnectSuperFace_spec (ts : List Tetrahedron) (r : ℕ) (f : Fin 4)
    (hmax : ts.length ≤ M_MAX_UNSIGNED) (hrMAX : r ≠ M_MAX_UNSIGNED)
    (huniq : ∀ j, ∀ g g' : Fin 4, (getTet ts j).neighbors_ g = r →
      (getTet ts j).neighbors_ g' = r → g = g') :
    (disconnectSuperFace ts r f).length = ts.length ∧
    (∀ j, (getTet (disconnectSuperFace ts r f) j).indices_ = (getTet ts j).indices_ ∧
      (getTet (disconnectSuperFace ts r f) j).matrix_ = (getTet ts j).matrix_) ∧
    (∀ j, ∀ g : Fin 4,
      (getTet (disconnectSuperFace ts r f) j).neighbors_ g =
        if (getTet ts r).neighbors_ f = j ∧ (getTet ts j).neighbors_ g = r then
          M_MAX_UNSIGNED
        else (getTet ts j).neighbors_ g) := by
  by_cases hv : (getTet ts r).neighbors_ f = M_MAX_UNSIGNED
  · have heq : disconnectSuperFace ts r f = ts := by
      rw [disconnectSuperFace]
      exact if_neg (not_not_intro hv)
    rw [heq]
    refine ⟨rfl, fun j => ⟨rfl, rfl⟩, ?_⟩
    intro j g
    rw [hv]
    by_cases hc : M_MAX_UNSIGNED = j ∧ (getTet ts j).neighbors_ g = r
    · exfalso
      obtain ⟨hc1, hc2⟩ := hc
      rw [getTet_out_of_range ts j (by omega), empty_neighbors] at hc2
      exact hrMAX hc2.symm
    · rw [if_neg hc]
  · have heq : disconnectSuperFace ts r f =
        ts.set ((getTet ts r).neighbors_ f)
          ((getTet ts ((getTet ts r).neighbors_ f)).setNeighbor
            ((getTet ts ((getTet ts r).neighbors_ f)).GetNeighborFaceIndex r)
            M_MAX_UNSIGNED) := by
      rw [disconnectSuperFace]
      exact if_pos hv
    rw [heq]
    refine ⟨List.length_set _ _ _, ?_, ?_⟩
    · intro j
      rw [getTet_set]
      by_cases hc : (getTet ts r).neighbors_ f = j ∧ (getTet ts r).neighbors_ f < ts.length
      · rw [if_pos hc, setNeighbor_indices, setNeighbor_matrix, hc.1]
        exact ⟨rfl, rfl⟩
      · rw [if_neg hc]
        exact ⟨rfl, rfl⟩
    · intro j g
      by_cases hvj : (getTet ts r).neighbors_ f = j
      · by_cases hjlen : j < ts.length
        · rw [getTet_set, if_pos ⟨hvj, by rw [hvj]; exact hjlen⟩, hvj]
          by_cases hex : ∃ g₀ : Fin 4, (getTet ts j).neighbors_ g₀ = r
          · obtain ⟨g₀, hg₀⟩ := hex
            rw [getNeighborFaceIndex_eq _ r g₀ hg₀
              (fun g' hg' => huniq j g' g₀ hg' hg₀), neighbors_setNeighbor]
            by_cases hg : g = g₀
            · rw [if_pos (by rw [hg]), if_pos ⟨rfl, by rw [hg]; exact hg₀⟩]
            · rw [if_neg (fun hc => hg (Fin.ext hc).symm),
                if_neg (fun hc => hg (huniq j g g₀ hc.2 hg₀))]
          · push_neg at hex
            rw [getNeighborFaceIndex_none _ r hex]
            have hno : Tetrahedron.setNeighbor
                (getTet ts j) M_MAX_UNSIGNED M_MAX_UNSIGNED = getTet ts j := by
              rw [Tetrahedron.setNeighbor, dif_neg (by rw [M_MAX_UNSIGNED]; omega)]
            rw [hno, if_neg (fun hc => hex g hc.2)]
        · rw [getTet_set, if_neg (fun hc => hjlen (by rw [← hvj]; exact hc.2)),
            if_neg (fun hc => hrMAX (by
              rw [getTet_out_of_range ts j (by omega), empty_neighbors] at hc
              exact hc.2.symm))]
      · rw [getTet_set, if_neg (fun hc => hvj hc.1), if_neg (fun hc => hvj hc.1)]

theorem disconnectSuperFaces_spec (l : List (Fin 4)) (ts : List Tetrahedron) (r : ℕ)
    (hmax : ts.length ≤ M_MAX_UNSIGNED) (hrMAX : r ≠ M_MAX_UNSIGNED)
    (hself : ∀ f' : Fin 4, (getTet ts r).neighbors_ f' ≠ r)
    (huniq : ∀ j, ∀ g g' : Fin 4, (getTet ts j).neighbors_ g = r →
      (getTet ts j).neighbors_ g' = r → g = g') :
    (l.foldl (fun ts f => disconnectSuperFace ts r f) ts).length = ts.length ∧
    (∀ j, (getTet (l.foldl (fun ts f => disconnectSuperFace ts r f) ts) j).indices_ =
        (getTet ts j).indices_ ∧
      (getTet (l.foldl (fun ts f => disconnectSuperFace ts r f) ts) j).matrix_ =
        (getTet ts j).matrix_) ∧
    (∀ j, ∀ g : Fin 4,
      (getTet (l.foldl (fun ts f => disconnectSuperFace ts r f) ts) j).neighbors_ g =
        if (∃ f ∈ l, (getTet ts r).neighbors_ f = j) ∧ (getTet ts j).neighbors_ g = r then
          M_MAX_UNSIGNED
        else (getTet ts j).neighbors_ g) := by
  induction l generalizing ts with
  | nil =>
    exact ⟨rfl, fun j => ⟨rfl, rfl⟩, fun j g => by simp⟩
  | cons f l' ih =>
    simp only [List.foldl_cons]
    obtain ⟨s1, s2, s4⟩ := disconnectSuperFace_spec ts r f hmax hrMAX huniq
    generalize hgen : disconnectSuperFace ts r f = ts' at s1 s2 s4 ⊢
    have hmax' : ts'.length ≤ M_MAX_UNSIGNED := by rw [s1]; exact hmax
    have hrfix : ∀ f' : Fin 4,
        (getTet ts' r).neighbors_ f' = (getTet ts r).neighbors_ f' := by
      intro f'
      rw [s4 r f', if_neg (fun hc => hself f hc.1)]
    have hself' : ∀ f' : Fin 4, (getTet ts' r).neighbors_ f' ≠ r := by
      intro f'
      rw [hrfix f']
      exact hself f'
    have hred : ∀ (c : Prop) (inst : Decidable c) (x : ℕ),
        (if c then M_MAX_UNSIGNED else x) = r → x = r := by
      intro c inst x h
      by_cases hc : c
      · rw [if_pos hc] at h
        exact absurd h.symm hrMAX
      · rwa [if_neg hc] at h
    have huniq' : ∀ j, ∀ g g' : Fin 4, (getTet ts' j).neighbors_ g = r →
        (getTet ts' j).neighbors_ g' = r → g = g' := by
      intro j g g' hg hg'
      rw [s4 j g] at hg
      rw [s4 j g'] at hg'
      exact huniq j g g' (hred _ _ _ hg) (hred _ _ _ hg')
    obtain ⟨i1, i2, i4⟩ := ih ts' hmax' hself' huniq'
    refine ⟨i1.trans s1,
      fun j => ⟨(i2 j).1.trans (s2 j).1, (i2 j).2.trans (s2 j).2⟩, ?_⟩
    intro j g
    by_cases hjg : (getTet ts j).neighbors_ g = r
    · have hjlen : j < ts.length := by
        by_contra hcon
        rw [getTet_out_of_range ts j (by omega), empty_neighbors] at hjg
        exact hrMAX hjg.symm
      have hjMAX : j ≠ M_MAX_UNSIGNED := by omega
      by_cases hC : (getTet ts r).neighbors_ f = j
      · have hts'jg : (getTet ts' j).neighbors_ g = M_MAX_UNSIGNED := by
          rw [s4 j g, if_pos ⟨hC, hjg⟩]
        rw [i4 j g, hts'jg,
          if_neg (fun hc => hrMAX hc.2.symm),
          if_pos ⟨⟨f, List.mem_cons_self f l', hC⟩, hjg⟩]
      · have hts'jg : (getTet ts' j).neighbors_ g = (getTet ts j).neighbors_ g := by
          rw [s4 j g, if_neg (fun hc => hC hc.1)]
        by_cases hB : ∃ f₂ ∈ l', (getTet ts r).neighbors_ f₂ = j
        · obtain ⟨f₂, hf₂m, hf₂⟩ := hB
          rw [i4 j g,
            if_pos ⟨⟨f₂, hf₂m, by rw [hrfix f₂]; exact hf₂⟩,
              by rw [hts'jg]; exact hjg⟩,
            if_pos ⟨⟨f₂, List.mem_cons_of_mem f hf₂m, hf₂⟩, hjg⟩]
        · rw [i4 j g, hts'jg,
            if_neg (fun hc => by
              obtain ⟨⟨f₂, hm, hval⟩, _⟩ := hc
              rw [hrfix f₂] at hval
              exact hB ⟨f₂, hm, hval⟩),
            if_neg (fun hc => by
              obtain ⟨⟨f₂, hm, hval⟩, _⟩ := hc
              rcases List.mem_cons.mp hm with h | h
              · exact hC (h ▸ hval)
              · exact hB ⟨f₂, h, hval⟩)]
    · have hts'jg : (getTet ts' j).neighbors_ g = (getTet ts j).neighbors_ g := by
        rw [s4 j g, if_neg (fun hc => hjg hc.2)]
      rw [i4 j g, hts'jg, if_neg (fun hc => hjg hc.2), if_neg (fun hc => hjg hc.2)]

/-- The running invariant of the ordered marking-and-disconnecting fold of
`DisconnectSuperMeshTetrahedrons` after processing cells `0 ≤ i < t`: flags
up to `t` show their final super-marking, vertex indices never change, and a
neighbor slot toward `v` has been cleared exactly when `v` is a finally
marked cell already processed whose iteration could still see the slot's
owner (an unmarked owner is always seen; a marked owner `j` is seen only if
`j > v`, since `j`-then-`v` ordering would have cleared `v`'s view of `j`
first). -/
theorem disconnectSuper_inv (tets : List Tetrahedron) (removed : List Bool)
    (hlen : removed.length = tets.length)
    (hmax : tets.length ≤ M_MAX_UNSIGNED)
    (hself : ∀ i, i < tets.length → ∀ f : Fin 4, (getTet tets i).neighbors_ f ≠ i)
    (hdist : ∀ i, i < tets.length → ∀ f g : Fin 4, f ≠ g →
      (getTet tets i).neighbors_ f = M_MAX_UNSIGNED ∨
        (getTet tets i).neighbors_ f ≠ (getTet tets i).neighbors_ g)
    (hsym : ∀ i, i < tets.length → ∀ f : Fin 4,
      (getTet tets i).neighbors_ f ≠ M_MAX_UNSIGNED →
      ∃ g : Fin 4, (getTet tets ((getTet tets i).neighbors_ f)).neighbors_ g = i)
    (t : ℕ) (ht : t ≤ tets.length) :
    ((List.range t).foldl disconnectSuperStep (tets, removed)).1.length = tets.length ∧
    ((List.range t).foldl disconnectSuperStep (tets, removed)).2.length = removed.length ∧
    (∀ j, (getTet ((List.range t).foldl disconnectSuperStep (tets, removed)).1 j).indices_ =
        (getTet tets j).indices_) ∧
    (∀ j, ((List.range t).foldl disconnectSuperStep (tets, removed)).2.getD j true =
        if j < t then superMarked tets removed j else removed.getD j true) ∧
    (∀ j, ∀ g : Fin 4,
      (getTet ((List.range t).foldl disconnectSuperStep (tets, removed)).1 j).neighbors_ g =
        if (getTet tets j).neighbors_ g ≠ M_MAX_UNSIGNED ∧
            superMarked tets removed ((getTet tets j).neighbors_ g) = true ∧
            (getTet tets j).neighbors_ g < t ∧
            ¬(superMarked tets removed j = true ∧ j < (getTet tets j).neighbors_ g) then
          M_MAX_UNSIGNED
        else (getTet tets j).neighbors_ g) := by
  induction t with
  | zero =>
    refine ⟨rfl, rfl, fun j => rfl, fun j => by rw [if_neg (by omega)]; rfl, fun j g => ?_⟩
    rw [if_neg (fun hc => absurd hc.2.2.1 (by omega))]
    rfl
  | succ t iht =>
    have ht' : t ≤ tets.length := by omega
    have htlt : t < tets.length := by omega
    have htMAX : t ≠ M_MAX_UNSIGNED := by omega
    obtain ⟨p1, p2, p3, p4, p5⟩ := iht ht'
    set st := (List.range t).foldl disconnectSuperStep (tets, removed) with hst
    have hstep : (List.range (t + 1)).foldl disconnectSuperStep (tets, removed) =
        disconnectSuperStep st t := by
      rw [List.range_succ, List.foldl_append, List.foldl_cons, List.foldl_nil, ← hst]
    rw [hstep]
    have hunfold : disconnectSuperStep st t =
        (if removedAt (if ((List.finRange 4).any
              (fun j => decide ((getTet st.1 t).indices_ j < NumSuperMeshVertices))) = true
            then st.2.set t true else st.2) t = true then
          ((List.finRange 4).foldl (fun ts f => disconnectSuperFace ts t f) st.1,
            if ((List.finRange 4).any
                (fun j => decide ((getTet st.1 t).indices_ j < NumSuperMeshVertices))) = true
            then st.2.set t true else st.2)
        else (st.1,
          if ((List.finRange 4).any
              (fun j => decide ((getTet st.1 t).indices_ j < NumSuperMeshVertices))) = true
          then st.2.set t true else st.2)) := rfl
    set mk := (if ((List.finRange 4).any
        (fun j => decide ((getTet st.1 t).indices_ j < NumSuperMeshVertices))) = true
      then st.2.set t true else st.2) with hmk
    have hconv : (fun j : Fin 4 =>
        decide ((getTet st.1 t).indices_ j < NumSuperMeshVertices)) =
        (fun j : Fin 4 => decide ((getTet tets t).indices_ j < NumSuperMeshVertices)) := by
      funext j
      rw [p3 t]
    have hmkflag : ∀ j, mk.getD j true =
        if j < t + 1 then superMarked tets removed j else removed.getD j true := by
      intro j
      rw [hmk]
      by_cases hsup : ((List.finRange 4).any
          (fun j : Fin 4 => decide ((getTet tets t).indices_ j < NumSuperMeshVertices))) = true
      · rw [if_pos (by rw [hconv]; exact hsup), getD_set_generic]
        by_cases hjt : t = j
        · subst hjt
          rw [if_pos ⟨rfl, by rw [p2, hlen]; exact htlt⟩, if_pos (by omega),
            superMarked, hsup, Bool.or_true]
        · rw [if_neg (fun hc => hjt hc.1), p4 j]
          by_cases hjlt : j < t
          · rw [if_pos hjlt, if_pos (by omega)]
          · rw [if_neg hjlt, if_neg (by omega)]
      · rw [if_neg (fun hc => hsup (by rw [← hconv]; exact hc))]
        have hsupf : ((List.finRange 4).any
            (fun j : Fin 4 =>
              decide ((getTet tets t).indices_ j < NumSuperMeshVertices))) = false :=
          Bool.eq_false_iff.mpr hsup
        rw [p4 j]
        by_cases hjt : t = j
        · subst hjt
          rw [if_neg (by omega), if_pos (by omega), superMarked, hsupf, Bool.or_false]
        · by_cases hjlt : j < t
          · rw [if_pos hjlt, if_pos (by omega)]
          · rw [if_neg hjlt, if_neg (by omega)]
    have hmklen : mk.length = removed.length := by
      rw [hmk]
      by_cases hsup : ((List.finRange 4).any
          (fun j : Fin 4 => decide ((getTet st.1 t).indices_ j < NumSuperMeshVertices))) = true
      · rw [if_pos hsup, List.length_set]
        exact p2
      · rw [if_neg hsup]
        exact p2
    have hrt : removedAt mk t = superMarked tets removed t := by
      rw [removedAt, hmkflag t, if_pos (by omega)]
    by_cases hsm : superMarked tets removed t = true
    · rw [hunfold, if_pos (by rw [hrt]; exact hsm)]
      have hself' : ∀ f' : Fin 4, (getTet st.1 t).neighbors_ f' ≠ t := by
        intro f'
        rw [p5 t f']
        by_cases hc : (getTet tets t).neighbors_ f' ≠ M_MAX_UNSIGNED ∧
            superMarked tets removed ((getTet tets t).neighbors_ f') = true ∧
            (getTet tets t).neighbors_ f' < t ∧
            ¬(superMarked tets removed t = true ∧ t < (getTet tets t).neighbors_ f')
        · rw [if_pos hc]
          exact fun hcc => htMAX hcc.symm
        · rw [if_neg hc]
          exact hself t htlt f'
      have huniq' : ∀ j, ∀ g g' : Fin 4, (getTet st.1 j).neighbors_ g = t →
          (getTet st.1 j).neighbors_ g' = t → g = g' := by
        intro j g g' hg hg'
        rw [p5 j g] at hg
        rw [p5 j g'] at hg'
        have hg2 : (getTet tets j).neighbors_ g = t := by
          by_cases hc : (getTet tets j).neighbors_ g ≠ M_MAX_UNSIGNED ∧
              superMarked tets removed ((getTet tets j).neighbors_ g) = true ∧
              (getTet tets j).neighbors_ g < t ∧
              ¬(superMarked tets removed j = true ∧ j < (getTet tets j).neighbors_ g)
          · rw [if_pos hc] at hg
            exact absurd hg.symm htMAX
          · rwa [if_neg hc] at hg
        have hg2' : (getTet tets j).neighbors_ g' = t := by
          by_cases hc : (getTet tets j).neighbors_ g' ≠ M_MAX_UNSIGNED ∧
              superMarked tets removed ((getTet tets j).neighbors_ g') = true ∧
              (getTet tets j).neighbors_ g' < t ∧
              ¬(superMarked tets removed j = true ∧ j < (getTet tets j).neighbors_ g')
          · rw [if_pos hc] at hg'
            exact absurd hg'.symm htMAX
          · rwa [if_neg hc] at hg'
        have hjlen : j < tets.length := by
          by_contra hcon
          rw [getTet_out_of_range tets j (by omega), empty_neighbors] at hg2
          exact htMAX hg2.symm
        by_contra hgg
        rcases hdist j hjlen g g' hgg with hd | hd
        · rw [hg2] at hd
          exact htMAX hd
        · rw [hg2, hg2'] at hd
          exact hd rfl
      have hmax' : st.1.length ≤ M_MAX_UNSIGNED := by rw [p1]; exact hmax
      obtain ⟨q1, q2, q4⟩ :=
        disconnectSuperFaces_spec (List.finRange 4) st.1 t hmax' htMAX hself' huniq'
      refine ⟨q1.trans p1, hmklen, fun j => ((q2 j).1).trans (p3 j), hmkflag, ?_⟩
      intro j g
      rw [q4 j g]
      by_cases hPt : (getTet tets j).neighbors_ g ≠ M_MAX_UNSIGNED ∧
          superMarked tets removed ((getTet tets j).neighbors_ g) = true ∧
          (getTet tets j).neighbors_ g < t ∧
          ¬(superMarked tets removed j = true ∧ j < (getTet tets j).neighbors_ g)
      · have hst1jg : (getTet st.1 j).neighbors_ g = M_MAX_UNSIGNED := by
          rw [p5 j g, if_pos hPt]
        rw [if_neg (fun hc => htMAX (by rw [hst1jg] at hc; exact hc.2.symm)), hst1jg,
          if_pos ⟨hPt.1, hPt.2.1, by have := hPt.2.2.1; omega, hPt.2.2.2⟩]
      · have hst1jg : (getTet st.1 j).neighbors_ g = (getTet tets j).neighbors_ g := by
          rw [p5 j g, if_neg hPt]
        by_cases hvt : (getTet tets j).neighbors_ g = t
        · have hjlen : j < tets.length := by
            by_contra hcon
            rw [getTet_out_of_range tets j (by omega), empty_neighbors] at hvt
            exact htMAX hvt.symm
          have hjMAX : j ≠ M_MAX_UNSIGNED := by omega
          obtain ⟨g₀, hg₀⟩ := hsym j hjlen g (by rw [hvt]; exact htMAX)
          rw [hvt] at hg₀
          by_cases hsmj : superMarked tets removed j = true ∧ j < t
          · have hjt' : j < t := hsmj.2
            have hnoex : ¬∃ f ∈ List.finRange 4, (getTet st.1 t).neighbors_ f = j := by
              rintro ⟨f₂, _, hf₂⟩
              rw [p5 t f₂] at hf₂
              by_cases hc : (getTet tets t).neighbors_ f₂ ≠ M_MAX_UNSIGNED ∧
                  superMarked tets removed ((getTet tets t).neighbors_ f₂) = true ∧
                  (getTet tets t).neighbors_ f₂ < t ∧
                  ¬(superMarked tets removed t = true ∧ t < (getTet tets t).neighbors_ f₂)
              · rw [if_pos hc] at hf₂
                exact hjMAX hf₂.symm
              · rw [if_neg hc] at hf₂
                exact hc ⟨by rw [hf₂]; exact hjMAX, by rw [hf₂]; exact hsmj.1,
                  by rw [hf₂]; exact hsmj.2,
                  fun hcc => by
                    have h2 := hcc.2
                    rw [hf₂] at h2
                    omega⟩
            rw [if_neg (fun hc => hnoex hc.1), hst1jg,
              if_neg (fun hcc => hcc.2.2.2 ⟨hsmj.1, by rw [hvt]; exact hsmj.2⟩)]
          · have hst1tg₀ : (getTet st.1 t).neighbors_ g₀ = j := by
              rw [p5 t g₀, hg₀, if_neg (fun hc => hsmj ⟨hc.2.1, hc.2.2.1⟩)]
            have hst1jgt : (getTet st.1 j).neighbors_ g = t := by
              rw [hst1jg]
              exact hvt
            rw [if_pos ⟨⟨g₀, List.mem_finRange g₀, hst1tg₀⟩, hst1jgt⟩,
              if_pos ⟨by rw [hvt]; exact htMAX, by rw [hvt]; exact hsm,
                by rw [hvt]; omega,
                fun hcc => hsmj ⟨hcc.1, by
                  have h2 := hcc.2
                  rw [hvt] at h2
                  exact h2⟩⟩]
        · have hst1net : (getTet st.1 j).neighbors_ g ≠ t := by
            rw [hst1jg]
            exact hvt
          rw [if_neg (fun hc => hst1net hc.2), hst1jg,
            if_neg (fun hcc => hPt ⟨hcc.1, hcc.2.1, by
              have h1 := hcc.2.2.1
              omega, hcc.2.2.2⟩)]
    · rw [hunfold, if_neg (by rw [hrt]; exact hsm)]
      refine ⟨p1, hmklen, p3, hmkflag, ?_⟩
      intro j g
      rw [p5 j g]
      by_cases hPt : (getTet tets j).neighbors_ g ≠ M_MAX_UNSIGNED ∧
          superMarked tets removed ((getTet tets j).neighbors_ g) = true ∧
          (getTet tets j).neighbors_ g < t ∧
          ¬(superMarked tets removed j = true ∧ j < (getTet tets j).neighbors_ g)
      · rw [if_pos hPt,
          if_pos ⟨hPt.1, hPt.2.1, by have := hPt.2.2.1; omega, hPt.2.2.2⟩]
      · rw [if_neg hPt, if_neg (fun hcc => hPt ⟨hcc.1, hcc.2.1, by
          have h1 := hcc.2.2.1
          have h2 := hcc.2.1
          rcases Nat.lt_succ_iff_lt_or_eq.mp h1 with h | h
          · exact h
          · exfalso
            rw [h] at h2
            exact hsm h2, hcc.2.2.2⟩)]

theorem filterMap_keptSingle (tets : List Tetrahedron) (removed : List Bool) (n : ℕ) :
    List.filterMap (fun i =>
      if removed.getD i true then none else some (getTet tets i)) [n] =
      if removed.getD n true then [] else [getTet tets n] := by
  by_cases hflag : removed.getD n true = true
  · rw [if_pos hflag,
      @List.filterMap_cons_none ℕ Tetrahedron (fun i =>
        if removed.getD i true then none else some (getTet tets i)) n [] (if_pos hflag),
      List.filterMap_nil]
  · rw [if_neg hflag,
      @List.filterMap_cons_some ℕ Tetrahedron (fun i =>
        if removed.getD i true then none else some (getTet tets i)) n []
        (getTet tets n) (if_neg hflag),
      List.filterMap_nil]

theorem keptPrefix_length (tets : List Tetrahedron) (removed : List Bool) (n : ℕ)
    (hn : n ≤ removed.length) :
    (keptPrefix tets removed n).length = (removed.take n).count false := by
  revert hn
  induction n with
  | zero => intro _; rfl
  | succ n ih =>
    intro hn
    have hnlt : n < removed.length := by omega
    have hsplit : keptPrefix tets removed (n + 1) =
        keptPrefix tets removed n ++
          List.filterMap (fun i =>
            if removed.getD i true then none else some (getTet tets i)) [n] := by
      simp only [keptPrefix, List.range_succ, List.filterMap_append]
    rw [hsplit, List.length_append, ih (by omega), List.take_succ, List.count_append]
    have hget : removed[n]? = some (removed.getD n true) := by
      rw [List.getElem?_eq_getElem hnlt, List.getD_eq_getElem _ _ hnlt]
    rw [hget]
    by_cases hflag : removed.getD n true = true
    · rw [filterMap_keptSingle, if_pos hflag, hflag]
      rfl
    · have hflag' : removed.getD n true = false := Bool.eq_false_iff.mpr hflag
      rw [filterMap_keptSingle, if_neg hflag, hflag']
      rfl

theorem keptPrefix_getD (tets : List Tetrahedron) (removed : List Bool) (n : ℕ)
    (hn : n ≤ removed.length) (i : ℕ) (hi : i < n)
    (hkept : removed.getD i true = false) :
    (removed.take i).count false < (keptPrefix tets removed n).length ∧
    (keptPrefix tets removed n).getD ((removed.take i).count false) Tetrahedron.empty =
      getTet tets i := by
  revert hn hi
  induction n with
  | zero => intro hn hi; omega
  | succ n ih =>
    intro hn hi
    have hsplit : keptPrefix tets removed (n + 1) =
        keptPrefix tets removed n ++
          List.filterMap (fun i =>
            if removed.getD i true then none else some (getTet tets i)) [n] := by
      simp only [keptPrefix, List.range_succ, List.filterMap_append]
    rw [hsplit]
    by_cases hin : i < n
    · obtain ⟨b1, b2⟩ := ih (by omega) hin
      refine ⟨by rw [List.length_append]; omega, ?_⟩
      rw [List.getD_append _ _ _ _ b1]
      exact b2
    · have hieq : i = n := by omega
      subst hieq
      have hlenk := keptPrefix_length tets removed i (by omega)
      have htail : List.filterMap (fun i =>
          if removed.getD i true then none else some (getTet tets i)) [i] =
          [getTet tets i] := by
        rw [filterMap_keptSingle,
          if_neg (show ¬(removed.getD i true = true) from by
            rw [hkept]; exact Bool.false_ne_true)]
      rw [htail]
      refine ⟨by rw [List.length_append, hlenk, List.length_singleton]; omega, ?_⟩
      rw [List.getD_append_right _ _ _ _ (le_of_eq hlenk), ← hlenk, Nat.sub_self]
      rfl

theorem keptPrefix_surj (tets : List Tetrahedron) (removed : List Bool) (n : ℕ)
    (hn : n ≤ removed.length) (k : ℕ)
    (hk : k < (keptPrefix tets removed n).length) :
    ∃ i, i < n ∧ removed.getD i true = false ∧ (removed.take i).count false = k := by
  revert hn hk
  induction n with
  | zero =>
    intro hn hk
    simp [keptPrefix] at hk
  | succ n ih =>
    intro hn hk
    have hsplit : keptPrefix tets removed (n + 1) =
        keptPrefix tets removed n ++
          List.filterMap (fun i =>
            if removed.getD i true then none else some (getTet tets i)) [n] := by
      simp only [keptPrefix, List.range_succ, List.filterMap_append]
    rw [hsplit, List.length_append] at hk
    by_cases hkn : k < (keptPrefix tets removed n).length
    · obtain ⟨i, q1, q2, q3⟩ := ih (by omega) hkn
      exact ⟨i, by omega, q2, q3⟩
    · have hlenk := keptPrefix_length tets removed n (by omega)
      by_cases hflag : removed.getD n true = true
      · exfalso
        have htail : List.filterMap (fun i =>
            if removed.getD i true then none else some (getTet tets i)) [n] = [] := by
          rw [filterMap_keptSingle, if_pos hflag]
        rw [htail, List.length_nil] at hk
        omega
      · have hflag' : removed.getD n true = false := Bool.eq_false_iff.mpr hflag
        have htail : List.filterMap (fun i =>
            if removed.getD i true then none else some (getTet tets i)) [n] =
            [getTet tets n] := by
          rw [filterMap_keptSingle, if_neg hflag]
        rw [htail, List.length_singleton] at hk
        exact ⟨n, by omega, hflag', by rw [← hlenk]; omega⟩

theorem oldToNew_getD (removed : List Bool) (n v : ℕ) (hv : v < n) :
    (oldToNewIndexMap removed n).getD v M_MAX_UNSIGNED =
      if removed.getD v true then M_MAX_UNSIGNED else (removed.take v).count false := by
  rw [oldToNewIndexMap, List.getD_eq_getElem _ _ (by
    rw [List.length_map, List.length_range]
    exact hv), List.getElem_map, List.getElem_range]

theorem remapCell_neighbors (removed : List Bool) (n : ℕ) (t : Tetrahedron)
    (g : Fin 4) :
    (remapCell removed n t).neighbors_ g =
      if t.neighbors_ g ≠ M_MAX_UNSIGNED then
        (oldToNewIndexMap removed n).getD (t.neighbors_ g) M_MAX_UNSIGNED
      else t.neighbors_ g := rfl

theorem remap_getTet (tets : List Tetrahedron) (removed : List Bool) (k i : ℕ)
    (hk : k < (keptPrefix tets removed tets.length).length)
    (hbget : (keptPrefix tets removed tets.length).getD k Tetrahedron.empty =
      getTet tets i) :
    getTet (RemoveMarkedTetrahedrons tets removed) k =
      remapCell removed tets.length (getTet tets i) := by
  rw [RemoveMarkedTetrahedrons, getTet, ← hbget,
    List.getD_eq_getElem _ _ (by rw [List.length_map]; exact hk),
    List.getElem_map, List.getD_eq_getElem _ _ hk]

/-- Stripping the super mesh preserves adjacency symmetry: starting from any
state satisfying the mesh invariant,
`RemoveMarkedTetrahedrons ∘ DisconnectSuperMeshTetrahedrons` yields a
compacted cell array that still passes `IsAdjacencyValid(false)`. -/
theorem stripSuper_adjacency (tets : List Tetrahedron) (removed : List Bool)
    (hInv : meshInvariantHolds tets removed = true) :
    IsAdjacencyValid
      (RemoveMarkedTetrahedrons (DisconnectSuperMeshTetrahedrons tets removed).1
        (DisconnectSuperMeshTetrahedrons tets removed).2) false = true := by
  obtain ⟨h1, h2, h3, h4, h5, h6, h7⟩ := meshInvariant_props tets removed hInv
  have hmax : tets.length ≤ M_MAX_UNSIGNED := by omega
  have hsymE : ∀ i, i < tets.length → ∀ f : Fin 4,
      (getTet tets i).neighbors_ f ≠ M_MAX_UNSIGNED →
      ∃ g : Fin 4, (getTet tets ((getTet tets i).neighbors_ f)).neighbors_ g = i := by
    intro i hi f hf
    have hmir := ((isAdjacencyValid_iff tets false).mp h3 i hi f).2 hf
    exact (hasNeighbor_iff _ _).mp hmir
  obtain ⟨d1, d2, d3, d4, d5⟩ :=
    disconnectSuper_inv tets removed h1 hmax h4 h6 hsymE tets.length (le_refl _)
  have hDSeq : (List.range tets.length).foldl disconnectSuperStep (tets, removed) =
      DisconnectSuperMeshTetrahedrons tets removed := rfl
  rw [hDSeq] at d1 d2 d3 d4 d5
  set DS := DisconnectSuperMeshTetrahedrons tets removed with hDSdef
  rw [isAdjacencyValid_iff]
  intro k hk f
  rw [RemoveMarkedTetrahedrons, List.length_map] at hk
  obtain ⟨i, hin, hiflag, hicount⟩ :=
    keptPrefix_surj DS.1 DS.2 DS.1.length (by omega) k hk
  obtain ⟨hblt, hbget⟩ := keptPrefix_getD DS.1 DS.2 DS.1.length (by omega) i hin hiflag
  rw [hicount] at hblt hbget
  have hilen : i < tets.length := by omega
  have hiMAX : i ≠ M_MAX_UNSIGNED := by omega
  have hsmi : superMarked tets removed i = false := by
    have hd := d4 i
    rw [if_pos hilen] at hd
    rw [← hd]
    exact hiflag
  have hDSslot : ∀ g : Fin 4, (getTet DS.1 i).neighbors_ g =
      if (getTet tets i).neighbors_ g ≠ M_MAX_UNSIGNED ∧
          superMarked tets removed ((getTet tets i).neighbors_ g) = true then
        M_MAX_UNSIGNED
      else (getTet tets i).neighbors_ g := by
    intro g
    rw [d5 i g]
    by_cases hc1 : (getTet tets i).neighbors_ g ≠ M_MAX_UNSIGNED ∧
        superMarked tets removed ((getTet tets i).neighbors_ g) = true
    · rw [if_pos ⟨hc1.1, hc1.2, (h5 i hilen g).resolve_left hc1.1,
        fun hcc => by rw [hsmi] at hcc; exact Bool.false_ne_true hcc.1⟩, if_pos hc1]
    · rw [if_neg (fun hcc => hc1 ⟨hcc.1, hcc.2.1⟩), if_neg hc1]
  have hck := remap_getTet DS.1 DS.2 k i hk hbget
  refine ⟨fun _ => rfl, ?_⟩
  intro hne
  by_cases hvMAX : (getTet DS.1 i).neighbors_ f = M_MAX_UNSIGNED
  · exfalso
    rw [hck, remapCell_neighbors, if_neg (not_not_intro hvMAX), hvMAX] at hne
    exact hne rfl
  · have hDSf := hDSslot f
    by_cases hc : (getTet tets i).neighbors_ f ≠ M_MAX_UNSIGNED ∧
        superMarked tets removed ((getTet tets i).neighbors_ f) = true
    · rw [if_pos hc] at hDSf
      exact absurd hDSf hvMAX
    · rw [if_neg hc] at hDSf
      have horigMAX : (getTet tets i).neighbors_ f ≠ M_MAX_UNSIGNED := by
        rw [← hDSf]
        exact hvMAX
      have hsmw : superMarked tets removed ((getTet tets i).neighbors_ f) = false :=
        Bool.eq_false_iff.mpr (fun hb => hc ⟨horigMAX, hb⟩)
      set w := (getTet tets i).neighbors_ f with hw
      have hwlen : w < tets.length := (h5 i hilen f).resolve_left horigMAX
      have hwflag : DS.2.getD w true = false := by
        rw [d4 w, if_pos hwlen]
        exact hsmw
      have hslotval : (getTet (RemoveMarkedTetrahedrons DS.1 DS.2) k).neighbors_ f =
          (DS.2.take w).count false := by
        rw [hck, remapCell_neighbors, if_pos hvMAX, hDSf,
          oldToNew_getD DS.2 DS.1.length w (by omega),
          if_neg (fun hcc => by rw [hwflag] at hcc; exact Bool.false_ne_true hcc)]
      obtain ⟨hwlt, hwget⟩ :=
        keptPrefix_getD DS.1 DS.2 DS.1.length (by omega) w (by omega) hwflag
      obtain ⟨g₁, hg₁⟩ := hsymE i hilen f horigMAX
      have hDSwslot : (getTet DS.1 w).neighbors_ g₁ = i := by
        rw [d5 w g₁, hg₁,
          if_neg (fun hcc => by rw [hsmi] at hcc; exact Bool.false_ne_true hcc.2.1)]
      have hmirror : (getTet (RemoveMarkedTetrahedrons DS.1 DS.2)
          ((DS.2.take w).count false)).neighbors_ g₁ = k := by
        rw [remap_getTet DS.1 DS.2 ((DS.2.take w).count false) w hwlt hwget,
          remapCell_neighbors, if_pos (by rw [hDSwslot]; exact hiMAX), hDSwslot,
          oldToNew_getD DS.2 DS.1.length i (by omega),
          if_neg (fun hcc => by rw [hiflag] at hcc; exact Bool.false_ne_true hcc)]
        exact hicount
      rw [hslotval, hasNeighbor_iff]
      exact ⟨g₁, hmirror⟩

theorem floodFillFold_spec2 (tets : List Tetrahedron)
    (circumspheres : List HighPrecisionSphere) (position : Vec3)
    (st : List Bool × List ℕ) (tetIndex : ℕ) :
    ∃ extra : List ℕ,
      ((List.finRange 4).foldl
          (fun st f => floodFillProcessFace tets circumspheres position st tetIndex f)
          st).2 = st.2 ++ extra ∧
      ((List.finRange 4).foldl
          (fun st f => floodFillProcessFace tets circumspheres position st tetIndex f)
          st).1 = extra.foldl (fun fl n => fl.set n true) st.1 ∧
      (∀ n ∈ extra, st.1.getD n true = false) ∧ extra.Nodup := by
  have general : ∀ (l : List (Fin 4)) (st : List Bool × List ℕ),
      ∃ extra : List ℕ,
        (l.foldl (fun st f => floodFillProcessFace tets circumspheres position st tetIndex f)
            st).2 = st.2 ++ extra ∧
        (l.foldl (fun st f => floodFillProcessFace tets circumspheres position st tetIndex f)
            st).1 = extra.foldl (fun fl n => fl.set n true) st.1 ∧
        (∀ n ∈ extra, st.1.getD n true = false) ∧ extra.Nodup := by
    intro l
    induction l with
    | nil => intro st; exact ⟨[], by simp, by simp, by simp, List.nodup_nil⟩
    | cons f fs ih =>
      intro st
      rcases floodFillProcessFace_spec tets circumspheres position st tetIndex f with
        heq | ⟨n, hn, heq⟩
      · obtain ⟨extra, h1, h2, h3, h4⟩ :=
          ih (floodFillProcessFace tets circumspheres position st tetIndex f)
        exact ⟨extra, by rw [List.foldl_cons, h1, heq],
          by rw [List.foldl_cons, h2, heq], by rw [heq] at h3; exact h3, h4⟩
      · obtain ⟨extra, h1, h2, h3, h4⟩ :=
          ih (floodFillProcessFace tets circumspheres position st tetIndex f)
        have hnotmem : n ∉ extra := by
          intro hmem
          have := h3 n hmem
          rw [heq] at this
          simp only at this
          rw [getD_set_true] at this
          simp at this
        refine ⟨n :: extra, ?_, ?_, ?_, ?_⟩
        · rw [List.foldl_cons, h1, heq]
          simp
        · rw [List.foldl_cons, h2, heq, List.foldl_cons]
        · intro m hm
          rcases List.mem_cons.mp hm with hm | hm
          · exact hm ▸ hn
          · have := h3 m hm
            rw [heq] at this
            simp only at this
            rw [getD_set_true] at this
            by_cases hmn : m = n
            · simp [hmn] at this
            · simpa [hmn] using this
        · exact List.nodup_cons.mpr ⟨hnotmem, h4⟩
  exact general (List.finRange 4) st

theorem floodFillAux_nodup (tets : List Tetrahedron)
    (circumspheres : List HighPrecisionSphere) (position : Vec3)
    (removed : List Bool) (queue : List ℕ) (i : ℕ) :
    queue.Nodup → (∀ n ∈ queue, removed.getD n true = true) →
    (floodFillAux tets circumspheres position removed queue i).2.Nodup := by
  induction removed, queue, i using floodFillAux.induct tets circumspheres position with
  | case1 removed queue i h ih =>
    intro hq hqm
    rw [floodFillAux, dif_pos h]
    obtain ⟨extraF, hf1, hf2, hf3, hf4⟩ :=
      floodFillFold_spec2 tets circumspheres position (removed, queue) (queue.getD i 0)
    refine ih ?_ ?_
    · rw [hf1, List.nodup_append]
      refine ⟨hq, hf4, ?_⟩
      intro a ha ha'
      have h1 := hqm a ha
      have h2 := hf3 a ha'
      rw [h1] at h2
      exact absurd h2 (by simp)
    · intro n hn
      rw [hf2, getD_foldl_set_true]
      by_cases hmem : n ∈ extraF
      · rw [if_pos hmem]
      · rw [if_neg hmem]
        rw [hf1] at hn
        rcases List.mem_append.mp hn with hn | hn
        · exact hqm n hn
        · exact absurd hn hmem
  | case2 removed queue i h =>
    intro hq hqm
    rw [floodFillAux, dif_neg h]
    exact hq

theorem collectGen_fields (tets : List Tetrahedron) (flags : List Bool) (t : ℕ)
    (htlen : t < tets.length) (hmax : tets.length ≤ M_MAX_UNSIGNED)
    (hrange : ∀ f : Fin 4, (getTet tets t).neighbors_ f = M_MAX_UNSIGNED ∨
      (getTet tets t).neighbors_ f < tets.length)
    (hdistv : ∀ v, v < tets.length → ∀ g g' : Fin 4, (getTet tets v).neighbors_ g = t →
      (getTet tets v).neighbors_ g' = t → g = g')
    (hsymt : ∀ f : Fin 4, (getTet tets t).neighbors_ f ≠ M_MAX_UNSIGNED →
      ∃ g : Fin 4, (getTet tets ((getTet tets t).neighbors_ f)).neighbors_ g = t)
    (fi : Fin 4) (tri : TetrahedralMeshSurfaceTriangle)
    (htri : (if (getTet tets t).neighbors_ fi = M_MAX_UNSIGNED then
        some ((getTet tets t).GetTriangleFace fi M_MAX_UNSIGNED M_MAX_UNSIGNED)
      else if removedAt flags ((getTet tets t).neighbors_ fi) then none
      else some ((getTet tets ((getTet tets t).neighbors_ fi)).GetTriangleFaceN
          ((getTet tets ((getTet tets t).neighbors_ fi)).GetNeighborFaceIndex t)
          ((getTet tets t).neighbors_ fi)
          ((getTet tets ((getTet tets t).neighbors_ fi)).GetNeighborFaceIndex t))) =
      some tri) :
    tri.tetIndex_ = M_MAX_UNSIGNED ∨
    (tri.tetIndex_ = (getTet tets t).neighbors_ fi ∧ tri.tetIndex_ < tets.length ∧
      removedAt flags tri.tetIndex_ = false ∧
      ∃ gf : Fin 4, tri.tetFace_ = gf.val ∧
        (getTet tets tri.tetIndex_).neighbors_ gf = t) := by
  by_cases hv : (getTet tets t).neighbors_ fi = M_MAX_UNSIGNED
  · rw [if_pos hv] at htri
    have h := Option.some.inj htri
    subst h
    exact Or.inl rfl
  · rw [if_neg hv] at htri
    by_cases hrem : removedAt flags ((getTet tets t).neighbors_ fi) = true
    · rw [if_pos hrem] at htri
      exact absurd htri (by simp)
    · rw [if_neg hrem] at htri
      have h := Option.some.inj htri
      subst h
      have hvlen : (getTet tets t).neighbors_ fi < tets.length :=
        (hrange fi).resolve_left hv
      obtain ⟨g, hg⟩ := hsymt fi hv
      have hnf : (getTet tets ((getTet tets t).neighbors_ fi)).GetNeighborFaceIndex t =
          g.val :=
        getNeighborFaceIndex_eq _ t g hg
          (fun g' hg' => hdistv _ hvlen g' g hg' hg)
      rw [hnf]
      refine Or.inr ⟨?_, ?_, ?_, g, ?_, ?_⟩
      · rw [Tetrahedron.GetTriangleFaceN, dif_pos g.isLt]
        rfl
      · rw [Tetrahedron.GetTriangleFaceN, dif_pos g.isLt]
        exact hvlen
      · rw [Tetrahedron.GetTriangleFaceN, dif_pos g.isLt]
        exact Bool.eq_false_iff.mpr hrem
      · rw [Tetrahedron.GetTriangleFaceN, dif_pos g.isLt]
        rfl
      · rw [Tetrahedron.GetTriangleFaceN, dif_pos g.isLt]
        exact hg

theorem collectHoleTriangles_fields (tets : List Tetrahedron) (flags : List Bool)
    (R : List ℕ)
    (hmax : tets.length ≤ M_MAX_UNSIGNED)
    (hR : ∀ t ∈ R, t < tets.length)
    (hrange : ∀ i, i < tets.length → ∀ f : Fin 4,
      (getTet tets i).neighbors_ f = M_MAX_UNSIGNED ∨
        (getTet tets i).neighbors_ f < tets.length)
    (hdist : ∀ i, i < tets.length → ∀ g g' : Fin 4, g ≠ g' →
      (getTet tets i).neighbors_ g = M_MAX_UNSIGNED ∨
        (getTet tets i).neighbors_ g ≠ (getTet tets i).neighbors_ g')
    (hsym : ∀ i, i < tets.length → ∀ f : Fin 4,
      (getTet tets i).neighbors_ f ≠ M_MAX_UNSIGNED →
      ∃ g : Fin 4, (getTet tets ((getTet tets i).neighbors_ f)).neighbors_ g = i) :
    ∀ tri ∈ collectHoleTriangles tets flags R,
      tri.tetIndex_ = M_MAX_UNSIGNED ∨
      (tri.tetIndex_ < tets.length ∧ removedAt flags tri.tetIndex_ = false ∧
        ∃ gf : Fin 4, tri.tetFace_ = gf.val ∧
          (getTet tets tri.tetIndex_).neighbors_ gf ∈ R) := by
  intro tri htri
  rw [collectHoleTriangles] at htri
  simp only [List.mem_flatMap, List.mem_filterMap] at htri
  obtain ⟨t, htR, fi, _, hfi⟩ := htri
  have htlen : t < tets.length := hR t htR
  have htMAX : t ≠ M_MAX_UNSIGNED := by omega
  have hdistv : ∀ v, v < tets.length → ∀ g g' : Fin 4,
      (getTet tets v).neighbors_ g = t → (getTet tets v).neighbors_ g' = t → g = g' := by
    intro v hvlen g g' hg hg'
    by_cases hgg : g = g'
    · exact hgg
    · rcases hdist v hvlen g g' hgg with hc | hc
      · rw [hg] at hc
        exact absurd hc htMAX
      · rw [hg, hg'] at hc
        exact absurd rfl hc
  rcases collectGen_fields tets flags t htlen hmax (hrange t htlen) hdistv
      (fun f hf => hsym t htlen f hf) fi tri hfi with hc | hc
  · exact Or.inl hc
  · refine Or.inr ⟨hc.2.1, hc.2.2.1, ?_⟩
    obtain ⟨gf, h1, h2⟩ := hc.2.2.2
    exact ⟨gf, h1, h2.symm ▸ htR⟩

theorem collectHoleTriangles_pairwise (tets : List Tetrahedron) (flags : List Bool)
    (R : List ℕ)
    (hmax : tets.length ≤ M_MAX_UNSIGNED)
    (hR : ∀ t ∈ R, t < tets.length)
    (hRnodup : R.Nodup)
    (hrange : ∀ i, i < tets.length → ∀ f : Fin 4,
      (getTet tets i).neighbors_ f = M_MAX_UNSIGNED ∨
        (getTet tets i).neighbors_ f < tets.length)
    (hdist : ∀ i, i < tets.length → ∀ g g' : Fin 4, g ≠ g' →
      (getTet tets i).neighbors_ g = M_MAX_UNSIGNED ∨
        (getTet tets i).neighbors_ g ≠ (getTet tets i).neighbors_ g')
    (hsym : ∀ i, i < tets.length → ∀ f : Fin 4,
      (getTet tets i).neighbors_ f ≠ M_MAX_UNSIGNED →
      ∃ g : Fin 4, (getTet tets ((getTet tets i).neighbors_ f)).neighbors_ g = i) :
    List.Pairwise
      (fun a b => a.tetIndex_ = M_MAX_UNSIGNED ∨ b.tetIndex_ = M_MAX_UNSIGNED ∨
        ¬(a.tetIndex_ = b.tetIndex_ ∧ a.tetFace_ = b.tetFace_))
      (collectHoleTriangles tets flags R) := by
  induction R with
  | nil =>
    rw [collectHoleTriangles]
    exact List.Pairwise.nil
  | cons t R' ih =>
    have htlen : t < tets.length := hR t (List.mem_cons_self t R')
    have htMAX : t ≠ M_MAX_UNSIGNED := by omega
    have hdistv : ∀ u, u ∈ t :: R' → ∀ v, v < tets.length → ∀ g g' : Fin 4,
        (getTet tets v).neighbors_ g = u → (getTet tets v).neighbors_ g' = u → g = g' := by
      intro u hu v hvlen g g' hg hg'
      have huMAX : u ≠ M_MAX_UNSIGNED := by
        have := hR u hu
        omega
      by_cases hgg : g = g'
      · exact hgg
      · rcases hdist v hvlen g g' hgg with hc | hc
        · rw [hg] at hc
          exact absurd hc huMAX
        · rw [hg, hg'] at hc
          exact absurd rfl hc
    have hgenfields : ∀ u, u ∈ t :: R' → ∀ (fi : Fin 4) tri,
        (if (getTet tets u).neighbors_ fi = M_MAX_UNSIGNED then
            some ((getTet tets u).GetTriangleFace fi M_MAX_UNSIGNED M_MAX_UNSIGNED)
          else if removedAt flags ((getTet tets u).neighbors_ fi) then none
          else some ((getTet tets ((getTet tets u).neighbors_ fi)).GetTriangleFaceN
              ((getTet tets ((getTet tets u).neighbors_ fi)).GetNeighborFaceIndex u)
              ((getTet tets u).neighbors_ fi)
              ((getTet tets ((getTet tets u).neighbors_ fi)).GetNeighborFaceIndex u))) =
          some tri →
        tri.tetIndex_ = M_MAX_UNSIGNED ∨
        (tri.tetIndex_ = (getTet tets u).neighbors_ fi ∧ tri.tetIndex_ < tets.length ∧
          removedAt flags tri.tetIndex_ = false ∧
          ∃ gf : Fin 4, tri.tetFace_ = gf.val ∧
            (getTet tets tri.tetIndex_).neighbors_ gf = u) := by
      intro u hu fi tri htri
      exact collectGen_fields tets flags u (hR u hu) hmax (hrange u (hR u hu))
        (hdistv u hu) (fun f hf => hsym u (hR u hu) f hf) fi tri htri
    rw [collectHoleTriangles, List.flatMap_cons, List.pairwise_append]
    refine ⟨?_, ?_, ?_⟩
    · refine List.Pairwise.filterMap _ ?_ (List.nodup_finRange 4)
      intro fi fj hne a ha b hb
      rw [Option.mem_def] at ha hb
      simp only at ha hb
      rcases hgenfields t (List.mem_cons_self t R') fi a ha with hA | hA
      · exact Or.inl hA
      rcases hgenfields t (List.mem_cons_self t R') fj b hb with hB | hB
      · exact Or.inr (Or.inl hB)
      refine Or.inr (Or.inr ?_)
      rintro ⟨hNeq, _⟩
      have hvMAX : a.tetIndex_ ≠ M_MAX_UNSIGNED := by
        have := hA.2.1
        omega
      rcases hdist t htlen fi fj hne with hc | hc
      · rw [← hA.1] at hc
        exact hvMAX hc
      · rw [← hA.1, ← hB.1] at hc
        exact hc hNeq
    · exact ih (fun u hu => hR u (List.mem_cons_of_mem t hu)) (List.nodup_cons.mp hRnodup).2
    · intro a ha b hb
      rw [List.mem_filterMap] at ha
      obtain ⟨fi, _, hfi⟩ := ha
      rw [List.mem_flatMap] at hb
      obtain ⟨u, hu, hb⟩ := hb
      rw [List.mem_filterMap] at hb
      obtain ⟨fj, _, hfj⟩ := hb
      simp only at hfi hfj
      rcases hgenfields t (List.mem_cons_self t R') fi a hfi with hA | hA
      · exact Or.inl hA
      rcases hgenfields u (List.mem_cons_of_mem t hu) fj b hfj with hB | hB
      · exact Or.inr (Or.inl hB)
      refine Or.inr (Or.inr ?_)
      rintro ⟨hNeq, hFeq⟩
      obtain ⟨gfa, hgfa1, hgfa2⟩ := hA.2.2.2
      obtain ⟨gfb, hgfb1, hgfb2⟩ := hB.2.2.2
      have hgf : gfa = gfb := by
        apply Fin.ext
        rw [← hgfa1, ← hgfb1, hFeq]
      have : t = u := by
        rw [← hgfa2, hgf, hNeq, hgfb2]
      exact (List.nodup_cons.mp hRnodup).1 (this ▸ hu)

theorem sameTriFields_refl (a : TetrahedralMeshSurfaceTriangle) : sameTriFields a a :=
  ⟨rfl, rfl, rfl, rfl⟩

theorem sameTriFields_trans {a b c : TetrahedralMeshSurfaceTriangle}
    (h1 : sameTriFields a b) (h2 : sameTriFields b c) : sameTriFields a c :=
  ⟨h1.1.trans h2.1, h1.2.1.trans h2.2.1, h1.2.2.1.trans h2.2.2.1,
    h1.2.2.2.trans h2.2.2.2⟩

theorem sameTriFields_edge {a b : TetrahedralMeshSurfaceTriangle}
    (h : sameTriFields a b) (j : Fin 3) : a.edge j = b.edge j := by
  rw [TetrahedralMeshSurfaceTriangle.edge, TetrahedralMeshSurfaceTriangle.edge, h.1]

theorem triSetNeighbor_fields (tri : TetrahedralMeshSurfaceTriangle) (l : Fin 3)
    (v : ℕ) : sameTriFields (tri.setNeighbor l v) tri :=
  ⟨rfl, rfl, rfl, rfl⟩

theorem triSetNeighbor_edge (tri : TetrahedralMeshSurfaceTriangle) (l : Fin 3)
    (v : ℕ) (j : Fin 3) : (tri.setNeighbor l v).edge j = tri.edge j := rfl

theorem triSetNeighbor_neighbors (tri : TetrahedralMeshSurfaceTriangle) (l : Fin 3)
    (v : ℕ) (j : Fin 3) :
    (tri.setNeighbor l v).neighbors_ j = if j = l then v else tri.neighbors_ j := by
  rw [TetrahedralMeshSurfaceTriangle.setNeighbor]
  exact Function.update_apply tri.neighbors_ l v j

theorem getTri_set (faces : List TetrahedralMeshSurfaceTriangle) (m n : ℕ)
    (tr : TetrahedralMeshSurfaceTriangle) :
    getTri (faces.set m tr) n = if m = n ∧ m < faces.length then tr
      else getTri faces n := by
  rw [getTri, getD_set_generic]
  rfl

theorem getTri_append_left (l l' : List TetrahedralMeshSurfaceTriangle) (i : ℕ)
    (h : i < l.length) : getTri (l ++ l') i = getTri l i := by
  rw [getTri, getTri, List.getD_append _ _ _ _ h]

theorem getTri_append_right (l l' : List TetrahedralMeshSurfaceTriangle) (i : ℕ)
    (h : l.length ≤ i) : getTri (l ++ l') i = getTri l' (i - l.length) := by
  rw [getTri, getTri, List.getD_append_right _ _ _ _ h]

theorem findOpenEdge_some (faces : List TetrahedralMeshSurfaceTriangle) (e : ℕ × ℕ)
    (k : ℕ) (l : Fin 3) (h : findOpenEdge faces e = some (k, l)) :
    k < faces.length ∧ (getTri faces k).edge l = e ∧
      (getTri faces k).neighbors_ l = M_MAX_UNSIGNED := by
  rw [findOpenEdge] at h
  obtain ⟨a, ha, hfa⟩ := List.exists_of_findSome?_eq_some h
  rw [List.mem_range] at ha
  cases hfind : (List.finRange 3).find? fun l =>
      decide ((getTri faces a).edge l = e) &&
        ((getTri faces a).neighbors_ l == M_MAX_UNSIGNED) with
  | none =>
    rw [hfind] at hfa
    exact absurd hfa (by simp)
  | some l₀ =>
    rw [hfind] at hfa
    rw [Option.map_some'] at hfa
    have hpair := Option.some.inj hfa
    have hk : a = k := congrArg Prod.fst hpair
    have hl : l₀ = l := congrArg Prod.snd hpair
    subst hk
    subst hl
    have hp := List.find?_some hfind
    simp only [Bool.and_eq_true, decide_eq_true_eq, beq_iff_eq] at hp
    exact ⟨ha, hp.1, hp.2⟩

theorem findOpenEdge_none (faces : List TetrahedralMeshSurfaceTriangle) (e : ℕ × ℕ)
    (h : findOpenEdge faces e = none) :
    ∀ k, k < faces.length → ∀ l : Fin 3,
      (getTri faces k).neighbors_ l = M_MAX_UNSIGNED →
      (getTri faces k).edge l ≠ e := by
  intro k hk l hMAX he
  rw [findOpenEdge] at h
  rw [List.findSome?_eq_none_iff] at h
  have hko := h k (List.mem_range.mpr hk)
  rw [Option.map_eq_none'] at hko
  have := List.find?_eq_none.mp hko l (List.mem_finRange l)
  simp only [Bool.and_eq_true, decide_eq_true_eq, beq_iff_eq, not_and] at this
  exact this he hMAX

theorem addFaceStep_spec (n : ℕ)
    (st : List TetrahedralMeshSurfaceTriangle × TetrahedralMeshSurfaceTriangle)
    (j : Fin 3) (hn : n < M_MAX_UNSIGNED) (hInv : AddFaceInv n st)
    (hjMAX : st.2.neighbors_ j = M_MAX_UNSIGNED) :
    AddFaceInv n (addFaceStep n st j) ∧
    (∀ j₂ : Fin 3, j₂ ≠ j →
      (addFaceStep n st j).2.neighbors_ j₂ = st.2.neighbors_ j₂) ∧
    (∀ i, sameTriFields (getTri (addFaceStep n st j).1 i) (getTri st.1 i)) ∧
    sameTriFields (addFaceStep n st j).2 st.2 ∧
    (∀ i, ∀ j₂ : Fin 3, (getTri st.1 i).neighbors_ j₂ ≠ M_MAX_UNSIGNED →
      (getTri (addFaceStep n st j).1 i).neighbors_ j₂ =
        (getTri st.1 i).neighbors_ j₂) ∧
    ((addFaceStep n st j).2.neighbors_ j ≠ M_MAX_UNSIGNED ∨
      ((addFaceStep n st j).2.neighbors_ j = M_MAX_UNSIGNED ∧
        ∀ i, i < n → ∀ l : Fin 3,
          (getTri st.1 i).neighbors_ l = M_MAX_UNSIGNED →
          (getTri st.1 i).edge l ≠ st.2.edge j)) := by
  obtain ⟨hlen, hA, hB⟩ := hInv
  cases hfind : findOpenEdge st.1 (st.2.edge j) with
  | none =>
    have heq : addFaceStep n st j = st := by rw [addFaceStep, hfind]
    rw [heq]
    refine ⟨⟨hlen, hA, hB⟩, fun j₂ _ => rfl, fun i => sameTriFields_refl _,
      sameTriFields_refl _, fun i j₂ _ => rfl, Or.inr ⟨hjMAX, ?_⟩⟩
    intro i hi l hMAX
    exact findOpenEdge_none st.1 _ hfind i (hlen ▸ hi) l hMAX
  | some kl =>
    obtain ⟨k, l⟩ := kl
    obtain ⟨hk, he, hopen⟩ := findOpenEdge_some st.1 _ k l hfind
    have hkn : k < n := hlen ▸ hk
    have heq : addFaceStep n st j =
        (st.1.set k ((getTri st.1 k).setNeighbor l n), st.2.setNeighbor j k) := by
      rw [addFaceStep, hfind]
    rw [heq]
    have hfs : ∀ i, getTri (st.1.set k ((getTri st.1 k).setNeighbor l n)) i =
        if k = i then (getTri st.1 k).setNeighbor l n else getTri st.1 i := by
      intro i
      rw [getTri_set]
      by_cases hik : k = i
      · rw [if_pos ⟨hik, hk⟩, if_pos hik]
      · rw [if_neg (fun hc => hik hc.1), if_neg hik]
    have hedgeP : ∀ i, ∀ j₂ : Fin 3,
        (getTri (st.1.set k ((getTri st.1 k).setNeighbor l n)) i).edge j₂ =
          (getTri st.1 i).edge j₂ := by
      intro i j₂
      rw [hfs i]
      by_cases hik : k = i
      · rw [if_pos hik, triSetNeighbor_edge, hik]
      · rw [if_neg hik]
    have hslot : ∀ i, ∀ j₂ : Fin 3,
        (getTri (st.1.set k ((getTri st.1 k).setNeighbor l n)) i).neighbors_ j₂ =
          if k = i ∧ j₂ = l then n else (getTri st.1 i).neighbors_ j₂ := by
      intro i j₂
      rw [hfs i]
      by_cases hik : k = i
      · rw [if_pos hik, triSetNeighbor_neighbors]
        by_cases hjl : j₂ = l
        · rw [if_pos hjl, if_pos ⟨hik, hjl⟩]
        · rw [if_neg hjl, if_neg (fun hc => hjl hc.2), hik]
      · rw [if_neg hik, if_neg (fun hc => hik hc.1)]
    have htslot : ∀ j₂ : Fin 3, (st.2.setNeighbor j k).neighbors_ j₂ =
        if j₂ = j then k else st.2.neighbors_ j₂ :=
      fun j₂ => triSetNeighbor_neighbors _ _ _ _
    have htedge : ∀ j₂ : Fin 3, (st.2.setNeighbor j k).edge j₂ = st.2.edge j₂ :=
      fun j₂ => triSetNeighbor_edge _ _ _ _
    have hkMAX : k ≠ M_MAX_UNSIGNED := by omega
    have hnMAX : n ≠ M_MAX_UNSIGNED := by omega
    refine ⟨⟨by rw [List.length_set]; exact hlen, ?_, ?_⟩, ?_, ?_, ?_, ?_, ?_⟩
    · intro i j₂ hi hne
      rw [hslot i j₂] at hne ⊢
      by_cases hcase : k = i ∧ j₂ = l
      · rw [if_pos hcase]
        refine Or.inr ⟨rfl, j, ?_, ?_⟩
        · rw [htslot j, if_pos rfl, hcase.1]
        · rw [htedge j, hedgeP i j₂, ← hcase.1, hcase.2]
          exact he.symm
      · rw [if_neg hcase] at hne ⊢
        rcases hA i j₂ hi hne with ⟨h1, h2, j', h3, h4⟩ | ⟨h1, j', h3, h4⟩
        · refine Or.inl ⟨h1, h2, j', ?_, ?_⟩
          · rw [hslot _ j', if_neg (by
              rintro ⟨hk1, hk2⟩
              rw [← hk1, hk2] at h3
              rw [hopen] at h3
              omega)]
            exact h3
          · rw [hedgeP, hedgeP]
            exact h4
        · refine Or.inr ⟨h1, j', ?_, ?_⟩
          · rw [htslot j', if_neg (by
              intro hc
              rw [hc, hjMAX] at h3
              omega)]
            exact h3
          · rw [htedge, hedgeP]
            exact h4
    · intro j₂ hne
      rw [htslot j₂] at hne ⊢
      by_cases hj₂ : j₂ = j
      · rw [if_pos hj₂]
        refine ⟨hkn, l, ?_, ?_⟩
        · rw [hslot k l, if_pos ⟨rfl, rfl⟩]
        · rw [hedgeP, he, htedge, hj₂]
      · rw [if_neg hj₂] at hne ⊢
        obtain ⟨h1, j', h3, h4⟩ := hB j₂ hne
        refine ⟨h1, j', ?_, ?_⟩
        · rw [hslot _ j', if_neg (by
            rintro ⟨hk1, hk2⟩
            rw [← hk1, hk2] at h3
            rw [hopen] at h3
            exact hnMAX h3.symm)]
          exact h3
        · rw [hedgeP, htedge]
          exact h4
    · intro j₂ hj₂
      rw [htslot j₂, if_neg hj₂]
    · intro i
      rw [hfs i]
      by_cases hik : k = i
      · rw [if_pos hik, hik]
        exact triSetNeighbor_fields _ _ _
      · rw [if_neg hik]
        exact sameTriFields_refl _
    · exact triSetNeighbor_fields _ _ _
    · intro i j₂ hne
      rw [hslot i j₂, if_neg (by
        rintro ⟨hk1, hk2⟩
        rw [← hk1, hk2] at hne
        exact hne hopen)]
    · refine Or.inl ?_
      rw [htslot j, if_pos rfl]
      exact hkMAX

theorem addFace_spec (faces : List TetrahedralMeshSurfaceTriangle)
    (tri0 : TetrahedralMeshSurfaceTriangle)
    (hn : faces.length < M_MAX_UNSIGNED)
    (hW : WellLinked faces)
    (ht0 : ∀ j : Fin 3, tri0.neighbors_ j = M_MAX_UNSIGNED) :
    (AddFace faces tri0).length = faces.length + 1 ∧
    WellLinked (AddFace faces tri0) ∧
    (∀ i, i < faces.length →
      sameTriFields (getTri (AddFace faces tri0) i) (getTri faces i)) ∧
    sameTriFields (getTri (AddFace faces tri0) faces.length) tri0 ∧
    (∀ i, ∀ j₂ : Fin 3, i < faces.length →
      (getTri faces i).neighbors_ j₂ ≠ M_MAX_UNSIGNED →
      (getTri (AddFace faces tri0) i).neighbors_ j₂ =
        (getTri faces i).neighbors_ j₂) ∧
    (openSlotsEdgeDistinct faces → triEdgesDistinct tri0 →
      openSlotsEdgeDistinct (AddFace faces tri0)) := by
  have hInv0 : AddFaceInv faces.length (faces, tri0) := by
    refine ⟨rfl, ?_, ?_⟩
    · intro i j₂ hi hne
      obtain ⟨h1, h2, j', h3, h4⟩ := hW i j₂ hi hne
      exact Or.inl ⟨h1, h2, j', h3, h4⟩
    · intro j₂ hne
      exact absurd (ht0 j₂) hne
  obtain ⟨I1, P1, F1, T1, M1, O1⟩ :=
    addFaceStep_spec faces.length (faces, tri0) 0 hn hInv0 (ht0 0)
  set st1 := addFaceStep faces.length (faces, tri0) 0 with hst1
  obtain ⟨I2, P2, F2, T2, M2, O2⟩ :=
    addFaceStep_spec faces.length st1 1 hn I1
      (by rw [P1 1 (by decide)]; exact ht0 1)
  set st2 := addFaceStep faces.length st1 1 with hst2
  obtain ⟨I3, P3, F3, T3, M3, O3⟩ :=
    addFaceStep_spec faces.length st2 2 hn I2
      (by rw [P2 2 (by decide), P1 2 (by decide)]; exact ht0 2)
  set st3 := addFaceStep faces.length st2 2 with hst3
  have hAF : AddFace faces tri0 = st3.1 ++ [st3.2] := rfl
  have hlen3 : st3.1.length = faces.length := I3.1
  have hlenAF : (AddFace faces tri0).length = faces.length + 1 := by
    rw [hAF, List.length_append, hlen3]
    rfl
  have hres_lt : ∀ i, i < faces.length →
      getTri (AddFace faces tri0) i = getTri st3.1 i := by
    intro i hi
    rw [hAF]
    exact getTri_append_left _ _ i (by rw [hlen3]; exact hi)
  have hres_n : getTri (AddFace faces tri0) faces.length = st3.2 := by
    rw [hAF, getTri_append_right _ _ faces.length (le_of_eq hlen3)]
    have hz : faces.length - st3.1.length = 0 := by omega
    rw [hz]
    rfl
  have Fc : ∀ i, sameTriFields (getTri st3.1 i) (getTri faces i) := fun i =>
    sameTriFields_trans (F3 i) (sameTriFields_trans (F2 i) (F1 i))
  have Tc : sameTriFields st3.2 tri0 :=
    sameTriFields_trans T3 (sameTriFields_trans T2 T1)
  have Mc : ∀ i, ∀ j₂ : Fin 3, (getTri faces i).neighbors_ j₂ ≠ M_MAX_UNSIGNED →
      (getTri st3.1 i).neighbors_ j₂ = (getTri faces i).neighbors_ j₂ := by
    intro i j₂ hne
    have e1 := M1 i j₂ hne
    have e2 := M2 i j₂ (by rw [e1]; exact hne)
    have e3 := M3 i j₂ (by rw [e2, e1]; exact hne)
    rw [e3, e2, e1]
  have hb10 : ∀ i, ∀ j₂ : Fin 3, (getTri st1.1 i).neighbors_ j₂ = M_MAX_UNSIGNED →
      (getTri faces i).neighbors_ j₂ = M_MAX_UNSIGNED := by
    intro i j₂ h1
    by_contra h0
    rw [M1 i j₂ h0] at h1
    exact h0 h1
  have hb21 : ∀ i, ∀ j₂ : Fin 3, (getTri st2.1 i).neighbors_ j₂ = M_MAX_UNSIGNED →
      (getTri st1.1 i).neighbors_ j₂ = M_MAX_UNSIGNED := by
    intro i j₂ h1
    by_contra h0
    rw [M2 i j₂ h0] at h1
    exact h0 h1
  have hb32 : ∀ i, ∀ j₂ : Fin 3, (getTri st3.1 i).neighbors_ j₂ = M_MAX_UNSIGNED →
      (getTri st2.1 i).neighbors_ j₂ = M_MAX_UNSIGNED := by
    intro i j₂ h1
    by_contra h0
    rw [M3 i j₂ h0] at h1
    exact h0 h1
  have hback : ∀ i, ∀ j₂ : Fin 3, (getTri st3.1 i).neighbors_ j₂ = M_MAX_UNSIGNED →
      (getTri faces i).neighbors_ j₂ = M_MAX_UNSIGNED := fun i j₂ h =>
    hb10 i j₂ (hb21 i j₂ (hb32 i j₂ h))
  refine ⟨hlenAF, ?_, ?_, ?_, ?_, ?_⟩
  · intro i j₂ hi hne
    rw [hlenAF] at hi
    by_cases hiN : i < faces.length
    · rw [hres_lt i hiN] at hne ⊢
      rcases I3.2.1 i j₂ hiN hne with ⟨h1, h2, j', h3, h4⟩ | ⟨h1, j', h3, h4⟩
      · refine ⟨by rw [hlenAF]; omega, h2, j', ?_, ?_⟩
        · rw [hres_lt _ h1]
          exact h3
        · rw [hres_lt _ h1]
          exact h4
      · rw [h1]
        refine ⟨by rw [hlenAF]; omega, by omega, j', ?_, ?_⟩
        · rw [hres_n]
          exact h3
        · rw [hres_n]
          exact h4
    · have hin : i = faces.length := by omega
      subst hin
      rw [hres_n] at hne ⊢
      obtain ⟨h1, j', h3, h4⟩ := I3.2.2 j₂ hne
      refine ⟨by rw [hlenAF]; omega, by omega, j', ?_, ?_⟩
      · rw [hres_lt _ h1]
        exact h3
      · rw [hres_lt _ h1]
        exact h4
  · intro i hi
    rw [hres_lt i hi]
    exact Fc i
  · rw [hres_n]
    exact Tc
  · intro i j₂ hi hne
    rw [hres_lt i hi]
    exact Mc i j₂ hne
  · intro hU hE
    have hOpenNew : ∀ jj : Fin 3, st3.2.neighbors_ jj = M_MAX_UNSIGNED →
        ∀ m, m < faces.length → ∀ ll : Fin 3,
        (getTri st3.1 m).neighbors_ ll = M_MAX_UNSIGNED →
        (getTri faces m).edge ll ≠ tri0.edge jj := by
      intro jj hjj m hm ll hll
      fin_cases jj
      · rcases O1 with hl | ⟨_, hfact⟩
        · exfalso
          apply hl
          rw [← P2 0 (by decide), ← P3 0 (by decide)]
          exact hjj
        · exact hfact m hm ll (hback m ll hll)
      · rcases O2 with hl | ⟨_, hfact⟩
        · exfalso
          apply hl
          rw [← P3 1 (by decide)]
          exact hjj
        · have := hfact m hm ll (hb21 m ll (hb32 m ll hll))
          rw [sameTriFields_edge (F1 m) ll, sameTriFields_edge T1 1] at this
          exact this
      · rcases O3 with hl | ⟨_, hfact⟩
        · exact absurd hjj hl
        · have := hfact m hm ll (hb32 m ll hll)
          rw [sameTriFields_edge (F2 m) ll, sameTriFields_edge (F1 m) ll,
            sameTriFields_edge T2 2, sameTriFields_edge T1 2] at this
          exact this
    have hedgeRes : ∀ m, m < faces.length → ∀ jj : Fin 3,
        (getTri (AddFace faces tri0) m).edge jj = (getTri faces m).edge jj := by
      intro m hm jj
      rw [hres_lt m hm]
      exact sameTriFields_edge (Fc m) jj
    have hedgeResN : ∀ jj : Fin 3,
        (getTri (AddFace faces tri0) faces.length).edge jj = tri0.edge jj := by
      intro jj
      rw [hres_n]
      exact sameTriFields_edge Tc jj
    intro i i' j₂ j₂' hi hi' hpair ho1 ho2
    rw [hlenAF] at hi hi'
    by_cases hiN : i < faces.length
    · by_cases hiN' : i' < faces.length
      · rw [hedgeRes i hiN, hedgeRes i' hiN']
        refine hU i i' j₂ j₂' hiN hiN' hpair ?_ ?_
        · exact hback i j₂ (by rw [← hres_lt i hiN]; exact ho1)
        · exact hback i' j₂' (by rw [← hres_lt i' hiN']; exact ho2)
      · have hi'n : i' = faces.length := by omega
        subst hi'n
        rw [hedgeRes i hiN, hedgeResN]
        have hjjMAX : st3.2.neighbors_ j₂' = M_MAX_UNSIGNED := by
          rw [← hres_n]
          exact ho2
        exact hOpenNew j₂' hjjMAX i hiN j₂ (by rw [← hres_lt i hiN]; exact ho1)
    · have hin : i = faces.length := by omega
      subst hin
      by_cases hiN' : i' < faces.length
      · rw [hedgeResN, hedgeRes i' hiN']
        have hjjMAX : st3.2.neighbors_ j₂ = M_MAX_UNSIGNED := by
          rw [← hres_n]
          exact ho1
        exact fun hc =>
          hOpenNew j₂ hjjMAX i' hiN' j₂'
            (by rw [← hres_lt i' hiN']; exact ho2) hc.symm
      · have hi'n : i' = faces.length := by omega
        subst hi'n
        rw [hedgeResN, hedgeResN]
        refine hE j₂ j₂' ?_
        intro hc
        exact hpair (by rw [hc])

theorem addFaceFold_spec (l : List TetrahedralMeshSurfaceTriangle)
    (faces : List TetrahedralMeshSurfaceTriangle)
    (hlen : faces.length + l.length ≤ M_MAX_UNSIGNED)
    (hW : WellLinked faces)
    (htris : ∀ tri ∈ l, ∀ j : Fin 3, tri.neighbors_ j = M_MAX_UNSIGNED) :
    (l.foldl AddFace faces).length = faces.length + l.length ∧
    WellLinked (l.foldl AddFace faces) ∧
    (∀ i, i < faces.length →
      sameTriFields (getTri (l.foldl AddFace faces) i) (getTri faces i)) ∧
    (∀ m, m < l.length →
      sameTriFields (getTri (l.foldl AddFace faces) (faces.length + m))
        (l.getD m TetrahedralMeshSurfaceTriangle.empty)) := by
  induction l generalizing faces with
  | nil =>
    exact ⟨by simp, hW, fun i _ => sameTriFields_refl _,
      fun m hm => absurd hm (by simp)⟩
  | cons tri l' ih =>
    rw [List.length_cons] at hlen
    have hn : faces.length < M_MAX_UNSIGNED := by omega
    obtain ⟨a1, a2, a3, a4, _, _⟩ :=
      addFace_spec faces tri hn hW (htris tri (List.mem_cons_self tri l'))
    obtain ⟨i1, i2, i3, i4⟩ := ih (AddFace faces tri)
      (by rw [a1]; omega) a2
      (fun tr htr => htris tr (List.mem_cons_of_mem tri htr))
    rw [List.foldl_cons]
    refine ⟨by rw [i1, a1, List.length_cons]; omega, i2, ?_, ?_⟩
    · intro i hi
      exact sameTriFields_trans (i3 i (by omega)) (a3 i hi)
    · intro m hm
      cases m with
      | zero =>
        rw [List.getD_cons_zero, Nat.add_zero]
        exact sameTriFields_trans (i3 faces.length (by rw [a1]; omega)) a4
      | succ m' =>
        rw [List.length_cons] at hm
        have hidx : faces.length + (m' + 1) = (AddFace faces tri).length + m' := by
          rw [a1]
          omega
        rw [hidx, List.getD_cons_succ]
        exact i4 m' (by omega)

theorem normalizeHoleTriangle_tetIndex (vs : List Vec3)
    (tri : TetrahedralMeshSurfaceTriangle) :
    (normalizeHoleTriangle vs tri).tetIndex_ = tri.tetIndex_ := by
  simp only [normalizeHoleTriangle, TetrahedralMeshSurfaceTriangle.Normalize]
  split
  · rfl
  · split
    · split
      · rfl
      · rfl
    · rfl

theorem normalizeHoleTriangle_tetFace (vs : List Vec3)
    (tri : TetrahedralMeshSurfaceTriangle) :
    (normalizeHoleTriangle vs tri).tetFace_ = tri.tetFace_ := by
  simp only [normalizeHoleTriangle, TetrahedralMeshSurfaceTriangle.Normalize]
  split
  · rfl
  · split
    · split
      · rfl
      · rfl
    · rfl

theorem normalizeHoleTriangle_neighbors_max (vs : List Vec3)
    (tri : TetrahedralMeshSurfaceTriangle)
    (h : ∀ j : Fin 3, tri.neighbors_ j = M_MAX_UNSIGNED) :
    ∀ j : Fin 3, (normalizeHoleTriangle vs tri).neighbors_ j = M_MAX_UNSIGNED := by
  intro j
  simp only [normalizeHoleTriangle, TetrahedralMeshSurfaceTriangle.Normalize]
  split
  · exact h j
  · split
    · split
      · fin_cases j <;> simp [h 0, h 1, h 2]
      · exact h j
    · exact h j

theorem normalizeHoleTriangle_empty (vs : List Vec3) :
    normalizeHoleTriangle vs TetrahedralMeshSurfaceTriangle.empty =
      TetrahedralMeshSurfaceTriangle.empty := rfl

theorem collectHoleTriangles_length_le (tets : List Tetrahedron) (flags : List Bool)
    (R : List ℕ) :
    (collectHoleTriangles tets flags R).length ≤ 4 * R.length := by
  rw [collectHoleTriangles]
  induction R with
  | nil => simp
  | cons t R' ih =>
    rw [List.flatMap_cons, List.length_append, List.length_cons]
    have h1 : ∀ f : Fin 4 → Option TetrahedralMeshSurfaceTriangle,
        ((List.finRange 4).filterMap f).length ≤ 4 := by
      intro f
      calc _ ≤ (List.finRange 4).length := List.length_filterMap_le _ _
        _ = 4 := by simp
    exact le_trans (Nat.add_le_add (h1 _) ih) (by omega)

theorem nodup_lt_length_le (R : List ℕ) (m : ℕ) (hnd : R.Nodup)
    (hlt : ∀ n ∈ R, n < m) : R.length ≤ m := by
  have h1 : R.toFinset.card = R.length := List.toFinset_card_of_nodup hnd
  have h2 : R.toFinset ⊆ Finset.range m := by
    intro x hx
    rw [List.mem_toFinset] at hx
    rw [Finset.mem_range]
    exact hlt x hx
  have h3 := Finset.card_le_card h2
  rw [h1, Finset.card_range] at h3
  exact h3

theorem getD_mem_of_lt {α : Type} (l : List α) (i : ℕ) (d : α) (h : i < l.length) :
    l.getD i d ∈ l := by
  rw [List.getD_eq_getElem l d h]
  exact List.getElem_mem h

theorem nodup_getD_inj (l : List ℕ) (hnd : l.Nodup) (i j : ℕ) (d : ℕ)
    (hi : i < l.length) (hj : j < l.length) (hij : i ≠ j) :
    l.getD i d ≠ l.getD j d := by
  rw [List.getD_eq_getElem l d hi, List.getD_eq_getElem l d hj]
  intro hc
  exact hij (List.Nodup.getElem_inj_iff hnd |>.mp hc)

theorem pairwise_getD {α : Type} {P : α → α → Prop} (l : List α)
    (hpw : List.Pairwise P l) (d : α) (i j : ℕ) (hij : i < j) (hj : j < l.length) :
    P (l.getD i d) (l.getD j d) := by
  rw [List.getD_eq_getElem l d (lt_trans hij hj), List.getD_eq_getElem l d hj]
  exact List.pairwise_iff_getElem.mp hpw i j _ _ hij

theorem collectHoleTriangles_neighbors_max (tets : List Tetrahedron)
    (flags : List Bool) (R : List ℕ) :
    ∀ tri ∈ collectHoleTriangles tets flags R, ∀ j : Fin 3,
      tri.neighbors_ j = M_MAX_UNSIGNED := by
  intro tri htri j
  rw [collectHoleTriangles] at htri
  simp only [List.mem_flatMap, List.mem_filterMap] at htri
  obtain ⟨t, _, fi, _, hfi⟩ := htri
  by_cases hv : (getTet tets t).neighbors_ fi = M_MAX_UNSIGNED
  · rw [if_pos hv] at hfi
    have h := Option.some.inj hfi
    subst h
    rfl
  · rw [if_neg hv] at hfi
    by_cases hrem : removedAt flags ((getTet tets t).neighbors_ fi) = true
    · rw [if_pos hrem] at hfi
      exact absurd hfi (by simp)
    · rw [if_neg hrem] at hfi
      have h := Option.some.inj hfi
      subst h
      rw [Tetrahedron.GetTriangleFaceN]
      split
      · rfl
      · rfl

theorem carve_ok_spec (tets : List Tetrahedron) (vertices : List Vec3)
    (circumspheres : List HighPrecisionSphere) (removed0 : List Bool)
    (position : Vec3)
    (hok : (FindAndRemoveIntersected tets vertices circumspheres removed0 position
      false).ok = true) :
    ∃ seed,
      findFirstIntersected tets circumspheres removed0 position = some seed ∧
      (FindAndRemoveIntersected tets vertices circumspheres removed0 position false =
        ⟨(floodFillAux tets circumspheres position (removed0.set seed true) [seed] 0).1,
         ((collectHoleTriangles tets
             (floodFillAux tets circumspheres position
               (removed0.set seed true) [seed] 0).1
             (floodFillAux tets circumspheres position
               (removed0.set seed true) [seed] 0).2).map
           (normalizeHoleTriangle vertices)).foldl AddFace [],
         (floodFillAux tets circumspheres position (removed0.set seed true) [seed] 0).2,
         true⟩) ∧
      IsClosedSurface (((collectHoleTriangles tets
          (floodFillAux tets circumspheres position
            (removed0.set seed true) [seed] 0).1
          (floodFillAux tets circumspheres position
            (removed0.set seed true) [seed] 0).2).map
        (normalizeHoleTriangle vertices)).foldl AddFace []) = true := by
  cases hfind : findFirstIntersected tets circumspheres removed0 position with
  | none =>
    exfalso
    rw [FindAndRemoveIntersected, hfind] at hok
    exact absurd hok (by simp)
  | some seed =>
    refine ⟨seed, rfl, ?_⟩
    rw [FindAndRemoveIntersected, hfind] at hok ⊢
    simp only at hok ⊢
    by_cases hval : holeTrianglesValid vertices position
        (((collectHoleTriangles tets
            (floodFillAux tets circumspheres position
              (removed0.set seed true) [seed] 0).1
            (floodFillAux tets circumspheres position
              (removed0.set seed true) [seed] 0).2)).map
          (normalizeHoleTriangle vertices)) = true
    · rw [if_neg (by simp [hval])] at hok ⊢
      by_cases hcl : IsClosedSurface (((collectHoleTriangles tets
          (floodFillAux tets circumspheres position
            (removed0.set seed true) [seed] 0).1
          (floodFillAux tets circumspheres position
            (removed0.set seed true) [seed] 0).2).map
        (normalizeHoleTriangle vertices)).foldl AddFace []) = true
      · rw [if_pos hcl]
        exact ⟨rfl, hcl⟩
      · exfalso
        rw [if_neg hcl] at hok
        exact absurd hok (by simp)
    · exfalso
      rw [if_pos (by simp [Bool.eq_false_iff.mpr hval])] at hok
      exact absurd hok (by simp)

theorem addFaceFold_open (l : List TetrahedralMeshSurfaceTriangle)
    (faces : List TetrahedralMeshSurfaceTriangle)
    (hlen : faces.length + l.length ≤ M_MAX_UNSIGNED)
    (hW : WellLinked faces)
    (htris : ∀ tri ∈ l, ∀ j : Fin 3, tri.neighbors_ j = M_MAX_UNSIGNED)
    (hU : openSlotsEdgeDistinct faces)
    (hEs : ∀ tri ∈ l, triEdgesDistinct tri) :
    openSlotsEdgeDistinct (l.foldl AddFace faces) := by
  induction l generalizing faces with
  | nil => exact hU
  | cons tri l' ih =>
    rw [List.length_cons] at hlen
    have hn : faces.length < M_MAX_UNSIGNED := by omega
    obtain ⟨a1, a2, _, _, _, a6⟩ :=
      addFace_spec faces tri hn hW (htris tri (List.mem_cons_self tri l'))
    rw [List.foldl_cons]
    exact ih (AddFace faces tri) (by rw [a1]; omega) a2
      (fun tr htr => htris tr (List.mem_cons_of_mem tri htr))
      (a6 hU (hEs tri (List.mem_cons_self tri l')))
      (fun tr htr => hEs tr (List.mem_cons_of_mem tri htr))

/-- A committed insertion keeps adjacency symmetric: if the state satisfies
the construction invariant and `insertVertexStep` reports success, the
resulting cell array passes `IsAdjacencyValid false`. -/
theorem insertVertexStep_adjacency (st : DelaunayState) (newVertexIndex : ℕ)
    (hInv : meshInvariantHolds st.tets st.removed = true)
    (hsph : st.circumspheres.length = st.tets.length)
    (hok : (insertVertexStep st newVertexIndex).2 = true) :
    IsAdjacencyValid (insertVertexStep st newVertexIndex).1.tets false = true := by
  obtain ⟨hlenRem, hmax4, hadj, hself, hrange, hdist, _hjunk⟩ :=
    meshInvariant_props st.tets st.removed hInv
  have hmaxlen : st.tets.length < M_MAX_UNSIGNED := by omega
  have hmaxle : st.tets.length ≤ M_MAX_UNSIGNED := by omega
  have hsymE : ∀ i, i < st.tets.length → ∀ f : Fin 4,
      (getTet st.tets i).neighbors_ f ≠ M_MAX_UNSIGNED →
      ∃ g : Fin 4, (getTet st.tets ((getTet st.tets i).neighbors_ f)).neighbors_ g = i := by
    intro i hi f hf
    have h := ((isAdjacencyValid_iff st.tets false).mp hadj i hi f).2 hf
    exact (hasNeighbor_iff _ _).mp h
  simp only [insertVertexStep] at hok ⊢
  by_cases hr : (FindAndRemoveIntersected st.tets st.vertices st.circumspheres
      st.removed (getVec st.vertices newVertexIndex) false).ok = true
  case neg =>
    exfalso
    rw [if_neg hr] at hok
    exact absurd hok (by simp)
  rw [if_pos hr] at hok ⊢
  obtain ⟨seed, hfind, hcarve, hclosed⟩ :=
    carve_ok_spec st.tets st.vertices st.circumspheres st.removed
      (getVec st.vertices newVertexIndex) hr
  rw [hcarve]
  dsimp only
  set pos := getVec st.vertices newVertexIndex with hposdef
  set fl := floodFillAux st.tets st.circumspheres pos (st.removed.set seed true) [seed] 0
    with hfldef
  set hts₀ := collectHoleTriangles st.tets fl.1 fl.2 with hts₀def
  set hts := hts₀.map (normalizeHoleTriangle st.vertices) with htsdef
  set hs := hts.foldl AddFace [] with hsdef
  set ST1 : DelaunayState :=
    { st with removed := fl.1, tets := DisconnectRemovedTetrahedrons st.tets fl.2 }
    with hST1def
  -- flood facts
  obtain ⟨extra, hq1, hq2, hq3⟩ :=
    floodFillAux_spec st.tets st.circumspheres pos (st.removed.set seed true) [seed] 0
  rw [← hfldef] at hq1 hq2
  have hseedF : st.removed.getD seed true = false :=
    findFirstIntersected_live _ _ _ _ _ hfind
  have hseedlen : seed < st.removed.length := lt_length_of_getD_false _ _ hseedF
  have hRnodup : fl.2.Nodup := by
    refine floodFillAux_nodup _ _ _ _ _ _ (by simp) ?_
    intro n hn
    rw [List.mem_singleton] at hn
    subst hn
    rw [getD_set_true, if_pos rfl]
  have hRdef : fl.2 = seed :: extra := by
    rw [hq1]
    rfl
  have hextralen : ∀ n ∈ extra, n < st.removed.length := by
    intro n hn
    have h := lt_length_of_getD_false _ n (hq3 n hn)
    rw [List.length_set] at h
    exact h
  have hRlen : ∀ n ∈ fl.2, n < st.tets.length := by
    intro n hn
    rw [hRdef, List.mem_cons] at hn
    rcases hn with rfl | hn
    · omega
    · have := hextralen n hn
      omega
  have hRmark : ∀ n ∈ fl.2, removedAt fl.1 n = true := by
    intro n hn
    rw [removedAt, hq2, getD_foldl_set_true]
    by_cases hm : n ∈ extra
    · rw [if_pos hm]
    · rw [if_neg hm, getD_set_true]
      rw [hRdef, List.mem_cons] at hn
      rcases hn with rfl | hn
      · rw [if_pos rfl]
      · exact absurd hn hm
  have hFlFrame : ∀ n, n ∉ fl.2 → fl.1.getD n true = st.removed.getD n true := by
    intro n hn
    rw [hq2, getD_foldl_set_true,
      if_neg (fun hc => hn (by rw [hRdef]; exact List.mem_cons_of_mem _ hc)),
      getD_set_true,
      if_neg (fun hc => hn (by rw [hRdef, hc]; exact List.mem_cons_self _ _))]
  have hFlLen : fl.1.length = st.removed.length := by
    rw [hq2, length_foldl_set, List.length_set]
  have hRlenBound : fl.2.length ≤ st.tets.length :=
    nodup_lt_length_le _ _ hRnodup hRlen
  -- collect and surface facts
  have hcollen : hts₀.length ≤ 4 * fl.2.length :=
    collectHoleTriangles_length_le st.tets fl.1 fl.2
  have hfields0 :=
    collectHoleTriangles_fields st.tets fl.1 fl.2 hmaxle hRlen hrange hdist hsymE
  have hpw0 :=
    collectHoleTriangles_pairwise st.tets fl.1 fl.2 hmaxle hRlen hRnodup hrange
      hdist hsymE
  have htslen : hts.length = hts₀.length := by
    rw [htsdef, List.length_map]
  have hts_getD : ∀ m, hts.getD m TetrahedralMeshSurfaceTriangle.empty =
      normalizeHoleTriangle st.vertices
        (hts₀.getD m TetrahedralMeshSurfaceTriangle.empty) := by
    intro m
    rw [htsdef]
    by_cases hm : m < hts₀.length
    · rw [List.getD_eq_getElem _ _ (by rw [List.length_map]; exact hm),
        List.getElem_map, List.getD_eq_getElem _ _ hm]
    · rw [List.getD_eq_default _ _ (by rw [List.length_map]; omega),
        List.getD_eq_default _ _ (by omega), normalizeHoleTriangle_empty]
  have htrisMax : ∀ tri ∈ hts, ∀ j : Fin 3, tri.neighbors_ j = M_MAX_UNSIGNED := by
    intro tri htri j
    rw [htsdef, List.mem_map] at htri
    obtain ⟨tri₀, htri₀, rfl⟩ := htri
    exact normalizeHoleTriangle_neighbors_max st.vertices tri₀
      (collectHoleTriangles_neighbors_max st.tets fl.1 fl.2 tri₀ htri₀) j
  obtain ⟨hsLen0, hsW, _, hsF0⟩ := addFaceFold_spec hts []
    (by
      simp only [List.length_nil]
      have := hRlenBound
      omega)
    (fun i j hi => absurd hi (by simp)) htrisMax
  have hsLen : hs.length = hts₀.length := by
    rw [hsdef, hsLen0, List.length_nil, htslen]
    omega
  have hsFields : ∀ k, k < hs.length →
      sameTriFields (getTri hs k)
        (normalizeHoleTriangle st.vertices
          (hts₀.getD k TetrahedralMeshSurfaceTriangle.empty)) := by
    intro k hk
    have h := hsF0 k (by rw [htslen]; rw [hsLen] at hk; exact hk)
    rw [hts_getD k] at h
    simpa using h
  have hsTI : ∀ k, k < hs.length → (getTri hs k).tetIndex_ =
      (hts₀.getD k TetrahedralMeshSurfaceTriangle.empty).tetIndex_ := by
    intro k hk
    rw [(hsFields k hk).2.1, normalizeHoleTriangle_tetIndex]
  have hsTF : ∀ k, k < hs.length → (getTri hs k).tetFace_ =
      (hts₀.getD k TetrahedralMeshSurfaceTriangle.empty).tetFace_ := by
    intro k hk
    rw [(hsFields k hk).2.2.1, normalizeHoleTriangle_tetFace]
  have hkfacts : ∀ k, k < hs.length →
      (getTri hs k).tetIndex_ = M_MAX_UNSIGNED ∨
      ((getTri hs k).tetIndex_ < st.tets.length ∧
        removedAt fl.1 (getTri hs k).tetIndex_ = false ∧
        ∃ gf : Fin 4, (getTri hs k).tetFace_ = gf.val ∧
          (getTet st.tets (getTri hs k).tetIndex_).neighbors_ gf ∈ fl.2) := by
    intro k hk
    rw [hsTI k hk, hsTF k hk]
    exact hfields0 _ (getD_mem_of_lt _ k _ (by rw [← hsLen]; exact hk))
  have hpwHs : ∀ i j, i < hs.length → j < hs.length → i ≠ j →
      (getTri hs i).tetIndex_ ≠ M_MAX_UNSIGNED →
      ¬((getTri hs i).tetIndex_ = (getTri hs j).tetIndex_ ∧
        (getTri hs i).tetFace_ = (getTri hs j).tetFace_) := by
    intro i j hi hj hij hMAX hc
    rw [hsTI i hi] at hMAX
    rw [hsTI i hi, hsTF i hi, hsTI j hj, hsTF j hj] at hc
    rcases Nat.lt_or_ge i j with hlt | hge
    · have hp := pairwise_getD hts₀ hpw0 TetrahedralMeshSurfaceTriangle.empty i j hlt
        (by rw [← hsLen]; exact hj)
      rcases hp with h | h | h
      · exact hMAX h
      · exact hMAX (hc.1.trans h)
      · exact h hc
    · have hji : j < i := by omega
      have hp := pairwise_getD hts₀ hpw0 TetrahedralMeshSurfaceTriangle.empty j i hji
        (by rw [← hsLen]; exact hi)
      rcases hp with h | h | h
      · exact hMAX (hc.1.trans h)
      · exact hMAX h
      · exact h ⟨hc.1.symm, hc.2.symm⟩
  -- disconnect facts
  obtain ⟨d1, d2, d3⟩ :=
    disconnectRemoved_spec fl.2 st.tets hmaxle hRlen hself hdist hsymE
  have hST1tets : ST1.tets = DisconnectRemovedTetrahedrons st.tets fl.2 := rfl
  have hST1rem : ST1.removed = fl.1 := rfl
  have hST1sph : ST1.circumspheres = st.circumspheres := rfl
  have hlenST1 : ST1.tets.length = st.tets.length := by rw [hST1tets]; exact d1
  -- allocation facts
  obtain ⟨al1, al2, al3, _, al5, al6, al7, al8, al9, _, _, _⟩ :=
    allocateSlots_spec ST1 fl.2 hs.length
  set alloc := allocateSlots ST1 fl.2 hs.length with hallocdef
  set out := alloc.2 with houtdef
  have hallocLen : alloc.1.tets.length =
      st.tets.length + (hs.length - fl.2.length) := by
    rw [hallocdef, al5, hlenST1]
  have houtlenb : out.length ≤ 4 * st.tets.length := by
    rw [houtdef, hallocdef, al1]
    have h1 : hs.length ≤ 4 * st.tets.length := by
      rw [hsLen]
      omega
    omega
  have houtval : ∀ i, i < hs.length →
      (i < fl.2.length ∧ out.getD i M_MAX_UNSIGNED = fl.2.getD i M_MAX_UNSIGNED) ∨
      (fl.2.length ≤ i ∧
        out.getD i M_MAX_UNSIGNED = st.tets.length + (i - fl.2.length)) := by
    intro i hi
    by_cases hiR : i < fl.2.length
    · exact Or.inl ⟨hiR, al2 i hiR⟩
    · refine Or.inr ⟨by omega, ?_⟩
      rw [houtdef, hallocdef, al3 i (by omega) (by rw [al1]; omega), hlenST1]
  have houtlt : ∀ i, i < hs.length →
      out.getD i M_MAX_UNSIGNED < alloc.1.tets.length := by
    intro i hi
    rcases houtval i hi with ⟨hiR, hv⟩ | ⟨hiR, hv⟩
    · rw [hv]
      have hmem := hRlen _ (getD_mem_of_lt fl.2 i M_MAX_UNSIGNED hiR)
      rw [hallocLen]
      omega
    · rw [hv, hallocLen]
      omega
  have houtdist : ∀ i j, i < hs.length → j < hs.length → i ≠ j →
      out.getD i M_MAX_UNSIGNED ≠ out.getD j M_MAX_UNSIGNED := by
    intro i j hi hj hij
    rcases houtval i hi with ⟨hiR, hvi⟩ | ⟨hiR, hvi⟩ <;>
      rcases houtval j hj with ⟨hjR, hvj⟩ | ⟨hjR, hvj⟩
    · rw [hvi, hvj]
      exact nodup_getD_inj fl.2 hRnodup i j M_MAX_UNSIGNED hiR hjR hij
    · rw [hvi, hvj]
      have := hRlen _ (getD_mem_of_lt fl.2 i M_MAX_UNSIGNED hiR)
      omega
    · rw [hvi, hvj]
      have := hRlen _ (getD_mem_of_lt fl.2 j M_MAX_UNSIGNED hjR)
      omega
    · rw [hvi, hvj]
      omega
  have houtRorFresh : ∀ i, i < hs.length →
      out.getD i M_MAX_UNSIGNED ∈ fl.2 ∨
        st.tets.length ≤ out.getD i M_MAX_UNSIGNED := by
    intro i hi
    rcases houtval i hi with ⟨hiR, hv⟩ | ⟨hiR, hv⟩
    · rw [hv]
      exact Or.inl (getD_mem_of_lt _ _ _ hiR)
    · rw [hv]
      exact Or.inr (by omega)
  -- fill-invariant hypotheses
  have hfill_back : ∀ i, i < hs.length → (getTri hs i).tetIndex_ ≠ M_MAX_UNSIGNED →
      ∀ j, j < hs.length → out.getD j M_MAX_UNSIGNED ≠ (getTri hs i).tetIndex_ := by
    intro i hi hMAX j hj
    rcases hkfacts i hi with h | ⟨hlt, hlive, _⟩
    · exact absurd h hMAX
    rcases houtRorFresh j hj with hmem | hge
    · intro hc
      have hm := hRmark _ hmem
      rw [hc] at hm
      rw [hm] at hlive
      exact absurd hlive (by simp)
    · intro hc
      omega
  have hfill_bidx : ∀ i, i < hs.length → (getTri hs i).tetIndex_ ≠ M_MAX_UNSIGNED →
      (getTri hs i).tetIndex_ < alloc.1.tets.length := by
    intro i hi hMAX
    rcases hkfacts i hi with h | ⟨hlt, _, _⟩
    · exact absurd h hMAX
    · rw [hallocLen]
      omega
  have hfill_face4 : ∀ i, i < hs.length → (getTri hs i).tetIndex_ ≠ M_MAX_UNSIGNED →
      (getTri hs i).tetFace_ < 4 := by
    intro i hi hMAX
    rcases hkfacts i hi with h | ⟨_, _, gf, hgf1, _⟩
    · exact absurd h hMAX
    · rw [hgf1]
      exact gf.isLt
  have hfill_lenR : alloc.1.removed.length = alloc.1.tets.length := by
    rw [hallocdef, al5, al6, hST1rem, hFlLen, hlenST1, hlenRem]
  have hfill_lenS : alloc.1.circumspheres.length = alloc.1.tets.length := by
    rw [hallocdef, al5, al7, hST1sph, hsph, hlenST1]
  obtain ⟨h1, h2, h3, h4, h5, h6, h7, h8, h9, h10, h11, h12, h13⟩ :=
    fillStarShapedHole_invariant alloc.1 out hs newVertexIndex houtdist houtlt
      hfill_back hfill_bidx hfill_face4 hpwHs hfill_lenR hfill_lenS hs.length
      (le_refl _)
  rw [FillStarShapedHole]
  rw [isAdjacencyValid_iff]
  intro idx hidx f
  refine ⟨fun _ => rfl, ?_⟩
  intro hne
  rw [h2] at hidx
  by_cases hout : ∃ i, i < hs.length ∧ out.getD i M_MAX_UNSIGNED = idx
  · -- a freshly filled cell
    obtain ⟨i, hi, hoi⟩ := hout
    have hcell : getTet ((List.range hs.length).foldl
        (fillOneCell out hs newVertexIndex) alloc.1).tets idx =
        fillCellValue alloc.1.tets out hs newVertexIndex i := by
      rw [← hoi]
      exact h5 i hi
    rw [hcell] at hne ⊢
    have hlink : ∀ jf : Fin 3,
        out.getD ((getTri hs i).neighbors_ jf) M_MAX_UNSIGNED ≠ M_MAX_UNSIGNED →
        (getTet ((List.range hs.length).foldl
            (fillOneCell out hs newVertexIndex) alloc.1).tets
          (out.getD ((getTri hs i).neighbors_ jf) M_MAX_UNSIGNED)).HasNeighbor idx =
          true := by
      intro jf hneo
      have hlMAX : (getTri hs i).neighbors_ jf ≠ M_MAX_UNSIGNED := by
        intro hc
        apply hneo
        rw [hc, List.getD_eq_default]
        omega
      obtain ⟨hlk, _, j', hj'1, _⟩ := hsW i jf hi hlMAX
      have hcell2 : getTet ((List.range hs.length).foldl
          (fillOneCell out hs newVertexIndex) alloc.1).tets
            (out.getD ((getTri hs i).neighbors_ jf) M_MAX_UNSIGNED) =
          fillCellValue alloc.1.tets out hs newVertexIndex
            ((getTri hs i).neighbors_ jf) :=
        h5 _ hlk
      rw [hcell2, hasNeighbor_iff]
      refine ⟨⟨j'.val, by omega⟩, ?_⟩
      have hslot : (fillCellValue alloc.1.tets out hs newVertexIndex
          ((getTri hs i).neighbors_ jf)).neighbors_ ⟨j'.val, by omega⟩ =
          out.getD ((getTri hs ((getTri hs i).neighbors_ jf)).neighbors_ j')
            M_MAX_UNSIGNED := by
        fin_cases j' <;> rfl
      rw [hslot, hj'1, hoi]
    have hback3 : (getTri hs i).tetIndex_ ≠ M_MAX_UNSIGNED →
        (getTet ((List.range hs.length).foldl
            (fillOneCell out hs newVertexIndex) alloc.1).tets
          (getTri hs i).tetIndex_).HasNeighbor idx = true := by
      intro hneTI
      have hmirror := h6 i hi hneTI
      have h4' : (getTri hs i).tetFace_ < 4 := hfill_face4 i hi hneTI
      rw [hasNeighbor_iff]
      refine ⟨⟨(getTri hs i).tetFace_, h4'⟩, ?_⟩
      have hconv : (getTet ((List.range hs.length).foldl
          (fillOneCell out hs newVertexIndex) alloc.1).tets
            (getTri hs i).tetIndex_).neighbors_ ⟨(getTri hs i).tetFace_, h4'⟩ =
          (getTet ((List.range hs.length).foldl
            (fillOneCell out hs newVertexIndex) alloc.1).tets
              (getTri hs i).tetIndex_).neighborN (getTri hs i).tetFace_ :=
        (neighborN_eq _ ⟨(getTri hs i).tetFace_, h4'⟩).symm
      rw [hconv, hmirror, hoi]
    fin_cases f
    · exact hlink 0 hne
    · exact hlink 1 hne
    · exact hlink 2 hne
    · exact hback3 hne
  · push_neg at hout
    by_cases hbface : ∃ i, i < hs.length ∧ (getTri hs i).tetIndex_ ≠ M_MAX_UNSIGNED ∧
        (getTri hs i).tetIndex_ = idx ∧ (getTri hs i).tetFace_ = f.val
    · obtain ⟨i, hi, hMAXi, hTIi, hTFi⟩ := hbface
      have hmirror := h6 i hi hMAXi
      rw [hTIi, hTFi] at hmirror
      have hval : (getTet ((List.range hs.length).foldl
          (fillOneCell out hs newVertexIndex) alloc.1).tets idx).neighbors_ f =
          out.getD i M_MAX_UNSIGNED := by
        rw [← neighborN_eq]
        exact hmirror
      rw [hval]
      have hcell : getTet ((List.range hs.length).foldl
          (fillOneCell out hs newVertexIndex) alloc.1).tets
            (out.getD i M_MAX_UNSIGNED) =
          fillCellValue alloc.1.tets out hs newVertexIndex i := h5 i hi
      rw [hcell, hasNeighbor_iff]
      refine ⟨3, ?_⟩
      have he3 : (fillCellValue alloc.1.tets out hs newVertexIndex i).neighbors_
          (3 : Fin 4) = (getTri hs i).tetIndex_ := rfl
      rw [he3, hTIi]
    · have hnoback : ∀ i, i < hs.length →
          ¬((getTri hs i).tetIndex_ ≠ M_MAX_UNSIGNED ∧
            (getTri hs i).tetIndex_ = idx ∧ (getTri hs i).tetFace_ = f.val) := by
        intro i hi hc
        exact hbface ⟨i, hi, hc.1, hc.2.1, hc.2.2⟩
      have hframe := h9 idx f.val (fun i hi => hout i hi) hnoback
      have hval0 : (getTet ((List.range hs.length).foldl
          (fillOneCell out hs newVertexIndex) alloc.1).tets idx).neighbors_ f =
          (getTet alloc.1.tets idx).neighbors_ f := by
        rw [← neighborN_eq, hframe, neighborN_eq]
      rw [hval0] at hne ⊢
      by_cases hidxlen : idx < st.tets.length
      case neg =>
        exfalso
        apply hne
        rw [hallocdef, al9 idx (by rw [hlenST1]; omega)]
        exact empty_neighbors f
      have hcellA : getTet alloc.1.tets idx =
          getTet (DisconnectRemovedTetrahedrons st.tets fl.2) idx := by
        rw [hallocdef, al8 idx (by rw [hlenST1]; exact hidxlen), hST1tets]
      rw [hcellA, d3 idx f] at hne ⊢
      by_cases hidxR : idx ∈ fl.2
      · rw [if_pos hidxR] at hne
        exact absurd rfl hne
      rw [if_neg hidxR] at hne ⊢
      by_cases hslotR : (getTet st.tets idx).neighbors_ f ∈ fl.2
      · rw [if_pos hslotR] at hne
        exact absurd rfl hne
      rw [if_neg hslotR] at hne ⊢
      have hwlen : (getTet st.tets idx).neighbors_ f < st.tets.length :=
        (hrange idx hidxlen f).resolve_left hne
      obtain ⟨g₁, hg₁⟩ := hsymE idx hidxlen f hne
      have hwnotout : ∀ i, i < hs.length →
          out.getD i M_MAX_UNSIGNED ≠ (getTet st.tets idx).neighbors_ f := by
        intro i hi hc
        rcases houtRorFresh i hi with hmem | hge
        · rw [hc] at hmem
          exact hslotR hmem
        · omega
      have hwnoback : ∀ i, i < hs.length →
          ¬((getTri hs i).tetIndex_ ≠ M_MAX_UNSIGNED ∧
            (getTri hs i).tetIndex_ = (getTet st.tets idx).neighbors_ f ∧
            (getTri hs i).tetFace_ = g₁.val) := by
        rintro i hi ⟨hMAXi, hTIi, hTFi⟩
        rcases hkfacts i hi with h | ⟨_, _, gf, hgf1, hgf2⟩
        · exact hMAXi h
        have hgfg : gf = g₁ := Fin.ext (by rw [← hgf1, hTFi])
        rw [hTIi, hgfg, hg₁] at hgf2
        exact hidxR hgf2
      have hwslot := h9 ((getTet st.tets idx).neighbors_ f) g₁.val hwnotout hwnoback
      rw [hasNeighbor_iff]
      refine ⟨g₁, ?_⟩
      rw [← neighborN_eq, hwslot, neighborN_eq]
      have hcellW : getTet alloc.1.tets ((getTet st.tets idx).neighbors_ f) =
          getTet (DisconnectRemovedTetrahedrons st.tets fl.2)
            ((getTet st.tets idx).neighbors_ f) := by
        rw [hallocdef, al8 _ (by rw [hlenST1]; exact hwlen), hST1tets]
      rw [hcellW, d3 _ g₁, if_neg hslotR, hg₁, if_neg hidxR]

theorem normalize_empty (vs : List Vec3) :
    TetrahedralMeshSurfaceTriangle.empty.Normalize vs =
      TetrahedralMeshSurfaceTriangle.empty := rfl

theorem swap3_invol (j : Fin 3) : swap3 (swap3 j) = j := by
  fin_cases j <;> rfl

/-- `Normalize` leaves the back-reference alone and either keeps the triangle
or swaps corners 1 and 2; in the latter case both the edge links and the edge
vertex pairs are permuted by `swap3`. -/
theorem normalize_perm (tri : TetrahedralMeshSurfaceTriangle) (vs : List Vec3) :
    (tri.Normalize vs).tetIndex_ = tri.tetIndex_ ∧
    (tri.Normalize vs).tetFace_ = tri.tetFace_ ∧
    ((∀ j : Fin 3, (tri.Normalize vs).neighbors_ j = tri.neighbors_ j) ∧
      (∀ j : Fin 3, (tri.Normalize vs).edge j = tri.edge j) ∨
     (∀ j : Fin 3, (tri.Normalize vs).neighbors_ j = tri.neighbors_ (swap3 j)) ∧
      (∀ j : Fin 3, (tri.Normalize vs).edge j = tri.edge (swap3 j))) := by
  simp only [TetrahedralMeshSurfaceTriangle.Normalize]
  split
  · split
    · refine ⟨rfl, rfl, Or.inr ⟨?_, ?_⟩⟩
      · intro j
        fin_cases j <;> rfl
      · intro j
        fin_cases j
        · show (min (tri.indices_ 2) (tri.indices_ 1),
              max (tri.indices_ 2) (tri.indices_ 1)) =
            (min (tri.indices_ 1) (tri.indices_ 2),
              max (tri.indices_ 1) (tri.indices_ 2))
          rw [min_comm (tri.indices_ 2) (tri.indices_ 1),
            max_comm (tri.indices_ 2) (tri.indices_ 1)]
        · show (min (tri.indices_ 1) (tri.indices_ 0),
              max (tri.indices_ 1) (tri.indices_ 0)) =
            (min (tri.indices_ 0) (tri.indices_ 1),
              max (tri.indices_ 0) (tri.indices_ 1))
          rw [min_comm (tri.indices_ 1) (tri.indices_ 0),
            max_comm (tri.indices_ 1) (tri.indices_ 0)]
        · show (min (tri.indices_ 0) (tri.indices_ 2),
              max (tri.indices_ 0) (tri.indices_ 2)) =
            (min (tri.indices_ 2) (tri.indices_ 0),
              max (tri.indices_ 2) (tri.indices_ 0))
          rw [min_comm (tri.indices_ 0) (tri.indices_ 2),
            max_comm (tri.indices_ 0) (tri.indices_ 2)]
    · exact ⟨rfl, rfl, Or.inl ⟨fun j => rfl, fun j => rfl⟩⟩
  · exact ⟨rfl, rfl, Or.inl ⟨fun j => rfl, fun j => rfl⟩⟩

theorem normalize_getTri (vs : List Vec3)
    (faces : List TetrahedralMeshSurfaceTriangle) (k : ℕ) :
    getTri (faces.map fun t => t.Normalize vs) k = (getTri faces k).Normalize vs := by
  rw [getTri, getTri]
  calc (faces.map fun t => t.Normalize vs).getD k TetrahedralMeshSurfaceTriangle.empty
      = (faces.map fun t => t.Normalize vs).getD k
          (TetrahedralMeshSurfaceTriangle.empty.Normalize vs) := by
        rw [normalize_empty]
    _ = (faces.getD k TetrahedralMeshSurfaceTriangle.empty).Normalize vs :=
        List.getD_map faces TetrahedralMeshSurfaceTriangle.empty
          (fun t => t.Normalize vs)

theorem filter_length_swap3 (p : Fin 3 → Bool) :
    ((List.finRange 3).filter fun j => p (swap3 j)).length =
      ((List.finRange 3).filter p).length := by
  cases hp0 : p 0 <;> cases hp1 : p 1 <;> cases hp2 : p 2 <;>
    simp [show (List.finRange 3) = [0, 1, 2] from by decide, List.filter_cons,
      show swap3 0 = 0 from rfl, show swap3 1 = 2 from rfl, show swap3 2 = 1 from rfl,
      hp0, hp1, hp2]

theorem length_flatMap_eq {α β : Type} (l : List α) (f : α → List β) :
    (l.flatMap f).length = (l.map fun a => (f a).length).sum := by
  induction l with
  | nil => rfl
  | cons a t ih =>
    rw [List.flatMap_cons, List.length_append, List.map_cons, List.sum_cons, ih]

theorem normalize_edgeCount (vs : List Vec3)
    (faces : List TetrahedralMeshSurfaceTriangle) (e : ℕ × ℕ) :
    edgeCount (faces.map fun t => t.Normalize vs) e = edgeCount faces e := by
  rw [edgeCount, edgeCount, List.length_map]
  congr 1
  apply List.map_congr_left
  intro k _
  have hget := normalize_getTri vs faces k
  rcases (normalize_perm (getTri faces k) vs).2.2 with ⟨_, hE⟩ | ⟨_, hE⟩
  · congr 1
    apply List.filter_congr
    intro j _
    rw [hget, hE j]
  · calc ((List.finRange 3).filter fun l =>
          decide ((getTri (faces.map fun t => t.Normalize vs) k).edge l = e)).length
        = ((List.finRange 3).filter fun l =>
            decide ((getTri faces k).edge (swap3 l) = e)).length := by
          congr 1
          apply List.filter_congr
          intro j _
          rw [hget, hE j]
      _ = ((List.finRange 3).filter fun l =>
            decide ((getTri faces k).edge l = e)).length :=
          filter_length_swap3 (fun l => decide ((getTri faces k).edge l = e))

/-- If the normalized surface is closed then so is the unnormalized one:
normalization permutes each triangle's edges in place, so edge counts are
unchanged. -/
theorem normalize_closed (vs : List Vec3)
    (faces : List TetrahedralMeshSurfaceTriangle)
    (h : IsClosedSurface (faces.map fun t => t.Normalize vs) = true) :
    IsClosedSurface faces = true := by
  rw [IsClosedSurface] at h ⊢
  simp only [List.all_eq_true, List.mem_range, List.mem_finRange, beq_iff_eq,
    List.length_map] at h ⊢
  intro i hi j hj
  have hget := normalize_getTri vs faces i
  rcases (normalize_perm (getTri faces i) vs).2.2 with ⟨_, hE⟩ | ⟨_, hE⟩
  · have hh := h i hi j hj
    rw [normalize_edgeCount, hget, hE j] at hh
    exact hh
  · have hh := h i hi (swap3 j) trivial
    rw [normalize_edgeCount, hget, hE (swap3 j), swap3_invol j] at hh
    exact hh

theorem edgeCount_eq_slots (faces : List TetrahedralMeshSurfaceTriangle)
    (e : ℕ × ℕ) :
    edgeCount faces e = (edgeSlots faces e).length := by
  rw [edgeCount, edgeSlots, length_flatMap_eq]
  congr 1
  apply List.map_congr_left
  intro k _
  rw [List.length_map]

theorem edgeSlots_mem (faces : List TetrahedralMeshSurfaceTriangle) (e : ℕ × ℕ)
    (k : ℕ) (l : Fin 3) :
    (k, l) ∈ edgeSlots faces e ↔ k < faces.length ∧ (getTri faces k).edge l = e := by
  rw [edgeSlots]
  constructor
  · intro hm
    rw [List.mem_flatMap] at hm
    obtain ⟨k', hk', hm⟩ := hm
    rw [List.mem_map] at hm
    obtain ⟨l', hl', hpair⟩ := hm
    cases hpair
    rw [List.mem_range] at hk'
    rw [List.mem_filter, decide_eq_true_eq] at hl'
    exact ⟨hk', hl'.2⟩
  · intro hkl
    rw [List.mem_flatMap]
    exact ⟨k, List.mem_range.mpr hkl.1,
      List.mem_map.mpr ⟨l,
        List.mem_filter.mpr ⟨List.mem_finRange l, decide_eq_true hkl.2⟩, rfl⟩⟩

theorem edgeSlots_nodup (faces : List TetrahedralMeshSurfaceTriangle) (e : ℕ × ℕ) :
    (edgeSlots faces e).Nodup := by
  rw [edgeSlots, List.nodup_flatMap]
  refine ⟨?_, ?_⟩
  · intro k _
    refine List.Nodup.map ?_ (List.Nodup.filter _ (List.nodup_finRange 3))
    intro a b hab
    injection hab with h1 h2
  · refine List.Pairwise.imp ?_ (List.pairwise_lt_range faces.length)
    intro k k' hkk x hx hx'
    rw [List.mem_map] at hx hx'
    obtain ⟨a, _, rfl⟩ := hx
    obtain ⟨b, _, hb⟩ := hx'
    injection hb with h1 h2
    omega

theorem nodup_three_le {α : Type} [DecidableEq α] (l : List α) (hnd : l.Nodup)
    (a b c : α) (ha : a ∈ l) (hb : b ∈ l) (hc : c ∈ l)
    (hab : a ≠ b) (hac : a ≠ c) (hbc : b ≠ c) : 3 ≤ l.length := by
  have hsub : ({a, b, c} : Finset α) ⊆ l.toFinset := by
    intro x hx
    rw [List.mem_toFinset]
    rcases Finset.mem_insert.mp hx with rfl | hx'
    · exact ha
    rcases Finset.mem_insert.mp hx' with rfl | hx''
    · exact hb
    rw [Finset.mem_singleton] at hx''
    subst hx''
    exact hc
  have hcard : ({a, b, c} : Finset α).card = 3 := by
    rw [Finset.card_insert_of_not_mem (by
        rw [Finset.mem_insert, Finset.mem_singleton]
        rintro (h | h)
        · exact hab h
        · exact hac h),
      Finset.card_insert_of_not_mem (by
        rw [Finset.mem_singleton]
        exact hbc),
      Finset.card_singleton]
  calc 3 = ({a, b, c} : Finset α).card := hcard.symm
    _ ≤ l.toFinset.card := Finset.card_le_card hsub
    _ = l.length := List.toFinset_card_of_nodup hnd

theorem length_two_other {α : Type} (l : List α) (hlen : l.length = 2)
    (hnd : l.Nodup) (a : α) (ha : a ∈ l) : ∃ p ∈ l, p ≠ a := by
  cases l with
  | nil => simp at hlen
  | cons x t =>
    cases t with
    | nil => simp at hlen
    | cons y t2 =>
      cases t2 with
      | cons z t3 =>
        rw [List.length_cons, List.length_cons, List.length_cons] at hlen
        omega
      | nil =>
        rw [List.nodup_cons] at hnd
        have hxy : x ≠ y := fun h => hnd.1 (by rw [h]; exact List.mem_singleton.mpr rfl)
        rcases List.mem_cons.mp ha with rfl | ha'
        · exact ⟨y, List.mem_cons_of_mem _ (List.mem_singleton.mpr rfl),
            fun h => hxy h.symm⟩
        · rcases List.mem_singleton.mp ha'
          exact ⟨x, List.mem_cons_self x _, hxy⟩

/-- On a closed, well-linked surface whose open slots have pairwise distinct
edges, every edge slot is linked: an open slot would force a third slot on
its 2-count edge. -/
theorem closed_all_linked (faces : List TetrahedralMeshSurfaceTriangle)
    (hmax : faces.length < M_MAX_UNSIGNED)
    (hW : WellLinked faces)
    (hU : openSlotsEdgeDistinct faces)
    (hC : IsClosedSurface faces = true) :
    ∀ i, i < faces.length → ∀ j : Fin 3,
      (getTri faces i).neighbors_ j ≠ M_MAX_UNSIGNED := by
  intro i hi j hopen
  rw [IsClosedSurface] at hC
  simp only [List.all_eq_true, List.mem_range, List.mem_finRange, beq_iff_eq] at hC
  have hcount : edgeCount faces ((getTri faces i).edge j) = 2 := hC i hi j trivial
  set e := (getTri faces i).edge j with he
  rw [edgeCount_eq_slots] at hcount
  have hmem : (i, j) ∈ edgeSlots faces e := (edgeSlots_mem faces e i j).mpr ⟨hi, rfl⟩
  obtain ⟨p, hpmem, hpne⟩ :=
    length_two_other _ hcount (edgeSlots_nodup faces e) _ hmem
  obtain ⟨i', j'⟩ := p
  obtain ⟨hi', he'⟩ := (edgeSlots_mem faces e i' j').mp hpmem
  have hne : (i, j) ≠ (i', j') := fun hq => hpne hq.symm
  by_cases hopen' : (getTri faces i').neighbors_ j' = M_MAX_UNSIGNED
  · exact (hU i i' j j' hi hi' hne hopen hopen') (by rw [← he, he'])
  · obtain ⟨hlt', hne'', j'', hback, hedge⟩ := hW i' j' hi' hopen'
    set v := (getTri faces i').neighbors_ j' with hv
    have hm3 : (v, j'') ∈ edgeSlots faces e :=
      (edgeSlots_mem faces e v j'').mpr ⟨hlt', by rw [hedge, he']⟩
    have hd1 : (v, j'') ≠ (i, j) := by
      rintro h
      injection h with h1 h2
      rw [h1, h2, hopen] at hback
      omega
    have hd2 : (v, j'') ≠ (i', j') := by
      rintro h
      injection h with h1 h2
      exact hne'' h1
    have h3 := nodup_three_le (edgeSlots faces e) (edgeSlots_nodup faces e)
      (i, j) (i', j') (v, j'') hmem hpmem hm3 hne (Ne.symm hd1) (Ne.symm hd2)
    omega

end Urho3D
